import Mathlib

/-!
# utymap: building builder and application facade

A shallow embedding of `core/src/builders/buildings/BuildingBuilder.cpp` and
`core/shared/Application.hpp`, followed by the theorems that settle the
specification's claims about them.

Conventions of the embedding

* C++ `double` values are exact rationals (`ℚ`): the statements about heights
  are statements of exact arithmetic.
* A C++ call either returns, throws a `std::exception` (every `throw` of the
  sources throws a subclass of it) or has undefined behaviour (a null
  `shared_ptr` dereferenced, `end()` dereferenced, a vector read out of range).
  The last two are the two constructors of `Failure`.
* Stateful code is a function from the state before to an `Outcome` and the
  state after; when the call does not return, the state is the one at the
  point of the failure.
* Calls that leave the embedded code (callbacks, strategy builders, the
  elevation provider) are appended to a trace kept in the state.
-/

namespace utymap

/-! ## Data model -/

/-- Geographic coordinate, `GeoCoordinate(latitude, longitude)`. -/
structure GeoCoordinate where
  latitude : ℚ
  longitude : ℚ
deriving DecidableEq, Repr

/-- Two dimensional point, `Vector2(x, y)`. -/
structure Vector2 where
  x : ℚ
  y : ℚ
deriving DecidableEq, Repr

/-- Tag of an element: interned key and value. -/
structure Tag where
  key : Nat
  value : Nat
deriving DecidableEq, Repr

/-- Quadtree tile identifier. -/
structure QuadKey where
  levelOfDetail : Int
  tileX : Int
  tileY : Int
deriving DecidableEq, Repr

/-- The element sum type: node, way, area and relation (which owns its members). -/
inductive Element where
  | node (id : Nat) (tags : List Tag) (coordinate : GeoCoordinate)
  | way (id : Nat) (tags : List Tag) (coordinates : List GeoCoordinate)
  | area (id : Nat) (tags : List Tag) (coordinates : List GeoCoordinate)
  | relation (id : Nat) (tags : List Tag) (elements : List Element)

/-- Field `id` of the common base class. -/
def Element.id : Element → Nat
  | .node id _ _ => id
  | .way id _ _ => id
  | .area id _ _ => id
  | .relation id _ _ => id

/-- Field `tags` of the common base class. -/
def Element.tags : Element → List Tag
  | .node _ tags _ => tags
  | .way _ tags _ => tags
  | .area _ tags _ => tags
  | .relation _ tags _ => tags

/-- Whether the element is an `Area`. -/
def Element.isArea : Element → Bool
  | .area _ _ _ => true
  | _ => false

/-- The way a call can fail to return: a thrown `std::exception` carrying
its `what()` text, or undefined behaviour (described by a text). -/
inductive Failure where
  | exception (what : String)
  | undefined (what : String)
deriving DecidableEq, Repr

/-- How a call ends. -/
inductive Outcome where
  | returned
  | failed (failure : Failure)
deriving DecidableEq, Repr

/-- Modelled from the spec: `mapcss/Style.hpp` is not among the sources. The
style of an element exposes `getString(key) -> optional<string>` and
`getValue(key) -> f64`; the string getter is dereferenced by its callers. -/
structure Style where
  getString : String → Option String
  getValue : String → ℚ

/-- Colour gradient handed from `GradientUtils::evaluateGradient` to the
strategy builders; its content is never inspected by the embedded code. -/
structure ColorGradient where
  stops : List (ℚ × Nat)
deriving DecidableEq, Repr

/-- Modelled from the spec: `meshing/Polygon.hpp` is not among the sources. A
polygon is a contour set plus a hole set, each shape an ordered sequence of
2-D points, together with the raw doubles `points` (x then y for every point
added) that `build` reads its representative point from. -/
structure Polygon where
  points : List ℚ
  contours : List (List Vector2)
  holes : List (List Vector2)
deriving DecidableEq, Repr

/-- The polygon made by `std::make_shared<Polygon>(1, 0)`: the two arguments
only reserve capacity. -/
def Polygon.create (_numberOfPoints _numberOfHoles : Nat) : Polygon :=
  { points := [], contours := [], holes := [] }

/-- The raw doubles of a shape: x then y for each point. -/
def rawDoubles : List Vector2 → List ℚ
  | [] => []
  | p :: ps => p.x :: p.y :: rawDoubles ps

/-- Method `Polygon::addContour`. -/
def Polygon.addContour (polygon : Polygon) (contour : List Vector2) : Polygon :=
  { polygon with
    points := polygon.points ++ rawDoubles contour
    contours := polygon.contours ++ [contour] }

/-- Method `Polygon::addHole`. -/
def Polygon.addHole (polygon : Polygon) (hole : List Vector2) : Polygon :=
  { polygon with
    points := polygon.points ++ rawDoubles hole
    holes := polygon.holes ++ [hole] }

/-- Mesh: name, vertex doubles (three per vertex), triangle indices (three
per triangle) and one colour per vertex. -/
structure Mesh where
  name : String
  vertices : List ℚ
  triangles : List Int
  colors : List Nat
deriving DecidableEq, Repr

/-- The mesh made by `std::make_shared<Mesh>(name)`. -/
def Mesh.create (name : String) : Mesh :=
  { name := name, vertices := [], triangles := [], colors := [] }

/-! ## BuildingBuilder.cpp -/

def RoofTypeKey : String := "roof-type"
def RoofHeightKey : String := "roof-height"
def RoofColorKey : String := "roof-color"
def FacadeTypeKey : String := "facade-type"
def FacadeColorKey : String := "facade-color"
def HeightKey : String := "height"
def MinHeightKey : String := "min-height"
def MeshNamePrefix : String := "building:"

/-- The roof builder classes the factories of `RoofBuilderFactoryMap` make. -/
inductive RoofBuilderClass where
  | EmptyRoofBuilder
  | FlatRoofBuilder
  | DomeRoofBuilder
  | PyramidalRoofBuilder
  | MansardRoofBuilder
deriving DecidableEq, Repr

/-- The facade builder classes the factories of `FacadeBuilderFactoryMap` make. -/
inductive FacadeBuilderClass where
  | FlatFacadeBuilder
  | CylinderFacadeBuilder
  | SphereFacadeBuilder
deriving DecidableEq, Repr

/-- The table `RoofBuilderFactoryMap`, as its list of entries. -/
def RoofBuilderFactoryMap : List (String × RoofBuilderClass) :=
  [ ("none", .EmptyRoofBuilder),
    ("flat", .FlatRoofBuilder),
    ("dome", .DomeRoofBuilder),
    ("pyramidal", .PyramidalRoofBuilder),
    ("mansard", .MansardRoofBuilder) ]

/-- The table `FacadeBuilderFactoryMap`, as its list of entries. -/
def FacadeBuilderFactoryMap : List (String × FacadeBuilderClass) :=
  [ ("flat", .FlatFacadeBuilder),
    ("cylinder", .CylinderFacadeBuilder),
    ("sphere", .SphereFacadeBuilder) ]

/-- What `setHeight`, `setMinHeight` and `setColor(gradient, 0)` leave in a
strategy builder before its `build` runs. -/
structure StrategySettings where
  height : ℚ
  minHeight : ℚ
  gradient : ColorGradient
  colorNoise : ℚ
deriving DecidableEq, Repr

/-- Style provider of the builder context: `forElement(element, levelOfDetail)`. -/
structure StyleProvider where
  forElement : Element → Int → Style

/-- Elevation provider of the builder context: `getElevation(coordinate)`. -/
structure ElevationProvider where
  getElevation : GeoCoordinate → ℚ

/-- The part of `BuilderContext` the building builder reads; the mesh
callback is traced in the builder state. -/
structure BuilderContext where
  quadKey : QuadKey
  styleProvider : StyleProvider
  eleProvider : ElevationProvider

/-- Free functions and classes the building builder calls whose sources are
not in the repository slice: `utils::isClockwise`,
`GradientUtils::evaluateGradient` and the `build` methods of the roof and
facade builders (which write into the mesh of the mesh context). -/
structure Collaborators where
  isClockwise : List GeoCoordinate → Bool
  evaluateGradient : Style → List Tag → String → ColorGradient
  roofBuild : RoofBuilderClass → StrategySettings → Polygon → Mesh → Mesh
  facadeBuild : FacadeBuilderClass → StrategySettings → Polygon → Mesh → Mesh

/-- Calls leaving the building builder, in the order they are made. -/
inductive BuilderEvent where
  | getElevation (coordinate : GeoCoordinate)
  | roofBuild (builder : RoofBuilderClass) (settings : StrategySettings) (polygon : Polygon)
  | facadeBuild (builder : FacadeBuilderClass) (settings : StrategySettings) (polygon : Polygon)
  | meshCallback (mesh : Mesh)
deriving DecidableEq, Repr

/-- The members `polygon_` and `mesh_` of `BuildingBuilderImpl`, and the trace
of the calls made so far. -/
structure BuilderState where
  polygon_ : Option Polygon
  mesh_ : Option Mesh
  trace : List BuilderEvent
deriving DecidableEq, Repr

/-- The state of a freshly constructed builder. -/
def BuilderState.initial : BuilderState :=
  { polygon_ := none, mesh_ := none, trace := [] }

/-- Function `toPoints`: creates points for polygon. -/
def toPoints : List GeoCoordinate → List Vector2
  | [] => []
  | coordinate :: rest => Vector2.mk coordinate.longitude coordinate.latitude :: toPoints rest

/-- Modelled from the spec: `utils::getMeshName` is not among the sources; the
mesh of a building is named `building:<id>`. -/
def getMeshName (namePrefix : String) (element : Element) : String :=
  namePrefix ++ toString element.id

/-- Method `MultiPolygonVisitor::fail`. -/
def MultiPolygonVisitor.fail (element : Element) : Failure :=
  .exception ("Unexpected element in multipolygon: " ++ toString element.id)

/-- Method `MultiPolygonVisitor::visitArea`; the visitor's `polygon_` is the
builder's polygon. -/
def MultiPolygonVisitor.visitArea (ext : Collaborators) (coordinates : List GeoCoordinate)
    (s : BuilderState) : Outcome × BuilderState :=
  match s.polygon_ with
  | none => (.failed (.undefined "null polygon_ dereferenced"), s)
  | some polygon =>
    if ext.isClockwise coordinates then
      (.returned, { s with polygon_ := some (polygon.addContour (toPoints coordinates)) })
    else
      (.returned, { s with polygon_ := some (polygon.addHole (toPoints coordinates)) })

/-- Call `element->accept(visitor)` for a `MultiPolygonVisitor`. -/
def MultiPolygonVisitor.accept (ext : Collaborators) (element : Element) (s : BuilderState) :
    Outcome × BuilderState :=
  match element with
  | .node _ _ _ => (.failed (MultiPolygonVisitor.fail element), s)
  | .way _ _ _ => (.failed (MultiPolygonVisitor.fail element), s)
  | .relation _ _ _ => (.failed (MultiPolygonVisitor.fail element), s)
  | .area _ _ coordinates => MultiPolygonVisitor.visitArea ext coordinates s

/-- The loop `for (element : relation.elements) element->accept(visitor)`
of the multipolygon branch. -/
def MultiPolygonVisitor.acceptAll (ext : Collaborators) :
    List Element → BuilderState → Outcome × BuilderState
  | [], s => (.returned, s)
  | element :: rest, s =>
    match MultiPolygonVisitor.accept ext element s with
    | (.returned, s1) => MultiPolygonVisitor.acceptAll ext rest s1
    | (.failed failure, s1) => (.failed failure, s1)

/-- Method `ensureContext`: returns `justCreated` and the new state. -/
def ensureContext (element : Element) (s : BuilderState) : Bool × BuilderState :=
  let s1 : BuilderState :=
    if s.polygon_.isNone then { s with polygon_ := some (Polygon.create 1 0) } else s
  if s1.mesh_.isNone then
    (true, { s1 with mesh_ := some (Mesh.create (getMeshName MeshNamePrefix element)) })
  else
    (false, s1)

/-- Method `completeIfNecessary`. -/
def completeIfNecessary (justCreated : Bool) (s : BuilderState) : Outcome × BuilderState :=
  if justCreated then
    match s.mesh_ with
    | none => (.failed (.undefined "null mesh_ dereferenced"), s)
    | some mesh => (.returned, { s with trace := s.trace ++ [.meshCallback mesh], mesh_ := none })
  else
    (.returned, s)

/-- The test `*style.getString(key) == "true"` shared by `isBuilding` and
`isMultipolygon`: the pointer is dereferenced unchecked. -/
def derefEqualsTrue (style : Style) (key : String) : Except Failure Bool :=
  match style.getString key with
  | none => .error (.undefined ("null string dereferenced: " ++ key))
  | some value => .ok (value == "true")

/-- Method `isBuilding`. -/
def isBuilding (style : Style) : Except Failure Bool :=
  derefEqualsTrue style "building"

/-- Method `isMultipolygon`. -/
def isMultipolygon (style : Style) : Except Failure Bool :=
  derefEqualsTrue style "multipolygon"

/-- Method `BuildingBuilderImpl::build`. -/
def build (ext : Collaborators) (context_ : BuilderContext) (element : Element) (style : Style)
    (s : BuilderState) : Outcome × BuilderState :=
  match s.mesh_ with
  | none => (.failed (.undefined "null mesh_ dereferenced"), s)
  | some mesh =>
  match s.polygon_ with
  | none => (.failed (.undefined "null polygon_ dereferenced"), s)
  | some polygon =>
  match polygon.points[1]?, polygon.points[0]? with
  | some p1, some p0 =>
    let geoCoordinate := GeoCoordinate.mk p1 p0
    let height := style.getValue HeightKey
    -- NOTE do not allow height to be zero.
    let height := if height = 0 then 10 else height
    let minHeight := style.getValue MinHeightKey
    let elevation := context_.eleProvider.getElevation geoCoordinate + minHeight
    let s1 : BuilderState := { s with trace := s.trace ++ [.getElevation geoCoordinate] }
    let height := height - minHeight
    -- roof
    let roofHeight := style.getValue RoofHeightKey
    let roofGradient := ext.evaluateGradient style element.tags RoofColorKey
    match style.getString RoofTypeKey with
    | none => (.failed (.undefined "null roofType dereferenced"), s1)
    | some roofType =>
    match RoofBuilderFactoryMap.lookup roofType with
    | none => (.failed (.undefined "RoofBuilderFactoryMap.end() dereferenced"), s1)
    | some roofBuilder =>
      let roofSettings : StrategySettings :=
        { height := roofHeight, minHeight := elevation + height,
          gradient := roofGradient, colorNoise := 0 }
      let mesh1 := match roofBuilder with
        | .EmptyRoofBuilder => mesh
        | other => ext.roofBuild other roofSettings polygon mesh
      let s2 : BuilderState :=
        { s1 with mesh_ := some mesh1
                  trace := s1.trace ++ [.roofBuild roofBuilder roofSettings polygon] }
      -- facade
      match style.getString FacadeTypeKey with
      | none => (.failed (.undefined "null facadeType dereferenced"), s2)
      | some facadeType =>
      match FacadeBuilderFactoryMap.lookup facadeType with
      | none => (.failed (.undefined "FacadeBuilderFactoryMap.end() dereferenced"), s2)
      | some facadeBuilder =>
        let facadeGradient := ext.evaluateGradient style element.tags FacadeColorKey
        let facadeSettings : StrategySettings :=
          { height := height, minHeight := elevation,
            gradient := facadeGradient, colorNoise := 0 }
        let mesh2 := ext.facadeBuild facadeBuilder facadeSettings polygon mesh1
        (.returned,
          { polygon_ := none
            mesh_ := some mesh2
            trace := s2.trace ++ [.facadeBuild facadeBuilder facadeSettings polygon] })
  | _, _ => (.failed (.undefined "polygon_->points read out of range"), s)

/-- Methods `visitNode` and `visitWay`: empty bodies. -/
def visitNode (s : BuilderState) : Outcome × BuilderState := (.returned, s)

/-- Method `visitWay`: empty body. -/
def visitWay (s : BuilderState) : Outcome × BuilderState := (.returned, s)

/-- Method `BuildingBuilderImpl::visitArea`, for the area with the given
fields. -/
def visitArea (ext : Collaborators) (context_ : BuilderContext) (id : Nat) (tags : List Tag)
    (coordinates : List GeoCoordinate) (s : BuilderState) : Outcome × BuilderState :=
  let area := Element.area id tags coordinates
  let style := context_.styleProvider.forElement area context_.quadKey.levelOfDetail
  -- NOTE this might happen if relation contains not a building
  match isBuilding style with
  | .error failure => (.failed failure, s)
  | .ok false => (.returned, s)
  | .ok true =>
    let (justCreated, s1) := ensureContext area s
    match s1.polygon_ with
    | none => (.failed (.undefined "null polygon_ dereferenced"), s1)
    | some polygon =>
      let s2 : BuilderState := { s1 with polygon_ := some (polygon.addContour (toPoints coordinates)) }
      match build ext context_ area style s2 with
      | (.returned, s3) => completeIfNecessary justCreated s3
      | (.failed failure, s3) => (.failed failure, s3)

mutual
/-- The call `element->accept(*this)` on the building builder: dispatch to
`visitNode`, `visitWay`, `visitArea`, or the body of `visitRelation`. -/
def accept (ext : Collaborators) (context_ : BuilderContext) :
    Element → BuilderState → Outcome × BuilderState
  | .node _ _ _, s => visitNode s
  | .way _ _ _, s => visitWay s
  | .area id tags coordinates, s => visitArea ext context_ id tags coordinates s
  | .relation id tags elements, s =>
    -- body of BuildingBuilderImpl::visitRelation
    if elements.isEmpty then (.returned, s)
    else
      let relation := Element.relation id tags elements
      let (justCreated, s1) := ensureContext relation s
      let style := context_.styleProvider.forElement relation context_.quadKey.levelOfDetail
      let multipolygonBuilding : Except Failure Bool :=
        match isMultipolygon style with
        | .error failure => .error failure
        | .ok false => .ok false
        | .ok true => isBuilding style
      match multipolygonBuilding with
      | .error failure => (.failed failure, s1)
      | .ok true =>
        match MultiPolygonVisitor.acceptAll ext elements s1 with
        | (.failed failure, s2) => (.failed failure, s2)
        | (.returned, s2) =>
          match build ext context_ relation style s2 with
          | (.returned, s3) => completeIfNecessary justCreated s3
          | (.failed failure, s3) => (.failed failure, s3)
      | .ok false =>
        match acceptAll ext context_ elements s1 with
        | (.returned, s2) => completeIfNecessary justCreated s2
        | (.failed failure, s2) => (.failed failure, s2)
/-- The loop `for (element : relation.elements) element->accept(*this)`. -/
def acceptAll (ext : Collaborators) (context_ : BuilderContext) :
    List Element → BuilderState → Outcome × BuilderState
  | [], s => (.returned, s)
  | element :: rest, s =>
    match accept ext context_ element s with
    | (.returned, s1) => acceptAll ext context_ rest s1
    | (.failed failure, s1) => (.failed failure, s1)
end

/-- Method `BuildingBuilderImpl::visitRelation` (its body is the relation case
of `accept`, through which nested relations re-enter it). -/
def visitRelation (ext : Collaborators) (context_ : BuilderContext) (id : Nat) (tags : List Tag)
    (elements : List Element) (s : BuilderState) : Outcome × BuilderState :=
  accept ext context_ (.relation id tags elements) s

/-! ## Application.hpp -/

def InMemoryStorageKey : String := "InMemory"
def PersistentStorageKey : String := "OnDisk"

/-- Constant `SrtmElevationLodStart`. -/
def SrtmElevationLodStart : Int := 42

/-- Inclusive range of levels of detail. -/
structure LodRange where
  start : Int
  finish : Int
deriving DecidableEq, Repr

/-- Geographic bounding box. -/
structure BoundingBox where
  minPoint : GeoCoordinate
  maxPoint : GeoCoordinate
deriving DecidableEq, Repr

/-- The two elevation provider members of `Application`. -/
inductive ElevationProviderMember where
  | flatEleProvider_
  | srtmEleProvider_
deriving DecidableEq, Repr

/-- Parsed stylesheet, the result of `MapCssParser::parse`; its content is
never inspected by the embedded code. -/
structure StyleSheet where
  rules : List String
deriving DecidableEq, Repr

/-- A `std::shared_ptr<StyleProvider>`: the address of the provider object
(its identity) and the stylesheet it was constructed from. -/
structure StyleProviderPtr where
  address : Nat
  stylesheet : StyleSheet
deriving DecidableEq, Repr

/-- The data argument of the `geoStore_.add` overloads. -/
inductive AddRequest where
  | fileLodRange (path : String) (range : LodRange)
  | fileQuadKey (path : String) (quadKey : QuadKey)
  | fileBoundingBox (path : String) (bbox : BoundingBox) (range : LodRange)
  | element (element : Element) (range : LodRange)

/-- What `quadKeyBuilder_.build` does with the two callbacks it is given. -/
inductive PipelineStep where
  | mesh (mesh : Mesh)
  | element (element : Element)

/-- The collaborators of `Application` whose sources are not in the repository
slice: the file system seen by `std::ifstream`, the stylesheet parser, the geo
store, the quadkey builder (the sequence of callback invocations it makes and
how it ends) and the elevation preload. -/
structure World where
  readFile : String → Option String
  parse : String → String → Except String StyleSheet
  geoStoreAdd : String → AddRequest → StyleProviderPtr → Outcome
  quadKeyBuild : QuadKey → StyleProviderPtr → ElevationProviderMember → List PipelineStep × Outcome
  quadKeyToBoundingBox : QuadKey → BoundingBox
  preload : ElevationProviderMember → BoundingBox → Outcome

/-- Calls leaving `Application`, in the order they are made. -/
inductive AppEvent where
  | errorCallback (what : String)
  | meshCallback (name : String) (vertices : List ℚ) (vertexCount : Int)
      (triangles : List Int) (triangleCount : Int) (colors : List Nat) (colorCount : Int)
  | elementAccept (element : Element)
  | fileOpened (filePath : String)
  | parse (dir : String) (filePath : String)
  | geoStoreAdd (storeKey : String) (request : AddRequest) (provider : StyleProviderPtr)
  | quadKeyBuild (quadKey : QuadKey) (provider : StyleProviderPtr)
      (eleProvider : ElevationProviderMember)
  | preload (eleProvider : ElevationProviderMember) (bbox : BoundingBox)

/-- The mutable part of `Application`: the map `styleProviders_` (as its
entries, newest first), the number of provider objects allocated so far, and
the trace of calls made. -/
structure Application where
  styleProviders_ : List (String × StyleProviderPtr)
  allocated : Nat
  trace : List AppEvent

/-- A freshly constructed application. -/
def Application.initial : Application :=
  { styleProviders_ := [], allocated := 0, trace := [] }

/-- The value `std::string::npos` for a 64-bit `size_t`. -/
def npos : Nat := 2 ^ 64 - 1

/-- Scan of `find_last_of`: the index of the last character seen so far that
belongs to `chars`. -/
def find_last_of.scan (chars : List Char) : List Char → Nat → Nat → Nat
  | [], _, last => last
  | c :: rest, index, last =>
    find_last_of.scan chars rest (index + 1) (if chars.contains c then index else last)

/-- Method `std::string::find_last_of`: the index of the last character of
`value` that is one of `chars`, `npos` when there is none. -/
def find_last_of (value : String) (chars : String) : Nat :=
  find_last_of.scan chars.data value.data 0 npos

/-- Method `std::string::substr(pos, count)` for `pos` within the string. -/
def substr (value : String) (pos count : Nat) : String :=
  String.mk ((value.data.drop pos).take count)

/-- Conversion `static_cast<int>` of a `size_t`: wraps to 32 bits, two's complement. -/
def static_cast_int (n : Nat) : Int :=
  ((n + 2 ^ 31) % 2 ^ 32 : Nat) - 2 ^ 31

/-- Method `Application::safeExecute`; the error callback is traced. -/
def safeExecute (action : Application → Outcome × Application) (app : Application) :
    Outcome × Application :=
  match action app with
  | (.returned, app1) => (.returned, app1)
  | (.failed (.exception what), app1) =>
    (.returned, { app1 with trace := app1.trace ++ [.errorCallback what] })
  | (.failed (.undefined what), app1) => (.failed (.undefined what), app1)

/-- Method `Application::getElevationProvider`. -/
def getElevationProvider (quadKey : QuadKey) : ElevationProviderMember :=
  if quadKey.levelOfDetail ≤ SrtmElevationLodStart then .flatEleProvider_
  else .srtmEleProvider_

/-- Method `Application::getStyleProvider`. -/
def getStyleProvider (world : World) (filePath : String) (app : Application) :
    Except Failure StyleProviderPtr × Application :=
  match app.styleProviders_.lookup filePath with
  | some provider => (.ok provider, app)
  | none =>
    let app1 : Application := { app with trace := app.trace ++ [.fileOpened filePath] }
    match world.readFile filePath with
    | none => (.error (.exception ("Cannot read mapcss file:" ++ filePath)), app1)
    | some content =>
      -- NOTE not safe, but don't want to use boost filesystem only for this task.
      let dir := substr filePath 0 ((find_last_of filePath "\\/" + 1) % 2 ^ 64)
      let app2 : Application := { app1 with trace := app1.trace ++ [.parse dir filePath] }
      match world.parse dir content with
      | .error what => (.error (.exception what), app2)
      | .ok stylesheet =>
        let provider : StyleProviderPtr := { address := app2.allocated, stylesheet := stylesheet }
        (.ok provider,
          { app2 with styleProviders_ := (filePath, provider) :: app2.styleProviders_
                      allocated := app2.allocated + 1 })

/-- Method `Application::registerStylesheet`. -/
def registerStylesheet (world : World) (path : String) (app : Application) :
    Outcome × Application :=
  match getStyleProvider world path app with
  | (.ok _, app1) => (.returned, app1)
  | (.error failure, app1) => (.failed failure, app1)

/-- Method `Application::preloadElevation`. -/
def preloadElevation (world : World) (quadKey : QuadKey) (app : Application) :
    Outcome × Application :=
  let eleProvider := getElevationProvider quadKey
  let bbox := world.quadKeyToBoundingBox quadKey
  (world.preload eleProvider bbox, { app with trace := app.trace ++ [.preload eleProvider bbox] })

/-- The body shared by the `add` operations:
`geoStore_.add(storeKey, ..., *getStyleProvider(styleFile).get())`. -/
def geoStoreAdd (world : World) (storeKey : String) (styleFile : String) (request : AddRequest)
    (app : Application) : Outcome × Application :=
  match getStyleProvider world styleFile app with
  | (.error failure, app1) => (.failed failure, app1)
  | (.ok provider, app1) =>
    (world.geoStoreAdd storeKey request provider,
      { app1 with trace := app1.trace ++ [.geoStoreAdd storeKey request provider] })

/-- Overload `addToPersistentStore(styleFile, path, quadKey, errorCallback)`:
empty body. -/
def addToPersistentStore.quadKey (_world : World) (_styleFile _path : String)
    (_quadKey : QuadKey) (app : Application) : Outcome × Application :=
  (.returned, app)

/-- Overload `addToPersistentStore(styleFile, path, range, errorCallback)`. -/
def addToPersistentStore.lodRange (world : World) (styleFile path : String) (range : LodRange)
    (app : Application) : Outcome × Application :=
  safeExecute (geoStoreAdd world PersistentStorageKey styleFile (.fileLodRange path range)) app

/-- Overload `addToInMemoryStore(styleFile, path, quadKey, errorCallback)`. -/
def addToInMemoryStore.quadKey (world : World) (styleFile path : String) (quadKey : QuadKey)
    (app : Application) : Outcome × Application :=
  safeExecute (geoStoreAdd world InMemoryStorageKey styleFile (.fileQuadKey path quadKey)) app

/-- Overload `addToInMemoryStore(styleFile, path, bbox, range, errorCallback)`. -/
def addToInMemoryStore.boundingBox (world : World) (styleFile path : String) (bbox : BoundingBox)
    (range : LodRange) (app : Application) : Outcome × Application :=
  safeExecute
    (geoStoreAdd world InMemoryStorageKey styleFile (.fileBoundingBox path bbox range)) app

/-- Overload `addToInMemoryStore(styleFile, path, range, errorCallback)`. -/
def addToInMemoryStore.lodRange (world : World) (styleFile path : String) (range : LodRange)
    (app : Application) : Outcome × Application :=
  safeExecute (geoStoreAdd world InMemoryStorageKey styleFile (.fileLodRange path range)) app

/-- Method `addInMemoryStore(styleFile, element, range, errorCallback)`. -/
def addInMemoryStore (world : World) (styleFile : String) (element : Element) (range : LodRange)
    (app : Application) : Outcome × Application :=
  safeExecute (geoStoreAdd world InMemoryStorageKey styleFile (.element element range)) app

/-- The mesh lambda `loadQuadKey` hands to the quadkey builder. -/
def loadQuadKey.meshLambda (mesh : Mesh) (app : Application) : Application :=
  -- NOTE do not notify if mesh is empty.
  if !mesh.vertices.isEmpty then
    { app with trace := app.trace ++
        [.meshCallback mesh.name
          mesh.vertices (static_cast_int mesh.vertices.length)
          mesh.triangles (static_cast_int mesh.triangles.length)
          mesh.colors (static_cast_int mesh.colors.length)] }
  else app

/-- The element lambda `loadQuadKey` hands to the quadkey builder. -/
def loadQuadKey.elementLambda (element : Element) (app : Application) : Application :=
  { app with trace := app.trace ++ [.elementAccept element] }

/-- The callbacks of `loadQuadKey` run over the steps of the pipeline. -/
def loadQuadKey.runSteps : List PipelineStep → Application → Application
  | [], app => app
  | .mesh mesh :: rest, app => loadQuadKey.runSteps rest (loadQuadKey.meshLambda mesh app)
  | .element element :: rest, app =>
    loadQuadKey.runSteps rest (loadQuadKey.elementLambda element app)

/-- The body `loadQuadKey` passes to `safeExecute`. -/
def loadQuadKey.body (world : World) (styleFile : String) (quadKey : QuadKey)
    (app : Application) : Outcome × Application :=
  match getStyleProvider world styleFile app with
  | (.error failure, app1) => (.failed failure, app1)
  | (.ok styleProvider, app1) =>
    let eleProvider := getElevationProvider quadKey
    let app2 : Application :=
      { app1 with trace := app1.trace ++ [.quadKeyBuild quadKey styleProvider eleProvider] }
    let pipeline := world.quadKeyBuild quadKey styleProvider eleProvider
    (pipeline.2, loadQuadKey.runSteps pipeline.1 app2)

/-- Method `Application::loadQuadKey`. -/
def loadQuadKey (world : World) (styleFile : String) (quadKey : QuadKey) (app : Application) :
    Outcome × Application :=
  safeExecute (loadQuadKey.body world styleFile quadKey) app

/-! ## ShapeParser.hpp -/

/-- Tag of `formats/FormatTypes.hpp`: key and value as text. -/
structure formats.Tag where
  key : String
  value : String
deriving DecidableEq, Repr

/-- Member of a polygon relation, of `formats/FormatTypes.hpp`. -/
structure PolygonMember where
  isRing : Bool
  coordinates : List GeoCoordinate
deriving DecidableEq, Repr

/-- The shape type codes of `shapefil.h` (shapelib, which is not among the sources). -/
def SHPT_POINT : Int := 1
def SHPT_ARC : Int := 3
def SHPT_POLYGON : Int := 5
def SHPT_MULTIPOINT : Int := 8
def SHPT_POINTZ : Int := 11
def SHPT_ARCZ : Int := 13
def SHPT_POLYGONZ : Int := 15
def SHPT_MULTIPOINTZ : Int := 18
def SHPT_POINTM : Int := 21
def SHPT_ARCM : Int := 23
def SHPT_POLYGONM : Int := 25
def SHPT_MULTIPOINTM : Int := 28
def SHPT_MULTIPATCH : Int := 31

/-- The part type code `SHPP_RING` of `shapefil.h`. -/
def SHPP_RING : Int := 5

/-- The fields of `SHPObject` (of `shapefil.h`) that the parser reads. -/
structure SHPObject where
  nSHPType : Int
  nParts : Int
  panPartStart : List Int
  panPartType : List Int
  nVertices : Int
  padfX : List ℚ
  padfY : List ℚ
deriving DecidableEq, Repr

/-- The enumeration `DBFFieldType` of `shapefil.h`. -/
inductive DBFFieldType where
  | FTString
  | FTInteger
  | FTDouble
  | FTLogical
  | FTInvalid
deriving DecidableEq, Repr

/-- An open shape file, as seen through `SHPGetInfo` and `SHPReadObject`
(which gives `NULL` for a record it cannot read). -/
structure SHPHandle where
  entityCount : Int
  readObject : Nat → Option SHPObject

/-- An open DBF table, as seen through the `DBF*` functions the parser calls;
`getFieldInfo` gives the type and the title of a field. -/
structure DBFHandle where
  fieldCount : Int
  recordCount : Int
  isAttributeNULL : Nat → Nat → Bool
  getFieldInfo : Nat → DBFFieldType × String
  readStringAttribute : Nat → Nat → String
  readIntegerAttribute : Nat → Nat → Int
  readDoubleAttribute : Nat → Nat → ℚ

/-- The collaborators of the parser whose sources are not in the repository
slice: opening the two files (`NULL` on failure) and the text a
`std::stringstream` gives for a `double`. -/
structure ShapeLib where
  SHPOpen : String → Option SHPHandle
  DBFOpen : String → Option DBFHandle
  doubleToString : ℚ → String

/-- Calls leaving the parser, in the order they are made: the records read,
the visitor calls and what is written to `std::cerr` (a text, or the name of
a shape type). -/
inductive ShapeEvent where
  | readObject (k : Nat)
  | visitNode (coordinate : GeoCoordinate) (tags : List formats.Tag)
  | visitWay (coordinates : List GeoCoordinate) (tags : List formats.Tag) (isClosed : Bool)
  | visitRelation (members : List PolygonMember) (tags : List formats.Tag)
  | cerr (text : String)
  | cerrTypeName (nSHPType : Int)
deriving DecidableEq, Repr

/-- Array reads made by the loop of `visitPolygon`, by array and index. -/
inductive ArrayRead where
  | panPartStart (index : Int)
  | panPartType (index : Int)
  | padfX (index : Int)
  | padfY (index : Int)
deriving DecidableEq, Repr

/-- The value `GeoCoordinate(shape.padfY[i], shape.padfX[i])`, when both reads
are in range. -/
def readVertex (shape : SHPObject) (i : Nat) : Option GeoCoordinate :=
  match shape.padfY[i]?, shape.padfX[i]? with
  | some y, some x => some (GeoCoordinate.mk y x)
  | _, _ => none

/-- The body of the field loop of `parseTags`, for field `i` of record `k`. -/
def parseTags.field (lib : ShapeLib) (dbfFile : DBFHandle) (k i : Nat)
    (tags : List formats.Tag) : List formats.Tag :=
  if dbfFile.isAttributeNULL k i then tags
  else
    let info := dbfFile.getFieldInfo i
    let key := info.2
    let value : String :=
      match info.1 with
      | .FTString => dbfFile.readStringAttribute k i
      | .FTInteger => toString (dbfFile.readIntegerAttribute k i)
      | .FTDouble => lib.doubleToString (dbfFile.readDoubleAttribute k i)
      | _ => ""
    tags ++ [{ key := key, value := value }]

/-- The field loop of `parseTags`: `remaining` iterations from field `i`. -/
def parseTags.loop (lib : ShapeLib) (dbfFile : DBFHandle) (k : Nat) :
    Nat → Nat → List formats.Tag → List formats.Tag
  | 0, _, tags => tags
  | remaining + 1, i, tags =>
    parseTags.loop lib dbfFile k remaining (i + 1) (parseTags.field lib dbfFile k i tags)

/-- Method `ShapeParser::parseTags`. -/
def parseTags (lib : ShapeLib) (dbfFile : DBFHandle) (k : Nat) : List formats.Tag :=
  parseTags.loop lib dbfFile k dbfFile.fieldCount.toNat 0 []

/-- Method `ShapeParser::visitPoint`. -/
def visitPoint (shape : SHPObject) (tags : List formats.Tag) (trace : List ShapeEvent) :
    Outcome × List ShapeEvent :=
  match readVertex shape 0 with
  | none => (.failed (.undefined "padfY or padfX read out of range"), trace)
  | some coordinate => (.returned, trace ++ [.visitNode coordinate tags])

/-- The vertex loop of `visitArc`: `remaining` iterations from index `i`. -/
def visitArc.loop (shape : SHPObject) :
    Nat → Nat → List GeoCoordinate → Except Failure (List GeoCoordinate)
  | 0, _, coordinates => .ok coordinates
  | remaining + 1, i, coordinates =>
    match readVertex shape i with
    | none => .error (.undefined "padfY or padfX read out of range")
    | some coordinate => visitArc.loop shape remaining (i + 1) (coordinates ++ [coordinate])

/-- Method `ShapeParser::visitArc`; `==` on `GeoCoordinate` (whose header is
not among the sources) is equality of latitude and longitude. -/
def visitArc (shape : SHPObject) (tags : List formats.Tag) (trace : List ShapeEvent) :
    Outcome × List ShapeEvent :=
  if shape.nParts > 1 then
    (.returned, trace ++ [.cerr "Arc type has more than one part."])
  else
    match visitArc.loop shape shape.nVertices.toNat 0 [] with
    | .error failure => (.failed failure, trace)
    | .ok coordinates =>
      match coordinates[0]?, coordinates[coordinates.length - 1]? with
      | some first, some last =>
        (.returned, trace ++ [.visitWay coordinates tags (decide (first = last))])
      | _, _ => (.failed (.undefined "coordinates read out of range"), trace)

/-- The local variables of the loop of `visitPolygon`: the members, the
pointer `coordinates` (the index of the member whose coordinate list it points
to, `none` while it is uninitialised) and `partNum`; with the array reads made
so far. -/
structure PolygonLoop where
  members : List PolygonMember
  coordinates : Option Nat
  partNum : Nat
  reads : List ArrayRead
deriving DecidableEq, Repr

/-- The state before the first iteration of the loop of `visitPolygon`. -/
def PolygonLoop.initial : PolygonLoop :=
  { members := [], coordinates := none, partNum := 0, reads := [] }

/-- The call `coordinates->push_back(coordinate)` for a pointer into member `target`. -/
def pushCoordinate : List PolygonMember → Nat → GeoCoordinate → List PolygonMember
  | [], _, _ => []
  | member :: rest, 0, coordinate =>
    { member with coordinates := member.coordinates ++ [coordinate] } :: rest
  | member :: rest, target + 1, coordinate => member :: pushCoordinate rest target coordinate

/-- The `if` of the loop body of `visitPolygon` at vertex `i`. The read of
`panPartStart[partNum]` precedes the test of `partNum`; out of range it gives
an indeterminate value, which is looked at only when `partNum < nParts`.
Since `members.size()` equals `partNum`, `members[partNum]` is the member
just pushed. -/
def visitPolygon.openPart (shape : SHPObject) (i : Nat) (st : PolygonLoop) :
    Except Failure PolygonLoop :=
  let startIndex := shape.panPartStart[st.partNum]?
  let st1 : PolygonLoop := { st with reads := st.reads ++ [.panPartStart st.partNum] }
  if (st.partNum : Int) < shape.nParts then
    match startIndex with
    | none => .error (.undefined "panPartStart read out of range")
    | some start =>
      if start = (i : Int) then
        -- TODO check inner/outer? Check whether this flag is true for closed polygon only
        match shape.panPartType[st.partNum]? with
        | none => .error (.undefined "panPartType read out of range")
        | some partType =>
          let readsType := st1.reads ++ [.panPartType st.partNum]
          if (st.partNum : Int) = shape.nParts - 1 then
            if shape.nVertices - start < 0 then .error (.exception "vector::reserve")
            else
              .ok { members := st.members ++ [{ isRing := partType == SHPP_RING, coordinates := [] }]
                    coordinates := some st.partNum
                    partNum := st.partNum + 1
                    reads := readsType }
          else
            match shape.panPartStart[st.partNum + 1]? with
            | none => .error (.undefined "panPartStart read out of range")
            | some endIndex =>
              if endIndex - start < 0 then .error (.exception "vector::reserve")
              else
                .ok { members := st.members ++
                        [{ isRing := partType == SHPP_RING, coordinates := [] }]
                      coordinates := some st.partNum
                      partNum := st.partNum + 1
                      reads := readsType ++ [.panPartStart (st.partNum + 1)] }
      else .ok st1
  else .ok st1

/-- The loop body of `visitPolygon` at vertex `i`. -/
def visitPolygon.step (shape : SHPObject) (i : Nat) (st : PolygonLoop) :
    Except Failure PolygonLoop :=
  match visitPolygon.openPart shape i st with
  | .error failure => .error failure
  | .ok st1 =>
    match st1.coordinates with
    | none => .error (.undefined "uninitialised pointer coordinates dereferenced")
    | some target =>
      match readVertex shape i with
      | none => .error (.undefined "padfY or padfX read out of range")
      | some coordinate =>
        .ok { st1 with members := pushCoordinate st1.members target coordinate
                       reads := st1.reads ++ [.padfY i, .padfX i] }

/-- The loop of `visitPolygon`: `remaining` iterations from vertex `i`. -/
def visitPolygon.loop (shape : SHPObject) : Nat → Nat → PolygonLoop → Except Failure PolygonLoop
  | 0, _, st => .ok st
  | remaining + 1, i, st =>
    match visitPolygon.step shape i st with
    | .error failure => .error failure
    | .ok st1 => visitPolygon.loop shape remaining (i + 1) st1

/-- Method `ShapeParser::visitPolygon`. -/
def visitPolygon (shape : SHPObject) (tags : List formats.Tag) (trace : List ShapeEvent) :
    Outcome × List ShapeEvent :=
  match visitPolygon.loop shape shape.nVertices.toNat 0 PolygonLoop.initial with
  | .error failure => (.failed failure, trace)
  | .ok st => (.returned, trace ++ [.visitRelation st.members tags])

/-- Method `ShapeParser::visitShape`. -/
def visitShape (shape : SHPObject) (tags : List formats.Tag) (trace : List ShapeEvent) :
    Outcome × List ShapeEvent :=
  if shape.nSHPType = SHPT_POINT ∨ shape.nSHPType = SHPT_POINTM
      ∨ shape.nSHPType = SHPT_POINTZ then
    visitPoint shape tags trace
  else if shape.nSHPType = SHPT_ARC ∨ shape.nSHPType = SHPT_ARCZ
      ∨ shape.nSHPType = SHPT_ARCM then
    visitArc shape tags trace
  else if shape.nSHPType = SHPT_POLYGON ∨ shape.nSHPType = SHPT_POLYGONZ
      ∨ shape.nSHPType = SHPT_POLYGONM then
    visitPolygon shape tags trace
  else if shape.nSHPType = SHPT_MULTIPOINT ∨ shape.nSHPType = SHPT_MULTIPOINTZ
      ∨ shape.nSHPType = SHPT_MULTIPOINTM ∨ shape.nSHPType = SHPT_MULTIPATCH then
    (.returned, trace ++ [.cerr "Unsupported shape type:", .cerrTypeName shape.nSHPType])
  else
    (.returned, trace ++ [.cerr "Unknown shape type:", .cerrTypeName shape.nSHPType])

/-- The record loop of `parse`: `remaining` iterations from record `k`. -/
def parse.loop (lib : ShapeLib) (shpFile : SHPHandle) (dbfFile : DBFHandle) :
    Nat → Nat → List ShapeEvent → Outcome × List ShapeEvent
  | 0, _, trace => (.returned, trace)
  | remaining + 1, k, trace =>
    let trace1 := trace ++ [.readObject k]
    match shpFile.readObject k with
    | none => (.failed (.exception ("Unable to read shape:" ++ toString k)), trace1)
    | some shape =>
      let tags := parseTags lib dbfFile k
      match visitShape shape tags trace1 with
      | (.failed failure, trace2) => (.failed failure, trace2)
      | (.returned, trace2) => parse.loop lib shpFile dbfFile remaining (k + 1) trace2

/-- Method `ShapeParser::parse`. -/
def parse (lib : ShapeLib) (path : String) (trace : List ShapeEvent) :
    Outcome × List ShapeEvent :=
  match lib.SHPOpen path with
  | none => (.failed (.exception "Cannot open shp file."), trace)
  | some shpFile =>
    match lib.DBFOpen path with
    | none => (.failed (.exception "Cannot open dbf file."), trace)
    | some dbfFile =>
      if dbfFile.fieldCount = 0 then
        (.failed (.exception "There are no fields in dbf table."), trace)
      else if shpFile.entityCount ≠ dbfFile.recordCount then
        (.failed (.exception "dbf file has different entity count."), trace)
      else
        parse.loop lib shpFile dbfFile shpFile.entityCount.toNat 0 trace

/-! ## CoreUtils.hpp -/

/-- Algorithm `std::equal(first1, last1, first2)`: the elements of the first
range are compared, in order, with those of the range that starts at `first2`,
up to the first difference. The second range is read as far as the first one
goes; reading past its end is undefined. -/
def std.equal : List Char → List Char → Except Failure Bool
  | [], _ => .ok true
  | _ :: _, [] => .error (.undefined "iterator advanced past the end")
  | a :: range1, b :: range2 => if a = b then std.equal range1 range2 else .ok false

/-- Function `utils::endsWith`; `rbegin()` to `rend()` runs over the
characters of a string from the last to the first. -/
def endsWith (value ending : String) : Except Failure Bool :=
  if ending.data.length > value.data.length then .ok false
  else std.equal ending.data.reverse value.data.reverse

/-! ## Observations on traces -/

/-- Heights handed to the facade builders, one per facade `build` call of a trace. -/
def facadeHeights : List BuilderEvent → List ℚ
  | [] => []
  | .facadeBuild _ settings _ :: rest => settings.height :: facadeHeights rest
  | _ :: rest => facadeHeights rest

/-- The meshes handed to the mesh callback, in call order. -/
def emittedMeshes : List BuilderEvent → List Mesh
  | [] => []
  | .meshCallback mesh :: rest => mesh :: emittedMeshes rest
  | _ :: rest => emittedMeshes rest

/-- Polygons handed to the strategy builders, one per roof or facade `build`
call of a trace. -/
def strategyPolygons : List BuilderEvent → List Polygon
  | [] => []
  | .roofBuild _ _ polygon :: rest => polygon :: strategyPolygons rest
  | .facadeBuild _ _ polygon :: rest => polygon :: strategyPolygons rest
  | _ :: rest => strategyPolygons rest

/-- The shapes of the members that are areas of the given winding
(`true`: clockwise), in member order. -/
def windingShapes (ext : Collaborators) (clockwise : Bool) : List Element → List (List Vector2)
  | [] => []
  | .area _ _ coordinates :: rest =>
    if ext.isClockwise coordinates = clockwise then
      toPoints coordinates :: windingShapes ext clockwise rest
    else windingShapes ext clockwise rest
  | _ :: rest => windingShapes ext clockwise rest

/-- The raw doubles of all area members, in member order. -/
def memberDoubles : List Element → List ℚ
  | [] => []
  | .area _ _ coordinates :: rest => rawDoubles (toPoints coordinates) ++ memberDoubles rest
  | _ :: rest => memberDoubles rest

/-- Messages handed to the error callback, one per call of a trace. -/
def errorMessages : List AppEvent → List String
  | [] => []
  | .errorCallback what :: rest => what :: errorMessages rest
  | _ :: rest => errorMessages rest

/-- Vertex buffers handed to the user mesh callback, one per call of a trace. -/
def onMeshBuffers : List AppEvent → List (List ℚ)
  | [] => []
  | .meshCallback _ vertices _ _ _ _ _ :: rest => vertices :: onMeshBuffers rest
  | _ :: rest => onMeshBuffers rest

/-- The three counts handed to the user mesh callback (after the vertex, the
triangle and the colour buffer), one triple per call of a trace. -/
def onMeshCounts : List AppEvent → List (Int × Int × Int)
  | [] => []
  | .meshCallback _ _ vertexCount _ triangleCount _ colorCount :: rest =>
    (vertexCount, triangleCount, colorCount) :: onMeshCounts rest
  | _ :: rest => onMeshCounts rest

/-- The vertex buffers of the meshes of a pipeline run that are not empty, in order. -/
def handedNonEmpty : List PipelineStep → List (List ℚ)
  | [] => []
  | .mesh mesh :: rest =>
    if mesh.vertices = [] then handedNonEmpty rest else mesh.vertices :: handedNonEmpty rest
  | .element _ :: rest => handedNonEmpty rest

/-- The vertices of a record: `GeoCoordinate(padfY[i], padfX[i])` for each index. -/
def vertices (shape : SHPObject) : List GeoCoordinate :=
  List.zipWith GeoCoordinate.mk shape.padfY shape.padfX

/-- The visitor calls of a trace (node, way and relation events), in order. -/
def visitorCalls : List ShapeEvent → List ShapeEvent
  | [] => []
  | .visitNode coordinate tags :: rest => .visitNode coordinate tags :: visitorCalls rest
  | .visitWay coordinates tags isClosed :: rest =>
    .visitWay coordinates tags isClosed :: visitorCalls rest
  | .visitRelation members tags :: rest => .visitRelation members tags :: visitorCalls rest
  | _ :: rest => visitorCalls rest

/-- The tag `parseTags` makes of field `i` of record `k`, `none` for a NULL attribute. -/
def tagOfField (lib : ShapeLib) (dbfFile : DBFHandle) (k i : Nat) : Option formats.Tag :=
  if dbfFile.isAttributeNULL k i then none
  else
    some { key := (dbfFile.getFieldInfo i).2
           value := match (dbfFile.getFieldInfo i).1 with
             | .FTString => dbfFile.readStringAttribute k i
             | .FTInteger => toString (dbfFile.readIntegerAttribute k i)
             | .FTDouble => lib.doubleToString (dbfFile.readDoubleAttribute k i)
             | .FTLogical => ""
             | .FTInvalid => "" }

/-- The index `panPartStart[j]` at which part `j` of a record starts. -/
def partStart (shape : SHPObject) (j : Nat) : Nat :=
  ((shape.panPartStart[j]?).getD 0).toNat

/-- The index at which part `j` of a record stops: `panPartStart[j + 1]`, and
`nVertices` for the last part. -/
def partStop (shape : SHPObject) (j : Nat) : Nat :=
  ((shape.panPartStart[j + 1]?).getD shape.nVertices).toNat

/-- The member expected for part `j` of a polygon record: the ring flag of the
part and the vertices from its start up to, not including, its stop. -/
def expectedMember (shape : SHPObject) (j : Nat) : PolygonMember :=
  { isRing := (shape.panPartType[j]?).getD 0 == SHPP_RING
    coordinates :=
      ((vertices shape).drop (partStart shape j)).take (partStop shape j - partStart shape j) }

/-- The members expected for a polygon record, one per part. -/
def expectedMembers (shape : SHPObject) : List PolygonMember :=
  (List.range shape.nParts.toNat).map (expectedMember shape)

/-- The member of part `j` when the loop of `visitPolygon` has passed the
vertices below `i` and opened `count` parts. -/
def memberUpTo (shape : SHPObject) (i count j : Nat) : PolygonMember :=
  { isRing := (shape.panPartType[j]?).getD 0 == SHPP_RING
    coordinates :=
      ((vertices shape).drop (partStart shape j)).take
        ((if j + 1 < count then partStart shape (j + 1) else i) - partStart shape j) }

/-- A polygon record as `SHPReadObject` gives it: arrays of the announced
sizes, at least one part, the first part starting at vertex 0, the part
starts strictly increasing and all below `nVertices`. -/
structure PolygonRecord (shape : SHPObject) : Prop where
  parts : 1 ≤ shape.nParts
  startLength : shape.panPartStart.length = shape.nParts.toNat
  typeLength : shape.panPartType.length = shape.nParts.toNat
  xLength : shape.padfX.length = shape.nVertices.toNat
  yLength : shape.padfY.length = shape.nVertices.toNat
  first : shape.panPartStart[0]? = some 0
  increasing : ∀ (j : Nat) (a b : Int), shape.panPartStart[j]? = some a →
    shape.panPartStart[j + 1]? = some b → a < b
  bounded : ∀ a ∈ shape.panPartStart, a < shape.nVertices

/-- The invariant of the loop of `visitPolygon` before vertex `i`. -/
structure PolygonLoop.Invariant (shape : SHPObject) (i : Nat) (st : PolygonLoop) : Prop where
  count : st.partNum ≤ shape.nParts.toNat
  pointer : st.coordinates = if st.partNum = 0 then none else some (st.partNum - 1)
  opened : 0 < i → 0 < st.partNum
  ahead : st.partNum < shape.nParts.toNat → i ≤ partStart shape st.partNum
  behind : ∀ j, j < st.partNum → partStart shape j ≤ i
  members : st.members = (List.range st.partNum).map (memberUpTo shape i st.partNum)
  passed : (st.members.map (fun m => m.coordinates)).flatten = (vertices shape).take i

/-- A call of a public operation of `Application`, with its arguments. -/
inductive Call where
  | registerStylesheet (path : String)
  | preloadElevation (quadKey : QuadKey)
  | addToPersistentStoreQuadKey (styleFile path : String) (quadKey : QuadKey)
  | addToPersistentStoreLodRange (styleFile path : String) (range : LodRange)
  | addToInMemoryStoreQuadKey (styleFile path : String) (quadKey : QuadKey)
  | addToInMemoryStoreBoundingBox (styleFile path : String) (bbox : BoundingBox)
      (range : LodRange)
  | addToInMemoryStoreLodRange (styleFile path : String) (range : LodRange)
  | addInMemoryStore (styleFile : String) (element : Element) (range : LodRange)
  | loadQuadKey (styleFile : String) (quadKey : QuadKey)

/-- The operation a call stands for, run in the given world. -/
def runCall (world : World) : Call → Application → Outcome × Application
  | .registerStylesheet path => registerStylesheet world path
  | .preloadElevation quadKey => preloadElevation world quadKey
  | .addToPersistentStoreQuadKey styleFile path quadKey =>
    addToPersistentStore.quadKey world styleFile path quadKey
  | .addToPersistentStoreLodRange styleFile path range =>
    addToPersistentStore.lodRange world styleFile path range
  | .addToInMemoryStoreQuadKey styleFile path quadKey =>
    addToInMemoryStore.quadKey world styleFile path quadKey
  | .addToInMemoryStoreBoundingBox styleFile path bbox range =>
    addToInMemoryStore.boundingBox world styleFile path bbox range
  | .addToInMemoryStoreLodRange styleFile path range =>
    addToInMemoryStore.lodRange world styleFile path range
  | .addInMemoryStore styleFile element range => addInMemoryStore world styleFile element range
  | .loadQuadKey styleFile quadKey => loadQuadKey world styleFile quadKey

/-- The application after a sequence of calls, each made in a world of its
own (files may change between calls); a call that fails leaves the state it
reached. -/
def runCalls : List (World × Call) → Application → Application
  | [], app => app
  | (world, call) :: rest, app => runCalls rest (runCall world call app).2

/-- The paths of the stylesheets opened, one per `std::ifstream` opened in a trace. -/
def openedFiles : List AppEvent → List String
  | [] => []
  | .fileOpened filePath :: rest => filePath :: openedFiles rest
  | _ :: rest => openedFiles rest

/-- The paths of the stylesheets parsed, one per parser run of a trace. -/
def parsedFiles : List AppEvent → List String
  | [] => []
  | .parse _ filePath :: rest => filePath :: parsedFiles rest
  | _ :: rest => parsedFiles rest

/-- The cache holds `provider` for `filePath`, whose file has been opened
`opens` times and parsed `parses` times. -/
def Application.Serves (filePath : String) (provider : StyleProviderPtr) (opens parses : Nat)
    (app : Application) : Prop :=
  app.styleProviders_.lookup filePath = some provider ∧
  (openedFiles app.trace).count filePath = opens ∧
  (parsedFiles app.trace).count filePath = parses

/-- The points at which the elevation provider was asked, one per call of a trace. -/
def sampledPoints : List BuilderEvent → List GeoCoordinate
  | [] => []
  | .getElevation coordinate :: rest => coordinate :: sampledPoints rest
  | _ :: rest => sampledPoints rest

/-- The settings of the roof builders, one per roof `build` call of a trace. -/
def roofSettings : List BuilderEvent → List StrategySettings
  | [] => []
  | .roofBuild _ settings _ :: rest => settings :: roofSettings rest
  | _ :: rest => roofSettings rest

/-- The settings of the facade builders, one per facade `build` call of a trace. -/
def facadeSettings : List BuilderEvent → List StrategySettings
  | [] => []
  | .facadeBuild _ settings _ :: rest => settings :: facadeSettings rest
  | _ :: rest => facadeSettings rest

/-- The polygon of a builder between elements: absent, or the empty polygon
`ensureContext` makes. -/
def BuilderState.polygonIdle (s : BuilderState) : Prop :=
  s.polygon_ = none ∨ s.polygon_ = some (Polygon.create 1 0)

/-- Whether an array read of `visitPolygon` is within the array of the record
it reads: `panPartStart` and `panPartType` have `nParts` entries, `padfX` and
`padfY` have `nVertices`. -/
def ArrayRead.inBounds (shape : SHPObject) : ArrayRead → Bool
  | .panPartStart index => decide (0 ≤ index ∧ index < shape.nParts)
  | .panPartType index => decide (0 ≤ index ∧ index < shape.nParts)
  | .padfX index => decide (0 ≤ index ∧ index < shape.nVertices)
  | .padfY index => decide (0 ≤ index ∧ index < shape.nVertices)

/-! ## Sample inputs -/

/-- A style given by its string and numeric declarations; a numeric
declaration that is absent reads as 0. -/
def Style.ofLists (strings : List (String × String)) (values : List (String × ℚ)) : Style :=
  { getString := fun key => strings.lookup key
    getValue := fun key => (values.lookup key).getD 0 }

/-- Winding test by the sign of the shoelace sum, used as the sample
`isClockwise`. -/
def shoelace : List GeoCoordinate → ℚ
  | a :: b :: rest =>
    (b.longitude - a.longitude) * (b.latitude + a.latitude) + shoelace (b :: rest)
  | _ => 0

/-- Sample collaborators: strategy builders that add one vertex triple and
one colour to the mesh. -/
def sampleCollaborators : Collaborators :=
  { isClockwise := fun coordinates =>
      match coordinates with
      | [] => false
      | first :: _ => decide (0 < shoelace (coordinates ++ [first]))
    evaluateGradient := fun _ _ _ => { stops := [] }
    roofBuild := fun _ settings _ mesh =>
      { mesh with vertices := mesh.vertices ++ [0, 0, settings.minHeight]
                  colors := mesh.colors ++ [1] }
    facadeBuild := fun _ settings _ mesh =>
      { mesh with vertices := mesh.vertices ++ [0, 0, settings.minHeight]
                  colors := mesh.colors ++ [2] } }

/-- Sample context: every element gets the given style; the elevation is 100
everywhere. -/
def sampleContext (style : Style) : BuilderContext :=
  { quadKey := { levelOfDetail := 16, tileX := 0, tileY := 0 }
    styleProvider := { forElement := fun _ _ => style }
    eleProvider := { getElevation := fun _ => 100 } }

/-- A clockwise square. -/
def squareCW : List GeoCoordinate :=
  [⟨0, 0⟩, ⟨4, 0⟩, ⟨4, 4⟩, ⟨0, 4⟩]

/-- A counter-clockwise square inside `squareCW`. -/
def squareCCW : List GeoCoordinate :=
  [⟨1, 1⟩, ⟨1, 3⟩, ⟨3, 3⟩, ⟨3, 1⟩]

/-- Sample style: `height` absent (reads as 0), `min-height` 2, flat roof and facade. -/
def styleZeroHeight : Style :=
  Style.ofLists [("building", "true"), ("multipolygon", "true"), ("roof-type", "flat"),
    ("facade-type", "flat")] [("min-height", 2)]

/-- Sample state: a mesh and a polygon holding the clockwise square. -/
def stateWithSquare : BuilderState :=
  { polygon_ := some ((Polygon.create 1 0).addContour (toPoints squareCW))
    mesh_ := some (Mesh.create "building:7")
    trace := [] }

/-- A second clockwise square, beside `squareCW`. -/
def squareCW2 : List GeoCoordinate :=
  [⟨0, 5⟩, ⟨4, 5⟩, ⟨4, 9⟩, ⟨0, 9⟩]

/-- Sample relation: a clockwise outer square and a counter-clockwise inner one. -/
def outerInnerMembers : List Element :=
  [.area 2 [] squareCW, .area 3 [] squareCCW]

/-- Sample relation: two clockwise squares. -/
def twoOuterMembers : List Element :=
  [.area 2 [] squareCW, .area 4 [] squareCW2]

/-- The polygon expected for `outerInnerMembers`. -/
def outerInnerPolygon : Polygon :=
  { points := rawDoubles (toPoints squareCW) ++ rawDoubles (toPoints squareCCW)
    contours := [toPoints squareCW]
    holes := [toPoints squareCCW] }

/-- The polygon expected for `twoOuterMembers`. -/
def twoOuterPolygon : Polygon :=
  { points := rawDoubles (toPoints squareCW) ++ rawDoubles (toPoints squareCW2)
    contours := [toPoints squareCW, toPoints squareCW2]
    holes := [] }

/-- Sample style of a building whose roof type is not registered. -/
def styleUnknownRoof : Style :=
  Style.ofLists [("building", "true"), ("roof-type", "unknown"), ("facade-type", "flat")]
    [("height", 12), ("min-height", 2)]

/-- Sample style without a `building` declaration. -/
def styleWithoutBuilding : Style :=
  Style.ofLists [("roof-type", "flat"), ("facade-type", "flat")] [("height", 12)]

/-- Sample world: no file can be read; the store, the pipeline and the
preload return without doing anything. -/
def sampleWorld : World :=
  { readFile := fun _ => none
    parse := fun _ _ => .ok { rules := [] }
    geoStoreAdd := fun _ _ _ => .returned
    quadKeyBuild := fun _ _ _ => ([], .returned)
    quadKeyToBoundingBox := fun _ => { minPoint := ⟨0, 0⟩, maxPoint := ⟨1, 1⟩ }
    preload := fun _ _ => .returned }

/-- Sample mesh: one triangle, three vertices with one colour each. -/
def triangleMesh : Mesh :=
  { name := "building:7"
    vertices := [0, 0, 0, 1, 0, 0, 0, 1, 0]
    triangles := [0, 1, 2]
    colors := [255, 255, 255] }

/-- Sample world whose stylesheet can be read and whose pipeline hands over an
empty mesh, the one-triangle mesh and an element, then returns. -/
def worldWithMeshes : World :=
  { sampleWorld with
    readFile := fun _ => some "canvas, area"
    quadKeyBuild := fun _ _ _ =>
      ([.mesh (Mesh.create "terrain"), .mesh triangleMesh, .element (.node 1 [] ⟨0, 0⟩)],
        .returned) }

/-- Sample tile. -/
def sampleQuadKey : QuadKey :=
  { levelOfDetail := 16, tileX := 35205, tileY := 21489 }

/-- Sample tags of a shape record. -/
def sampleTags : List formats.Tag :=
  [{ key := "NAME", value := "river" }]

/-- Sample arc record: one part, three vertices, the last equal to the first. -/
def closedArc : SHPObject :=
  { nSHPType := SHPT_ARC, nParts := 1, panPartStart := [0], panPartType := [SHPP_RING],
    nVertices := 3, padfX := [10, 11, 10], padfY := [50, 51, 50] }

/-- Sample arc record with two parts. -/
def twoPartArc : SHPObject :=
  { nSHPType := SHPT_ARCZ, nParts := 2, panPartStart := [0, 2], panPartType := [SHPP_RING, SHPP_RING],
    nVertices := 4, padfX := [10, 11, 12, 13], padfY := [50, 51, 52, 53] }

/-- Sample multipoint record. -/
def multipointRecord : SHPObject :=
  { nSHPType := SHPT_MULTIPOINT, nParts := 0, panPartStart := [], panPartType := [],
    nVertices := 2, padfX := [10, 11], padfY := [50, 51] }

/-- Sample DBF table: a text field, a logical field and an integer field;
no attribute is NULL. -/
def sampleDbf : DBFHandle :=
  { fieldCount := 3
    recordCount := 2
    isAttributeNULL := fun _ _ => false
    getFieldInfo := fun i =>
      match i with
      | 0 => (.FTString, "NAME")
      | 1 => (.FTLogical, "ONEWAY")
      | _ => (.FTInteger, "LANES")
    readStringAttribute := fun _ _ => "river"
    readIntegerAttribute := fun _ _ => 2
    readDoubleAttribute := fun _ _ => 0 }

/-- Sample shape file: two records, a closed arc and a multipoint. -/
def sampleShp : SHPHandle :=
  { entityCount := 2
    readObject := fun k =>
      match k with
      | 0 => some multipointRecord
      | 1 => some closedArc
      | _ => none }

/-- Sample library: every path opens the sample files. -/
def sampleLib : ShapeLib :=
  { SHPOpen := fun _ => some sampleShp
    DBFOpen := fun _ => some sampleDbf
    doubleToString := fun _ => "0" }

/-- Sample polygon record: a ring of four vertices and a second part of three. -/
def twoPartPolygon : SHPObject :=
  { nSHPType := SHPT_POLYGON, nParts := 2, panPartStart := [0, 4], panPartType := [SHPP_RING, 2],
    nVertices := 7
    padfX := [10, 14, 14, 10, 11, 12, 11]
    padfY := [50, 50, 54, 54, 51, 51, 52] }

/-- Sample world in which every stylesheet can be read and is parsed to a
sheet holding its text. -/
def worldWithStyles : World :=
  { sampleWorld with
    readFile := fun filePath => some ("canvas " ++ filePath)
    parse := fun _ content => .ok { rules := [content] } }

/-- Sample sequence of operations made after `styles/default.mapcss` was registered. -/
def laterCalls : List (World × Call) :=
  [(sampleWorld, .registerStylesheet "missing.mapcss"),
   (worldWithStyles, .loadQuadKey "styles/default.mapcss" sampleQuadKey),
   (worldWithStyles, .registerStylesheet "styles/roads.mapcss")]

/-- The provider made for `styles/default.mapcss` by a fresh application. -/
def defaultProvider : StyleProviderPtr :=
  { address := 0, stylesheet := { rules := ["canvas styles/default.mapcss"] } }

/-- Sample style of a relation that is not a multipolygon. -/
def stylePlainRelation : Style :=
  Style.ofLists [("building", "true"), ("multipolygon", "false"), ("roof-type", "flat"),
    ("facade-type", "flat")] [("height", 12), ("min-height", 2)]

/-- Sample relation members: a building square and a nested relation holding
a second building square and a node. -/
def nestedMembers : List Element :=
  [.area 2 [] squareCW, .relation 3 [] [.area 4 [] squareCW2, .node 5 [] ⟨0, 0⟩]]

/-- Sample polygon record: one ring of four vertices. -/
def closedRing : SHPObject :=
  { nSHPType := SHPT_POLYGON, nParts := 1, panPartStart := [0], panPartType := [SHPP_RING],
    nVertices := 4
    padfX := [10, 14, 14, 10]
    padfY := [50, 50, 54, 50] }

/-- Sample world whose stylesheets can be read but not parsed: the parser
throws. -/
def worldUnparsable : World :=
  { sampleWorld with
    readFile := fun filePath => some ("canvas " ++ filePath)
    parse := fun _ _ => .error "mapcss: unexpected end of input" }

/-! ## Lemmas -/

theorem facadeHeights_append (xs ys : List BuilderEvent) :
    facadeHeights (xs ++ ys) = facadeHeights xs ++ facadeHeights ys := by
  induction xs with
  | nil => rfl
  | cons x xs ih => cases x <;> simp [facadeHeights, ih]

theorem emittedMeshes_append (xs ys : List BuilderEvent) :
    emittedMeshes (xs ++ ys) = emittedMeshes xs ++ emittedMeshes ys := by
  induction xs with
  | nil => rfl
  | cons x xs ih => cases x <;> simp [emittedMeshes, ih]

/-- Two raw doubles can be read from a list of length at least two. -/
theorem getElem?_of_two_le (points : List ℚ) (h : 2 ≤ points.length) :
    ∃ p0 p1, points[0]? = some p0 ∧ points[1]? = some p1 := by
  match points, h with
  | p0 :: p1 :: _, _ => exact ⟨p0, p1, by simp, by simp⟩

theorem strategyPolygons_append (xs ys : List BuilderEvent) :
    strategyPolygons (xs ++ ys) = strategyPolygons xs ++ strategyPolygons ys := by
  induction xs with
  | nil => rfl
  | cons x xs ih => cases x <;> simp [strategyPolygons, ih]

/-- The multipolygon loop over area members returns and only changes the
polygon: clockwise members are appended to the contours, the others to the
holes, all of them to the raw doubles. -/
theorem MultiPolygonVisitor.acceptAll_areas (ext : Collaborators) (elements : List Element) :
    ∀ (polygon : Polygon) (mesh : Option Mesh) (trace : List BuilderEvent),
    (∀ e ∈ elements, e.isArea = true) →
    ∃ P : Polygon,
      MultiPolygonVisitor.acceptAll ext elements
          { polygon_ := some polygon, mesh_ := mesh, trace := trace }
        = (.returned, { polygon_ := some P, mesh_ := mesh, trace := trace }) ∧
      P.contours = polygon.contours ++ windingShapes ext true elements ∧
      P.holes = polygon.holes ++ windingShapes ext false elements ∧
      P.points = polygon.points ++ memberDoubles elements := by
  induction elements with
  | nil =>
    intro polygon mesh trace _
    exact ⟨polygon, rfl, by simp [windingShapes], by simp [windingShapes], by simp [memberDoubles]⟩
  | cons e rest ih =>
    intro polygon mesh trace hareas
    have hrest : ∀ x ∈ rest, x.isArea = true := fun x hx => hareas x (List.mem_cons_of_mem _ hx)
    have he : e.isArea = true := hareas e (List.mem_cons_self _ _)
    match e, he with
    | .area id tags coordinates, _ =>
      by_cases hcw : ext.isClockwise coordinates = true
      · obtain ⟨P, hrun, hc, hh, hp⟩ := ih (polygon.addContour (toPoints coordinates)) mesh trace hrest
        refine ⟨P, ?_, ?_, ?_, ?_⟩
        · simp [MultiPolygonVisitor.acceptAll, MultiPolygonVisitor.accept,
            MultiPolygonVisitor.visitArea, hcw, hrun]
        · simp [hc, windingShapes, hcw, Polygon.addContour]
        · simp [hh, windingShapes, hcw, Polygon.addContour]
        · simp [hp, memberDoubles, Polygon.addContour]
      · obtain ⟨P, hrun, hc, hh, hp⟩ := ih (polygon.addHole (toPoints coordinates)) mesh trace hrest
        have hcw2 : ext.isClockwise coordinates = false := by simpa using hcw
        refine ⟨P, ?_, ?_, ?_, ?_⟩
        · simp [MultiPolygonVisitor.acceptAll, MultiPolygonVisitor.accept,
            MultiPolygonVisitor.visitArea, hcw2, hrun]
        · simp [hc, windingShapes, hcw2, Polygon.addHole]
        · simp [hh, windingShapes, hcw2, Polygon.addHole]
        · simp [hp, memberDoubles, Polygon.addHole]

/-- When `build` returns, it has sampled the elevation once and handed the
polygon it found to one roof and one facade builder, and dropped it. -/
theorem build_returned (ext : Collaborators) (context_ : BuilderContext) (element : Element)
    (style : Style) (s : BuilderState) (polygon : Polygon)
    (hpolygon : s.polygon_ = some polygon)
    (hret : (build ext context_ element style s).1 = .returned) :
    ∃ c rb rs fb fs mesh,
      (build ext context_ element style s).2 =
        { polygon_ := none, mesh_ := some mesh,
          trace := s.trace ++ [.getElevation c, .roofBuild rb rs polygon, .facadeBuild fb fs polygon] } := by
  unfold build at hret ⊢
  cases hm : s.mesh_ with
  | none => simp [hm] at hret
  | some mesh =>
    simp only [hm, hpolygon] at hret ⊢
    split at hret
    · rename_i p1 p0 h1 h0
      cases hrt : style.getString RoofTypeKey with
      | none => simp [hrt] at hret
      | some roofType =>
        cases hrb : RoofBuilderFactoryMap.lookup roofType with
        | none => simp [hrt, hrb] at hret
        | some roofBuilder =>
          cases hft : style.getString FacadeTypeKey with
          | none => simp [hrt, hrb, hft] at hret
          | some facadeType =>
            cases hfb : FacadeBuilderFactoryMap.lookup facadeType with
            | none => simp [hrt, hrb, hft, hfb] at hret
            | some facadeBuilder =>
              simp [hrt, hrb, hft, hfb]
    · simp at hret

/-- When `build` fails, the polygon is still the one it found. -/
theorem build_failed (ext : Collaborators) (context_ : BuilderContext) (element : Element)
    (style : Style) (s : BuilderState) (failure : Failure)
    (hfail : (build ext context_ element style s).1 = .failed failure) :
    (build ext context_ element style s).2.polygon_ = s.polygon_ ∧
    emittedMeshes (build ext context_ element style s).2.trace = emittedMeshes s.trace := by
  unfold build at hfail ⊢
  cases hm : s.mesh_ with
  | none => simp [hm]
  | some mesh =>
    cases hp : s.polygon_ with
    | none => simp [hm, hp]
    | some polygon =>
      simp only [hm, hp] at hfail ⊢
      split at hfail
      · rename_i p1 p0 h1 h0
        cases hrt : style.getString RoofTypeKey with
        | none => simp [hrt, hp, emittedMeshes_append, emittedMeshes]
        | some roofType =>
          cases hrb : RoofBuilderFactoryMap.lookup roofType with
          | none => simp [hrt, hrb, hp, emittedMeshes_append, emittedMeshes]
          | some roofBuilder =>
            cases hft : style.getString FacadeTypeKey with
            | none => simp [hrt, hrb, hft, hp, emittedMeshes_append, emittedMeshes]
            | some facadeType =>
              cases hfb : FacadeBuilderFactoryMap.lookup facadeType with
              | none => simp [hrt, hrb, hft, hfb, hp, emittedMeshes_append, emittedMeshes]
              | some facadeBuilder =>
                simp [hrt, hrb, hft, hfb] at hfail
      · simp [hp]

/-- The state `ensureContext` leaves: both members set, the trace untouched. -/
theorem ensureContext_state (element : Element) (s : BuilderState) :
    (ensureContext element s).2 =
      { polygon_ := some (s.polygon_.getD (Polygon.create 1 0))
        mesh_ := some (s.mesh_.getD (Mesh.create (getMeshName MeshNamePrefix element)))
        trace := s.trace } ∧
    (ensureContext element s).1 = s.mesh_.isNone := by
  obtain ⟨polygon, mesh, trace⟩ := s
  cases polygon <;> cases mesh <;> simp [ensureContext]

/-- The multipolygon branch of `visitRelation`, unfolded. -/
theorem visitRelation_multipolygon (ext : Collaborators) (context_ : BuilderContext) (id : Nat)
    (tags : List Tag) (elements : List Element) (s : BuilderState)
    (hne : elements ≠ [])
    (hmultipolygon : (context_.styleProvider.forElement (.relation id tags elements)
      context_.quadKey.levelOfDetail).getString "multipolygon" = some "true")
    (hbuilding : (context_.styleProvider.forElement (.relation id tags elements)
      context_.quadKey.levelOfDetail).getString "building" = some "true") :
    visitRelation ext context_ id tags elements s =
      match MultiPolygonVisitor.acceptAll ext elements
          (ensureContext (.relation id tags elements) s).2 with
      | (.failed failure, s2) => (.failed failure, s2)
      | (.returned, s2) =>
        match build ext context_ (.relation id tags elements)
            (context_.styleProvider.forElement (.relation id tags elements)
              context_.quadKey.levelOfDetail) s2 with
        | (.returned, s3) =>
          completeIfNecessary (ensureContext (.relation id tags elements) s).1 s3
        | (.failed failure, s3) => (.failed failure, s3) := by
  simp [visitRelation, accept, hne, isMultipolygon, isBuilding, derefEqualsTrue, hmultipolygon,
    hbuilding]

/-- With a mesh, a polygon of at least one point and registered roof and
facade types, `build` returns. -/
theorem build_returns (ext : Collaborators) (context_ : BuilderContext) (element : Element)
    (style : Style) (s : BuilderState) (mesh : Mesh) (polygon : Polygon)
    (roofType facadeType : String) (roofBuilder : RoofBuilderClass)
    (facadeBuilder : FacadeBuilderClass)
    (hmesh : s.mesh_ = some mesh) (hpolygon : s.polygon_ = some polygon)
    (hpoints : 2 ≤ polygon.points.length)
    (hroofType : style.getString RoofTypeKey = some roofType)
    (hroof : RoofBuilderFactoryMap.lookup roofType = some roofBuilder)
    (hfacadeType : style.getString FacadeTypeKey = some facadeType)
    (hfacade : FacadeBuilderFactoryMap.lookup facadeType = some facadeBuilder) :
    (build ext context_ element style s).1 = .returned := by
  obtain ⟨p0, p1, h0, h1⟩ := getElem?_of_two_le polygon.points hpoints
  simp [build, hmesh, hpolygon, h0, h1, hroofType, hroof, hfacadeType, hfacade]

/-- After `build` has returned, `completeIfNecessary` returns. -/
theorem completeIfNecessary_after_build (ext : Collaborators) (context_ : BuilderContext)
    (element : Element) (style : Style) (s : BuilderState) (polygon : Polygon)
    (justCreated : Bool) (hpolygon : s.polygon_ = some polygon)
    (hret : (build ext context_ element style s).1 = .returned) :
    (completeIfNecessary justCreated (build ext context_ element style s).2).1 = .returned := by
  obtain ⟨c, rb, rs, fb, fs, mesh, hs⟩ := build_returned ext context_ element style s polygon
    hpolygon hret
  rw [hs]
  cases justCreated <;> simp [completeIfNecessary]

/-- A multipolygon building relation of areas holding at least one coordinate,
styled with registered roof and facade types, is visited without failure. -/
theorem visitRelation_multipolygon_returns (ext : Collaborators) (context_ : BuilderContext)
    (id : Nat) (tags : List Tag) (elements : List Element) (s : BuilderState)
    (roofType facadeType : String) (roofBuilder : RoofBuilderClass)
    (facadeBuilder : FacadeBuilderClass)
    (hne : elements ≠ [])
    (hmultipolygon : (context_.styleProvider.forElement (.relation id tags elements)
      context_.quadKey.levelOfDetail).getString "multipolygon" = some "true")
    (hbuilding : (context_.styleProvider.forElement (.relation id tags elements)
      context_.quadKey.levelOfDetail).getString "building" = some "true")
    (hareas : ∀ e ∈ elements, e.isArea = true)
    (hpoints : 2 ≤ (memberDoubles elements).length)
    (hroofType : (context_.styleProvider.forElement (.relation id tags elements)
      context_.quadKey.levelOfDetail).getString RoofTypeKey = some roofType)
    (hroof : RoofBuilderFactoryMap.lookup roofType = some roofBuilder)
    (hfacadeType : (context_.styleProvider.forElement (.relation id tags elements)
      context_.quadKey.levelOfDetail).getString FacadeTypeKey = some facadeType)
    (hfacade : FacadeBuilderFactoryMap.lookup facadeType = some facadeBuilder) :
    (visitRelation ext context_ id tags elements s).1 = .returned := by
  obtain ⟨P, hrun, _, _, hp⟩ := MultiPolygonVisitor.acceptAll_areas ext elements
    (s.polygon_.getD (Polygon.create 1 0))
    (some (s.mesh_.getD (Mesh.create (getMeshName MeshNamePrefix (.relation id tags elements)))))
    s.trace hareas
  rw [visitRelation_multipolygon ext context_ id tags elements s hne hmultipolygon hbuilding,
    (ensureContext_state (.relation id tags elements) s).1, hrun]
  simp only []
  have hret := build_returns ext context_ (.relation id tags elements)
    (context_.styleProvider.forElement (.relation id tags elements)
      context_.quadKey.levelOfDetail)
    { polygon_ := some P
      mesh_ := some (s.mesh_.getD
        (Mesh.create (getMeshName MeshNamePrefix (.relation id tags elements))))
      trace := s.trace } _ P roofType facadeType roofBuilder facadeBuilder rfl rfl
    (by rw [hp, List.length_append]; omega) hroofType hroof hfacadeType hfacade
  have hdone := completeIfNecessary_after_build ext context_ _ _ _ P
    (ensureContext (.relation id tags elements) s).1 rfl hret
  revert hret hdone
  cases build ext context_ (.relation id tags elements)
      (context_.styleProvider.forElement (.relation id tags elements)
        context_.quadKey.levelOfDetail)
      { polygon_ := some P
        mesh_ := some (s.mesh_.getD
          (Mesh.create (getMeshName MeshNamePrefix (.relation id tags elements))))
        trace := s.trace } with
  | mk outcome s3 =>
    intro hret hdone
    simp only [] at hret
    subst hret
    simpa using hdone

/-- The multipolygon loop fails at its first member that is not an area, with
the failure of `MultiPolygonVisitor::fail`, leaving mesh and trace untouched. -/
theorem MultiPolygonVisitor.acceptAll_malformed (ext : Collaborators) (elements : List Element) :
    ∀ (polygon : Polygon) (mesh : Option Mesh) (trace : List BuilderEvent) (bad : Element),
    elements.find? (fun e => !e.isArea) = some bad →
    ∃ P : Polygon,
      MultiPolygonVisitor.acceptAll ext elements
          { polygon_ := some polygon, mesh_ := mesh, trace := trace }
        = (.failed (MultiPolygonVisitor.fail bad),
            { polygon_ := some P, mesh_ := mesh, trace := trace }) := by
  induction elements with
  | nil => intro polygon mesh trace bad h; simp at h
  | cons e rest ih =>
    intro polygon mesh trace bad h
    cases e with
    | node id tags coordinate =>
      simp [Element.isArea] at h
      subst h
      exact ⟨polygon, by simp [MultiPolygonVisitor.acceptAll, MultiPolygonVisitor.accept]⟩
    | way id tags coordinates =>
      simp [Element.isArea] at h
      subst h
      exact ⟨polygon, by simp [MultiPolygonVisitor.acceptAll, MultiPolygonVisitor.accept]⟩
    | relation id tags members =>
      simp [Element.isArea] at h
      subst h
      exact ⟨polygon, by simp [MultiPolygonVisitor.acceptAll, MultiPolygonVisitor.accept]⟩
    | area id tags coordinates =>
      simp [Element.isArea] at h
      by_cases hcw : ext.isClockwise coordinates = true
      · obtain ⟨P, hrun⟩ := ih (polygon.addContour (toPoints coordinates)) mesh trace bad
          (by simpa using h)
        exact ⟨P, by simp [MultiPolygonVisitor.acceptAll, MultiPolygonVisitor.accept,
          MultiPolygonVisitor.visitArea, hcw, hrun]⟩
      · obtain ⟨P, hrun⟩ := ih (polygon.addHole (toPoints coordinates)) mesh trace bad
          (by simpa using h)
        exact ⟨P, by simp [MultiPolygonVisitor.acceptAll, MultiPolygonVisitor.accept,
          MultiPolygonVisitor.visitArea, hcw, hrun]⟩

/-- A list with a member that is not an area has a first such member. -/
theorem exists_first_nonArea (elements : List Element)
    (hbad : ∃ e ∈ elements, e.isArea = false) :
    ∃ bad, elements.find? (fun e => !e.isArea) = some bad ∧ bad ∈ elements ∧
      bad.isArea = false := by
  cases hfind : elements.find? (fun e => !e.isArea) with
  | none =>
    obtain ⟨e, he, hne⟩ := hbad
    have := List.find?_eq_none.mp hfind e he
    simp [hne] at this
  | some bad =>
    exact ⟨bad, rfl, List.mem_of_find?_eq_some hfind, by
      simpa using List.find?_some hfind⟩

theorem errorMessages_append (xs ys : List AppEvent) :
    errorMessages (xs ++ ys) = errorMessages xs ++ errorMessages ys := by
  induction xs with
  | nil => rfl
  | cons x xs ih => cases x <;> simp [errorMessages, ih]

theorem onMeshBuffers_append (xs ys : List AppEvent) :
    onMeshBuffers (xs ++ ys) = onMeshBuffers xs ++ onMeshBuffers ys := by
  induction xs with
  | nil => rfl
  | cons x xs ih => cases x <;> simp [onMeshBuffers, ih]

theorem onMeshCounts_append (xs ys : List AppEvent) :
    onMeshCounts (xs ++ ys) = onMeshCounts xs ++ onMeshCounts ys := by
  induction xs with
  | nil => rfl
  | cons x xs ih => cases x <;> simp [onMeshCounts, ih]

/-- The boundary never lets an exception through. -/
theorem safeExecute_not_exception (action : Application → Outcome × Application)
    (app : Application) (what : String) :
    (safeExecute action app).1 ≠ .failed (.exception what) := by
  unfold safeExecute
  split <;> simp

/-- The boundary adds no mesh callback of its own. -/
theorem safeExecute_onMeshBuffers (action : Application → Outcome × Application)
    (app : Application) :
    onMeshBuffers (safeExecute action app).2.trace = onMeshBuffers (action app).2.trace := by
  unfold safeExecute
  split <;> rename_i h <;> simp [h, onMeshBuffers_append, onMeshBuffers]

/-- Looking a style provider up makes no mesh callback. -/
theorem getStyleProvider_onMeshBuffers (world : World) (filePath : String) (app : Application) :
    onMeshBuffers (getStyleProvider world filePath app).2.trace = onMeshBuffers app.trace := by
  unfold getStyleProvider
  split
  · rfl
  · split
    · simp [onMeshBuffers_append, onMeshBuffers]
    · simp only []
      split <;> simp [onMeshBuffers_append, onMeshBuffers]

/-- The callbacks run over the pipeline steps call the user mesh callback
once for each mesh that is not empty, in order. -/
theorem runSteps_onMeshBuffers (steps : List PipelineStep) :
    ∀ app : Application,
      onMeshBuffers (loadQuadKey.runSteps steps app).trace
        = onMeshBuffers app.trace ++ handedNonEmpty steps := by
  induction steps with
  | nil => intro app; simp [loadQuadKey.runSteps, handedNonEmpty]
  | cons step rest ih =>
    intro app
    cases step with
    | mesh mesh =>
      by_cases hv : mesh.vertices = []
      · simp [loadQuadKey.runSteps, ih, loadQuadKey.meshLambda, hv, handedNonEmpty]
      · simp [loadQuadKey.runSteps, ih, loadQuadKey.meshLambda, hv, handedNonEmpty,
          onMeshBuffers_append, onMeshBuffers]
    | element element =>
      simp [loadQuadKey.runSteps, ih, loadQuadKey.elementLambda, handedNonEmpty,
        onMeshBuffers_append, onMeshBuffers]

theorem handedNonEmpty_ne_nil (steps : List PipelineStep) :
    ∀ vertices ∈ handedNonEmpty steps, vertices ≠ [] := by
  induction steps with
  | nil => intro v hv; simp [handedNonEmpty] at hv
  | cons step rest ih =>
    intro v hv
    cases step with
    | mesh mesh =>
      by_cases hm : mesh.vertices = []
      · simp [handedNonEmpty, hm] at hv
        exact ih v hv
      · simp [handedNonEmpty, hm] at hv
        rcases hv with hv | hv
        · rw [hv]; exact hm
        · exact ih v hv
    | element element =>
      simp [handedNonEmpty] at hv
      exact ih v hv

/-- The user mesh callback calls made by `loadQuadKey`: one for each mesh of
the pipeline run that is not empty, none when the style provider is not found. -/
theorem loadQuadKey_onMeshBuffers (world : World) (styleFile : String) (quadKey : QuadKey)
    (app : Application) :
    onMeshBuffers (loadQuadKey world styleFile quadKey app).2.trace
      = onMeshBuffers app.trace ++
        (match (getStyleProvider world styleFile app).1 with
          | .ok styleProvider =>
            handedNonEmpty
              (world.quadKeyBuild quadKey styleProvider (getElevationProvider quadKey)).1
          | .error _ => []) := by
  unfold loadQuadKey
  rw [safeExecute_onMeshBuffers]
  unfold loadQuadKey.body
  have hlookup := getStyleProvider_onMeshBuffers world styleFile app
  revert hlookup
  cases getStyleProvider world styleFile app with
  | mk found app1 =>
    intro hlookup
    simp only [] at hlookup
    cases found with
    | error failure => simp [hlookup]
    | ok styleProvider =>
      simp [runSteps_onMeshBuffers, onMeshBuffers_append, onMeshBuffers, hlookup]

/-- A size below 2^31 survives `static_cast<int>` unchanged. -/
theorem static_cast_int_of_lt (n : Nat) (h : n < 2 ^ 31) : static_cast_int n = (n : Int) := by
  unfold static_cast_int
  rw [Nat.mod_eq_of_lt (by omega)]
  push_cast
  ring

/-- No path through `build` throws an exception: each of its failures is
undefined behaviour. -/
theorem build_not_exception (ext : Collaborators) (context_ : BuilderContext) (element : Element)
    (style : Style) (s : BuilderState) (what : String) :
    (build ext context_ element style s).1 ≠ .failed (.exception what) := by
  unfold build
  repeat' split
  all_goals simp

/-- An area whose style declares `building` with a value other than `true` is
ignored by `visitArea`. -/
theorem visitArea_not_building (ext : Collaborators) (context_ : BuilderContext) (id : Nat)
    (tags : List Tag) (coordinates : List GeoCoordinate) (s : BuilderState) (value : String)
    (hdeclared : (context_.styleProvider.forElement (.area id tags coordinates)
      context_.quadKey.levelOfDetail).getString "building" = some value)
    (hvalue : value ≠ "true") :
    visitArea ext context_ id tags coordinates s = (.returned, s) := by
  have hne : (value == "true") = false := by simpa using hvalue
  simp [visitArea, isBuilding, derefEqualsTrue, hdeclared, hne]

/-- An area whose style does not declare `building` makes `visitArea`
dereference a null string. -/
theorem visitArea_building_missing (ext : Collaborators) (context_ : BuilderContext) (id : Nat)
    (tags : List Tag) (coordinates : List GeoCoordinate) (s : BuilderState)
    (hmissing : (context_.styleProvider.forElement (.area id tags coordinates)
      context_.quadKey.levelOfDetail).getString "building" = none) :
    visitArea ext context_ id tags coordinates s
      = (.failed (.undefined "null string dereferenced: building"), s) := by
  simp [visitArea, isBuilding, derefEqualsTrue, hmissing]

theorem readVertex_eq (shape : SHPObject) (i : Nat) :
    readVertex shape i = (vertices shape)[i]? := by
  unfold readVertex vertices
  rw [List.getElem?_zipWith]
  cases shape.padfY[i]? <;> cases shape.padfX[i]? <;> rfl

theorem vertices_length (shape : SHPObject) (n : Nat) (hx : shape.padfX.length = n)
    (hy : shape.padfY.length = n) : (vertices shape).length = n := by
  simp [vertices, hx, hy]

/-- The vertex loop of `visitArc` collects the vertices it passes over. -/
theorem visitArc.arcLoop_eq (shape : SHPObject) (remaining : Nat) :
    ∀ (i : Nat) (coordinates : List GeoCoordinate),
      i + remaining ≤ (vertices shape).length →
      visitArc.loop shape remaining i coordinates
        = .ok (coordinates ++ ((vertices shape).drop i).take remaining) := by
  induction remaining with
  | zero => intro i coordinates _; simp [visitArc.loop]
  | succ n ih =>
    intro i coordinates h
    have hi : i < (vertices shape).length := by omega
    simp only [visitArc.loop, readVertex_eq, List.getElem?_eq_getElem hi]
    rw [ih (i + 1) _ (by omega)]
    have hdrop := List.drop_eq_getElem_cons hi
    rw [hdrop, List.take_succ_cons]
    simp

theorem parseTags.field_eq (lib : ShapeLib) (dbfFile : DBFHandle) (k i : Nat)
    (tags : List formats.Tag) :
    parseTags.field lib dbfFile k i tags = tags ++ (tagOfField lib dbfFile k i).toList := by
  unfold parseTags.field tagOfField
  by_cases h : dbfFile.isAttributeNULL k i = true
  · simp [h]
  · simp only [h]
    cases (dbfFile.getFieldInfo i).1 <;> simp

theorem parseTags.tagLoop_eq (lib : ShapeLib) (dbfFile : DBFHandle) (k : Nat) (remaining : Nat) :
    ∀ (i : Nat) (tags : List formats.Tag),
      parseTags.loop lib dbfFile k remaining i tags
        = tags ++ (List.range' i remaining).filterMap (tagOfField lib dbfFile k) := by
  induction remaining with
  | zero => intro i tags; simp [parseTags.loop]
  | succ n ih =>
    intro i tags
    simp only [parseTags.loop, ih, parseTags.field_eq, List.range'_succ, List.filterMap_cons]
    cases tagOfField lib dbfFile k i <;> simp

theorem visitorCalls_append (xs ys : List ShapeEvent) :
    visitorCalls (xs ++ ys) = visitorCalls xs ++ visitorCalls ys := by
  induction xs with
  | nil => rfl
  | cons x xs ih => cases x <;> simp [visitorCalls, ih]

theorem pushCoordinate_last (members : List PolygonMember) (member : PolygonMember)
    (coordinate : GeoCoordinate) :
    pushCoordinate (members ++ [member]) members.length coordinate
      = members ++ [{ member with coordinates := member.coordinates ++ [coordinate] }] := by
  induction members with
  | nil => rfl
  | cons m rest ih => simp [pushCoordinate, ih]

theorem take_drop_snoc (v : List GeoCoordinate) (s i : Nat) (c : GeoCoordinate)
    (hs : s ≤ i) (hc : v[i]? = some c) :
    (v.drop s).take (i - s) ++ [c] = (v.drop s).take (i + 1 - s) := by
  have h1 : i + 1 - s = (i - s) + 1 := by omega
  rw [h1, List.take_succ]
  have h2 : (v.drop s)[i - s]? = some c := by
    rw [List.getElem?_drop]
    have : s + (i - s) = i := by omega
    rw [this, hc]
  rw [h2]
  rfl

/-- The parts of a polygon record, in natural numbers: every part has a
start, the starts increase strictly from 0 and stay below the vertex count. -/
theorem PolygonRecord.starts (shape : SHPObject) (h : PolygonRecord shape) :
    (∀ j, j < shape.nParts.toNat →
      shape.panPartStart[j]? = some (partStart shape j : Int)) ∧
    partStart shape 0 = 0 ∧
    (∀ j, j + 1 < shape.nParts.toNat → partStart shape j < partStart shape (j + 1)) ∧
    (∀ j, j < shape.nParts.toNat → partStart shape j < shape.nVertices.toNat) := by
  have hsome : ∀ j, j < shape.nParts.toNat → ∃ a, shape.panPartStart[j]? = some a := by
    intro j hj
    cases hget : shape.panPartStart[j]? with
    | some a => exact ⟨a, rfl⟩
    | none =>
      have := List.getElem?_eq_none_iff.mp hget
      rw [h.startLength] at this
      omega
  have hnonneg : ∀ j, j < shape.nParts.toNat → ∀ a, shape.panPartStart[j]? = some a → 0 ≤ a := by
    intro j
    induction j with
    | zero =>
      intro _ a ha
      rw [h.first] at ha
      cases ha
      exact le_refl _
    | succ j ih =>
      intro hj b hb
      obtain ⟨a, ha⟩ := hsome j (by omega)
      have := ih (by omega) a ha
      have := h.increasing j a b ha hb
      omega
  have hstart : ∀ j, j < shape.nParts.toNat →
      shape.panPartStart[j]? = some (partStart shape j : Int) := by
    intro j hj
    obtain ⟨a, ha⟩ := hsome j hj
    have hn := hnonneg j hj a ha
    simp only [partStart, ha, Option.getD_some]
    rw [Int.toNat_of_nonneg hn]
  refine ⟨hstart, ?_, ?_, ?_⟩
  · simp [partStart, h.first]
  · intro j hj
    have := h.increasing j _ _ (hstart j (by omega)) (hstart (j + 1) hj)
    omega
  · intro j hj
    have hmem : (partStart shape j : Int) ∈ shape.panPartStart :=
      List.getElem?_mem (hstart j hj)
    have := h.bounded _ hmem
    omega

/-- The `if` of the loop body on a polygon record: it opens part `partNum`
when that part starts at vertex `i`, and changes only the reads otherwise. -/
theorem visitPolygon.openPart_ok (shape : SHPObject) (h : PolygonRecord shape) (i : Nat)
    (st : PolygonLoop) :
    (st.partNum < shape.nParts.toNat ∧ partStart shape st.partNum = i ∧
      ∃ st1, visitPolygon.openPart shape i st = .ok st1 ∧
        st1.members = st.members ++
          [{ isRing := (shape.panPartType[st.partNum]?).getD 0 == SHPP_RING, coordinates := [] }] ∧
        st1.coordinates = some st.partNum ∧ st1.partNum = st.partNum + 1) ∨
    ((st.partNum < shape.nParts.toNat → partStart shape st.partNum ≠ i) ∧
      ∃ st1, visitPolygon.openPart shape i st = .ok st1 ∧
        st1.members = st.members ∧ st1.coordinates = st.coordinates ∧
        st1.partNum = st.partNum) := by
  obtain ⟨hstart, hzero, hinc, hbound⟩ := PolygonRecord.starts shape h
  have hparts := h.parts
  by_cases hp : st.partNum < shape.nParts.toNat
  · have hlt : (st.partNum : Int) < shape.nParts := by omega
    have hs := hstart st.partNum hp
    by_cases hi : partStart shape st.partNum = i
    · left
      refine ⟨hp, hi, ?_⟩
      have htype : ∃ t, shape.panPartType[st.partNum]? = some t := by
        cases hget : shape.panPartType[st.partNum]? with
        | some t => exact ⟨t, rfl⟩
        | none =>
          have := List.getElem?_eq_none_iff.mp hget
          rw [h.typeLength] at this
          omega
      obtain ⟨t, ht⟩ := htype
      have hb := hbound st.partNum hp
      have heq : (partStart shape st.partNum : Int) = (i : Int) := by omega
      unfold visitPolygon.openPart
      simp only [hs, ht]
      rw [if_pos hlt, if_pos heq]
      by_cases hlast : (st.partNum : Int) = shape.nParts - 1
      · have hres : ¬ (shape.nVertices - (partStart shape st.partNum : Int) < 0) := by omega
        rw [if_pos hlast, if_neg hres]
        exact ⟨_, rfl, rfl, rfl, rfl⟩
      · have hnext := hstart (st.partNum + 1) (by omega)
        have hincr := hinc st.partNum (by omega)
        have hres : ¬ ((partStart shape (st.partNum + 1) : Int)
            - (partStart shape st.partNum : Int) < 0) := by omega
        rw [if_neg hlast]
        simp only [hnext]
        rw [if_neg hres]
        exact ⟨_, rfl, rfl, rfl, rfl⟩
    · right
      refine ⟨fun _ => hi, ?_⟩
      have hne : ¬ ((partStart shape st.partNum : Int) = (i : Int)) := by omega
      unfold visitPolygon.openPart
      simp only [hs]
      rw [if_pos hlt, if_neg hne]
      exact ⟨_, rfl, rfl, rfl, rfl⟩
  · right
    refine ⟨fun hlt => absurd hlt hp, ?_⟩
    have hlt : ¬ ((st.partNum : Int) < shape.nParts) := by omega
    unfold visitPolygon.openPart
    simp only []
    rw [if_neg hlt]
    exact ⟨_, rfl, rfl, rfl, rfl⟩

theorem memberUpTo_congr (shape : SHPObject) (i i2 count count2 j : Nat)
    (hend : (if j + 1 < count then partStart shape (j + 1) else i)
      = (if j + 1 < count2 then partStart shape (j + 1) else i2)) :
    memberUpTo shape i count j = memberUpTo shape i2 count2 j := by
  simp only [memberUpTo, hend]

/-- One iteration of the loop of `visitPolygon` on a polygon record keeps the
invariant. -/
theorem visitPolygon.step_ok (shape : SHPObject) (h : PolygonRecord shape) (i : Nat)
    (st : PolygonLoop) (hinv : PolygonLoop.Invariant shape i st)
    (hi : i < shape.nVertices.toNat) :
    ∃ st1, visitPolygon.step shape i st = .ok st1 ∧
      PolygonLoop.Invariant shape (i + 1) st1 := by
  obtain ⟨hstart, hzero, hinc, hbound⟩ := PolygonRecord.starts shape h
  have hlen := vertices_length shape _ h.xLength h.yLength
  have hvertex : ∃ c, (vertices shape)[i]? = some c := by
    cases hget : (vertices shape)[i]? with
    | some c => exact ⟨c, rfl⟩
    | none =>
      have := List.getElem?_eq_none_iff.mp hget
      omega
  obtain ⟨c, hc⟩ := hvertex
  have hread : readVertex shape i = some c := by rw [readVertex_eq, hc]
  have hmlen : st.members.length = st.partNum := by
    rw [hinv.members]; simp
  have htake : (vertices shape).take (i + 1) = (vertices shape).take i ++ [c] := by
    rw [List.take_succ, hc]; rfl
  rcases visitPolygon.openPart_ok shape h i st with
    ⟨hp, hstarts, st1, hopen, hm, hptr, hnum⟩ | ⟨hno, st1, hopen, hm, hptr, hnum⟩
  · -- a new part is opened at vertex i
    have hpush : pushCoordinate st1.members st.partNum c
        = st.members ++ [{ isRing := (shape.panPartType[st.partNum]?).getD 0 == SHPP_RING,
                           coordinates := [c] }] := by
      rw [hm]
      have := pushCoordinate_last st.members
        { isRing := (shape.panPartType[st.partNum]?).getD 0 == SHPP_RING, coordinates := [] } c
      rw [hmlen] at this
      simpa using this
    refine ⟨{ st1 with members := pushCoordinate st1.members st.partNum c
                       reads := st1.reads ++ [.padfY i, .padfX i] },
      by simp only [visitPolygon.step, hopen, hptr, hread], ?_⟩
    refine ⟨?_, ?_, ?_, ?_, ?_, ?_, ?_⟩
    · simp only [hnum]; omega
    · simp [hnum, hptr]
    · intro _; simp only [hnum]; omega
    · simp only [hnum]
      intro hlt
      have := hinc st.partNum hlt
      omega
    · simp only [hnum]
      intro j hj
      rcases Nat.lt_succ_iff_lt_or_eq.mp hj with hlt | heq
      · have := hinv.behind j hlt; omega
      · rw [heq]; omega
    · simp only [hnum, hpush, List.range_succ, List.map_append, List.map_singleton]
      congr 1
      · rw [hinv.members]
        apply List.map_congr_left
        intro j hj
        have hj : j < st.partNum := List.mem_range.mp hj
        apply memberUpTo_congr
        by_cases hjl : j + 1 < st.partNum
        · have : j + 1 < st.partNum + 1 := by omega
          simp [hjl, this]
        · have hjeq : j + 1 = st.partNum := by omega
          have : j + 1 < st.partNum + 1 := by omega
          simp [hjl, this, hjeq, hstarts]
      · simp only [memberUpTo, Nat.lt_irrefl, if_false, hstarts, Nat.add_sub_cancel_left,
          List.singleton_inj, PolygonMember.mk.injEq, true_and]
        rw [List.take_succ, List.getElem?_drop]
        simp [hc]
    · simp only [hpush, List.map_append, List.flatten_append, hinv.passed, htake]
      simp
  · -- the vertex goes to the part opened last
    have hpos : 0 < st.partNum := by
      by_cases hz : 0 < i
      · exact hinv.opened hz
      · have hi0 : i = 0 := by omega
        by_contra hzero'
        have hnum0 : st.partNum = 0 := by omega
        have hparts := h.parts
        have : st.partNum < shape.nParts.toNat := by omega
        have := hno this
        rw [hnum0, hzero, hi0] at this
        exact this rfl
    obtain ⟨prev, hprev⟩ : ∃ prev, st.partNum = prev + 1 := ⟨st.partNum - 1, by omega⟩
    have hsplit : st.members = (List.range prev).map (memberUpTo shape i (prev + 1))
        ++ [memberUpTo shape i (prev + 1) prev] := by
      rw [hinv.members, hprev, List.range_succ, List.map_append, List.map_singleton]
    have hptr' : st1.coordinates = some prev := by
      rw [hptr, hinv.pointer, hprev]; simp
    have hbehind := hinv.behind prev (by omega)
    have hpush : pushCoordinate st1.members prev c
        = (List.range prev).map (memberUpTo shape i (prev + 1))
          ++ [memberUpTo shape (i + 1) (prev + 1) prev] := by
      rw [hm, hsplit]
      have := pushCoordinate_last ((List.range prev).map (memberUpTo shape i (prev + 1)))
        (memberUpTo shape i (prev + 1) prev) c
      simp only [List.length_map, List.length_range] at this
      rw [this]
      congr 2
      simp only [memberUpTo, Nat.lt_irrefl, if_false, PolygonMember.mk.injEq, true_and]
      exact take_drop_snoc _ _ _ _ hbehind hc
    refine ⟨{ st1 with members := pushCoordinate st1.members prev c
                       reads := st1.reads ++ [.padfY i, .padfX i] },
      by simp only [visitPolygon.step, hopen, hptr', hread], ?_⟩
    refine ⟨?_, ?_, ?_, ?_, ?_, ?_, ?_⟩
    · simp only [hnum]; exact hinv.count
    · simp only [hnum, hptr, hinv.pointer]
    · intro _; simp only [hnum]; exact hpos
    · simp only [hnum]
      intro hlt
      have := hinv.ahead hlt
      have := hno hlt
      omega
    · simp only [hnum]
      intro j hj
      have := hinv.behind j hj
      omega
    · simp only [hnum, hpush, hprev, List.range_succ, List.map_append, List.map_singleton]
      congr 1
      apply List.map_congr_left
      intro j hj
      have hj : j < prev := List.mem_range.mp hj
      apply memberUpTo_congr
      have : j + 1 < prev + 1 := by omega
      simp [this]
    · have hflat : (List.map (fun m => m.coordinates) (pushCoordinate st1.members prev c)).flatten
          = (List.map (fun m => m.coordinates) st.members).flatten ++ [c] := by
        rw [hpush, hsplit]
        simp only [List.map_append, List.flatten_append, List.map_singleton, List.flatten_singleton,
          List.append_assoc]
        congr 1
        simp only [memberUpTo, Nat.lt_irrefl, if_false]
        exact (take_drop_snoc _ _ _ _ hbehind hc).symm
      simp only [hflat, hinv.passed, htake]

/-- The loop of `visitPolygon` on a polygon record runs to its end and keeps
the invariant. -/
theorem visitPolygon.polygonLoop_ok (shape : SHPObject) (h : PolygonRecord shape) (remaining : Nat) :
    ∀ (i : Nat) (st : PolygonLoop), PolygonLoop.Invariant shape i st →
      i + remaining = shape.nVertices.toNat →
      ∃ st1, visitPolygon.loop shape remaining i st = .ok st1 ∧
        PolygonLoop.Invariant shape shape.nVertices.toNat st1 := by
  induction remaining with
  | zero =>
    intro i st hinv hi
    have : i = shape.nVertices.toNat := by omega
    subst this
    exact ⟨st, rfl, hinv⟩
  | succ n ih =>
    intro i st hinv hi
    obtain ⟨st1, hstep, hinv1⟩ := visitPolygon.step_ok shape h i st hinv (by omega)
    obtain ⟨st2, hloop, hinv2⟩ := ih (i + 1) st1 hinv1 (by omega)
    exact ⟨st2, by simp only [visitPolygon.loop, hstep, hloop], hinv2⟩

theorem PolygonLoop.Invariant.initial (shape : SHPObject) :
    PolygonLoop.Invariant shape 0 PolygonLoop.initial := by
  refine ⟨?_, ?_, ?_, ?_, ?_, ?_, ?_⟩ <;> simp [PolygonLoop.initial]

/-- On a polygon record `visitPolygon` hands the expected members to the visitor. -/
theorem visitPolygon_eq (shape : SHPObject) (h : PolygonRecord shape)
    (tags : List formats.Tag) (trace : List ShapeEvent) :
    visitPolygon shape tags trace
      = (.returned, trace ++ [.visitRelation (expectedMembers shape) tags]) ∧
    ((expectedMembers shape).map (fun m => m.coordinates)).flatten = vertices shape := by
  obtain ⟨hstart, hzero, hinc, hbound⟩ := PolygonRecord.starts shape h
  obtain ⟨st, hloop, hinv⟩ := visitPolygon.polygonLoop_ok shape h shape.nVertices.toNat 0
    PolygonLoop.initial (PolygonLoop.Invariant.initial shape) (by omega)
  have hcount : st.partNum = shape.nParts.toNat := by
    by_contra hne
    have hlt : st.partNum < shape.nParts.toNat := by
      have := hinv.count
      omega
    have := hinv.ahead hlt
    have := hbound st.partNum hlt
    omega
  have hmembers : st.members = expectedMembers shape := by
    rw [hinv.members, hcount, expectedMembers]
    apply List.map_congr_left
    intro j hj
    have hj : j < shape.nParts.toNat := List.mem_range.mp hj
    simp only [memberUpTo, expectedMember, PolygonMember.mk.injEq, true_and]
    congr 2
    by_cases hnext : j + 1 < shape.nParts.toNat
    · simp [hnext, partStop, hstart (j + 1) hnext]
    · have hnone : shape.panPartStart[j + 1]? = none := by
        apply List.getElem?_eq_none
        rw [h.startLength]
        omega
      simp [hnext, partStop, hnone]
  have hlen := vertices_length shape _ h.xLength h.yLength
  refine ⟨by simp only [visitPolygon, hloop, hmembers], ?_⟩
  rw [← hmembers, hinv.passed, ← hlen]
  exact List.take_length _

theorem openedFiles_append (xs ys : List AppEvent) :
    openedFiles (xs ++ ys) = openedFiles xs ++ openedFiles ys := by
  induction xs with
  | nil => rfl
  | cons x xs ih => cases x <;> simp [openedFiles, ih]

theorem parsedFiles_append (xs ys : List AppEvent) :
    parsedFiles (xs ++ ys) = parsedFiles xs ++ parsedFiles ys := by
  induction xs with
  | nil => rfl
  | cons x xs ih => cases x <;> simp [parsedFiles, ih]

/-- A cached path is served from the cache: same provider, state untouched. -/
theorem getStyleProvider_hit (world : World) (filePath : String) (app : Application)
    (provider : StyleProviderPtr)
    (hcached : app.styleProviders_.lookup filePath = some provider) :
    getStyleProvider world filePath app = (.ok provider, app) := by
  simp [getStyleProvider, hcached]

/-- A lookup that succeeds leaves the path cached with the provider it returned. -/
theorem getStyleProvider_caches (world : World) (filePath : String) (app : Application)
    (provider : StyleProviderPtr)
    (hok : (getStyleProvider world filePath app).1 = .ok provider) :
    (getStyleProvider world filePath app).2.styleProviders_.lookup filePath = some provider := by
  unfold getStyleProvider at hok ⊢
  generalize substr filePath 0 ((find_last_of filePath "\\/" + 1) % 2 ^ 64) = dir at hok ⊢
  cases hlookup : app.styleProviders_.lookup filePath with
  | some found =>
    simp only [hlookup] at hok ⊢
    cases hok
    rfl
  | none =>
    simp only [hlookup] at hok ⊢
    cases hread : world.readFile filePath with
    | none => simp [hread] at hok
    | some content =>
      simp only [hread] at hok ⊢
      cases hparse : world.parse dir content with
      | error what => simp [hparse] at hok
      | ok stylesheet =>
        simp only [hparse] at hok ⊢
        cases hok
        simp [List.lookup]

/-- What a lookup of any path keeps: a cached path stays cached with the same
provider, and its file is neither opened nor parsed. -/
theorem getStyleProvider_keeps (world : World) (filePath other : String) (app : Application)
    (provider : StyleProviderPtr)
    (hcached : app.styleProviders_.lookup filePath = some provider) :
    (getStyleProvider world other app).2.styleProviders_.lookup filePath = some provider ∧
    (openedFiles (getStyleProvider world other app).2.trace).count filePath
      = (openedFiles app.trace).count filePath ∧
    (parsedFiles (getStyleProvider world other app).2.trace).count filePath
      = (parsedFiles app.trace).count filePath := by
  by_cases hsame : other = filePath
  · subst hsame
    rw [getStyleProvider_hit world other app provider hcached]
    exact ⟨hcached, rfl, rfl⟩
  · have hne : (filePath == other) = false := by
      simpa using fun h => hsame h.symm
    have hne2 : List.count filePath [other] = 0 := by
      rw [List.count_eq_zero]
      simpa using fun h => hsame h.symm
    unfold getStyleProvider
    generalize substr other 0 ((find_last_of other "\\/" + 1) % 2 ^ 64) = dir
    cases hlookup : app.styleProviders_.lookup other with
    | some found => exact ⟨hcached, rfl, rfl⟩
    | none =>
      simp only []
      cases hread : world.readFile other with
      | none =>
        simp [hcached, openedFiles_append, parsedFiles_append, openedFiles, parsedFiles, hne2]
      | some content =>
        simp only []
        cases hparse : world.parse dir content with
        | error what =>
          simp [hcached, openedFiles_append, parsedFiles_append, openedFiles, parsedFiles, hne2]
        | ok stylesheet =>
          simp [hcached, openedFiles_append, parsedFiles_append, openedFiles, parsedFiles, hne2,
            List.lookup, hne]

theorem Application.Serves.getStyleProvider (world : World) (filePath other : String)
    (provider : StyleProviderPtr) (opens parses : Nat) (app : Application)
    (h : app.Serves filePath provider opens parses) :
    (utymap.getStyleProvider world other app).2.Serves filePath provider opens parses := by
  obtain ⟨h1, h2, h3⟩ := getStyleProvider_keeps world filePath other app provider h.1
  exact ⟨h1, h2.trans h.2.1, h3.trans h.2.2⟩

theorem Application.Serves.safeExecute (action : Application → Outcome × Application)
    (filePath : String) (provider : StyleProviderPtr) (opens parses : Nat) (app : Application)
    (h : (action app).2.Serves filePath provider opens parses) :
    (utymap.safeExecute action app).2.Serves filePath provider opens parses := by
  unfold utymap.safeExecute
  split
  · rename_i heq; rw [heq] at h; exact h
  · rename_i heq
    rw [heq] at h
    exact ⟨h.1, by simpa [openedFiles_append, openedFiles] using h.2.1,
      by simpa [parsedFiles_append, parsedFiles] using h.2.2⟩
  · rename_i heq; rw [heq] at h; exact h

theorem Application.Serves.geoStoreAdd (world : World) (storeKey styleFile : String)
    (request : AddRequest) (filePath : String) (provider : StyleProviderPtr)
    (opens parses : Nat) (app : Application)
    (h : app.Serves filePath provider opens parses) :
    (utymap.geoStoreAdd world storeKey styleFile request app).2.Serves filePath provider
      opens parses := by
  have hlookup := Application.Serves.getStyleProvider world filePath styleFile provider opens
    parses app h
  unfold utymap.geoStoreAdd
  revert hlookup
  cases utymap.getStyleProvider world styleFile app with
  | mk found app1 =>
    intro hlookup
    cases found with
    | error failure => exact hlookup
    | ok styleProvider =>
      exact ⟨hlookup.1, by simpa [openedFiles_append, openedFiles] using hlookup.2.1,
        by simpa [parsedFiles_append, parsedFiles] using hlookup.2.2⟩

theorem Application.Serves.runSteps (steps : List PipelineStep) (filePath : String)
    (provider : StyleProviderPtr) (opens parses : Nat) :
    ∀ app : Application, app.Serves filePath provider opens parses →
      (loadQuadKey.runSteps steps app).Serves filePath provider opens parses := by
  induction steps with
  | nil => intro app h; exact h
  | cons step rest ih =>
    intro app h
    cases step with
    | mesh mesh =>
      apply ih
      unfold loadQuadKey.meshLambda
      split
      · exact ⟨h.1, by simpa [openedFiles_append, openedFiles] using h.2.1,
          by simpa [parsedFiles_append, parsedFiles] using h.2.2⟩
      · exact h
    | element element =>
      apply ih
      exact ⟨h.1, by simpa [loadQuadKey.elementLambda, openedFiles_append, openedFiles] using h.2.1,
        by simpa [loadQuadKey.elementLambda, parsedFiles_append, parsedFiles] using h.2.2⟩

theorem Application.Serves.loadQuadKeyBody (world : World) (styleFile : String)
    (quadKey : QuadKey) (filePath : String) (provider : StyleProviderPtr)
    (opens parses : Nat) (app : Application)
    (h : app.Serves filePath provider opens parses) :
    (loadQuadKey.body world styleFile quadKey app).2.Serves filePath provider opens parses := by
  have hlookup := Application.Serves.getStyleProvider world filePath styleFile provider opens
    parses app h
  unfold loadQuadKey.body
  revert hlookup
  cases utymap.getStyleProvider world styleFile app with
  | mk found app1 =>
    intro hlookup
    cases found with
    | error failure => exact hlookup
    | ok styleProvider =>
      apply Application.Serves.runSteps
      exact ⟨hlookup.1, by simpa [openedFiles_append, openedFiles] using hlookup.2.1,
        by simpa [parsedFiles_append, parsedFiles] using hlookup.2.2⟩

/-- Every public operation keeps a cached stylesheet cached, with the same
provider, and neither opens nor parses its file. -/
theorem Application.Serves.runCall (world : World) (call : Call) (filePath : String)
    (provider : StyleProviderPtr) (opens parses : Nat) (app : Application)
    (h : app.Serves filePath provider opens parses) :
    (utymap.runCall world call app).2.Serves filePath provider opens parses := by
  cases call with
  | registerStylesheet path =>
    have hlookup := Application.Serves.getStyleProvider world filePath path provider opens
      parses app h
    simp only [utymap.runCall, utymap.registerStylesheet]
    revert hlookup
    cases utymap.getStyleProvider world path app with
    | mk found app1 => intro hlookup; cases found <;> exact hlookup
  | preloadElevation quadKey =>
    exact ⟨h.1, by simpa [utymap.runCall, preloadElevation, openedFiles_append, openedFiles]
        using h.2.1,
      by simpa [utymap.runCall, preloadElevation, parsedFiles_append, parsedFiles] using h.2.2⟩
  | addToPersistentStoreQuadKey styleFile path quadKey => exact h
  | addToPersistentStoreLodRange styleFile path range =>
    exact Application.Serves.safeExecute _ _ _ _ _ _
      (Application.Serves.geoStoreAdd _ _ _ _ _ _ _ _ _ h)
  | addToInMemoryStoreQuadKey styleFile path quadKey =>
    exact Application.Serves.safeExecute _ _ _ _ _ _
      (Application.Serves.geoStoreAdd _ _ _ _ _ _ _ _ _ h)
  | addToInMemoryStoreBoundingBox styleFile path bbox range =>
    exact Application.Serves.safeExecute _ _ _ _ _ _
      (Application.Serves.geoStoreAdd _ _ _ _ _ _ _ _ _ h)
  | addToInMemoryStoreLodRange styleFile path range =>
    exact Application.Serves.safeExecute _ _ _ _ _ _
      (Application.Serves.geoStoreAdd _ _ _ _ _ _ _ _ _ h)
  | addInMemoryStore styleFile element range =>
    exact Application.Serves.safeExecute _ _ _ _ _ _
      (Application.Serves.geoStoreAdd _ _ _ _ _ _ _ _ _ h)
  | loadQuadKey styleFile quadKey =>
    exact Application.Serves.safeExecute _ _ _ _ _ _
      (Application.Serves.loadQuadKeyBody _ _ _ _ _ _ _ _ h)

theorem Application.Serves.runCalls (calls : List (World × Call)) (filePath : String)
    (provider : StyleProviderPtr) (opens parses : Nat) :
    ∀ app : Application, app.Serves filePath provider opens parses →
      (utymap.runCalls calls app).Serves filePath provider opens parses := by
  induction calls with
  | nil => intro app h; exact h
  | cons first rest ih =>
    intro app h
    obtain ⟨world, call⟩ := first
    exact ih _ (Application.Serves.runCall world call filePath provider opens parses app h)

/-- The callbacks run over the pipeline steps only add to the trace. -/
theorem runSteps_trace (steps : List PipelineStep) :
    ∀ app : Application, List.IsPrefix app.trace (loadQuadKey.runSteps steps app).trace := by
  induction steps with
  | nil => intro app; exact List.prefix_refl _
  | cons step rest ih =>
    intro app
    cases step with
    | mesh mesh =>
      refine List.IsPrefix.trans ?_ (ih (loadQuadKey.meshLambda mesh app))
      unfold loadQuadKey.meshLambda
      split
      · exact List.prefix_append _ _
      · exact List.prefix_refl _
    | element element =>
      refine List.IsPrefix.trans ?_ (ih (loadQuadKey.elementLambda element app))
      exact List.prefix_append _ _

/-- A lookup parses the file of its path at most once. -/
theorem getStyleProvider_parses (world : World) (filePath : String) (app : Application) :
    (parsedFiles (getStyleProvider world filePath app).2.trace).count filePath
      ≤ (parsedFiles app.trace).count filePath + 1 := by
  unfold getStyleProvider
  generalize substr filePath 0 ((find_last_of filePath "\\/" + 1) % 2 ^ 64) = dir
  cases app.styleProviders_.lookup filePath with
  | some found => simp
  | none =>
    simp only []
    cases world.readFile filePath with
    | none => simp [parsedFiles_append, parsedFiles]
    | some content =>
      simp only []
      cases world.parse dir content <;> simp [parsedFiles_append, parsedFiles]

theorem sampledPoints_append (xs ys : List BuilderEvent) :
    sampledPoints (xs ++ ys) = sampledPoints xs ++ sampledPoints ys := by
  induction xs with
  | nil => rfl
  | cons x xs ih => cases x <;> simp [sampledPoints, ih]

theorem roofSettings_append (xs ys : List BuilderEvent) :
    roofSettings (xs ++ ys) = roofSettings xs ++ roofSettings ys := by
  induction xs with
  | nil => rfl
  | cons x xs ih => cases x <;> simp [roofSettings, ih]

theorem facadeSettings_append (xs ys : List BuilderEvent) :
    facadeSettings (xs ++ ys) = facadeSettings xs ++ facadeSettings ys := by
  induction xs with
  | nil => rfl
  | cons x xs ih => cases x <;> simp [facadeSettings, ih]

/-- A `build` that returns found a polygon. -/
theorem build_returned_polygon (ext : Collaborators) (context_ : BuilderContext)
    (element : Element) (style : Style) (s : BuilderState)
    (hret : (build ext context_ element style s).1 = .returned) :
    ∃ polygon, s.polygon_ = some polygon := by
  cases hp : s.polygon_ with
  | some polygon => exact ⟨polygon, rfl⟩
  | none =>
    unfold build at hret
    cases hm : s.mesh_ <;> simp [hm, hp] at hret

/-- The tail shared by `visitArea` and the multipolygon branch of
`visitRelation`: `build`, then `completeIfNecessary`. When it returns, the
polygon is dropped, the trace has gained the three calls of `build` and, if
the mesh was just created, the mesh callback as its last call, after which
the mesh is dropped too. -/
theorem build_then_complete (ext : Collaborators) (context_ : BuilderContext)
    (element : Element) (style : Style) (s : BuilderState) (justCreated : Bool)
    (hret : (match build ext context_ element style s with
      | (.returned, s3) => completeIfNecessary justCreated s3
      | (.failed failure, s3) => (.failed failure, s3)).1 = .returned) :
    ∃ c rb rs fb fs mesh polygon,
      (match build ext context_ element style s with
        | (.returned, s3) => completeIfNecessary justCreated s3
        | (.failed failure, s3) => (.failed failure, s3)).2
        = { polygon_ := none
            mesh_ := if justCreated then none else some mesh
            trace := s.trace ++ [.getElevation c, .roofBuild rb rs polygon,
              .facadeBuild fb fs polygon] ++ if justCreated then [.meshCallback mesh] else [] } := by
  cases hbuild : build ext context_ element style s with
  | mk outcome s3 =>
    rw [hbuild] at hret
    cases outcome with
    | failed failure => simp at hret
    | returned =>
      have hr : (build ext context_ element style s).1 = .returned := by rw [hbuild]
      obtain ⟨polygon, hpolygon⟩ := build_returned_polygon ext context_ element style s hr
      obtain ⟨c, rb, rs, fb, fs, mesh, hs3⟩ := build_returned ext context_ element style s polygon
        hpolygon hr
      rw [hbuild] at hs3
      simp only [] at hs3
      subst hs3
      refine ⟨c, rb, rs, fb, fs, mesh, polygon, ?_⟩
      cases justCreated <;> simp [completeIfNecessary]

/-- The multipolygon loop never touches the mesh or the trace. -/
theorem MultiPolygonVisitor.acceptAll_frame (ext : Collaborators) (elements : List Element) :
    ∀ s : BuilderState,
      (MultiPolygonVisitor.acceptAll ext elements s).2.mesh_ = s.mesh_ ∧
      (MultiPolygonVisitor.acceptAll ext elements s).2.trace = s.trace := by
  induction elements with
  | nil => intro s; exact ⟨rfl, rfl⟩
  | cons e rest ih =>
    intro s
    have hstep : (MultiPolygonVisitor.accept ext e s).2.mesh_ = s.mesh_ ∧
        (MultiPolygonVisitor.accept ext e s).2.trace = s.trace := by
      cases e with
      | area id tags coordinates =>
        simp only [MultiPolygonVisitor.accept, MultiPolygonVisitor.visitArea]
        cases s.polygon_ with
        | none => exact ⟨rfl, rfl⟩
        | some polygon => by_cases h : ext.isClockwise coordinates = true <;> simp [h]
      | node id tags coordinate => exact ⟨rfl, rfl⟩
      | way id tags coordinates => exact ⟨rfl, rfl⟩
      | relation id tags members => exact ⟨rfl, rfl⟩
    simp only [MultiPolygonVisitor.acceptAll]
    revert hstep
    cases MultiPolygonVisitor.accept ext e s with
    | mk outcome s1 =>
      intro hstep
      cases outcome with
      | failed failure => exact hstep
      | returned =>
        have := ih s1
        exact ⟨this.1.trans hstep.1, this.2.trans hstep.2⟩

/-- The body of `visitRelation` for a relation with members. -/
theorem accept_relation (ext : Collaborators) (context_ : BuilderContext) (id : Nat)
    (tags : List Tag) (elements : List Element) (s : BuilderState) (hne : elements ≠ []) :
    accept ext context_ (.relation id tags elements) s =
      match (match isMultipolygon (context_.styleProvider.forElement (.relation id tags elements)
            context_.quadKey.levelOfDetail) with
          | .error failure => Except.error failure
          | .ok false => .ok false
          | .ok true => isBuilding (context_.styleProvider.forElement (.relation id tags elements)
              context_.quadKey.levelOfDetail)) with
      | .error failure => (.failed failure, (ensureContext (.relation id tags elements) s).2)
      | .ok true =>
        match MultiPolygonVisitor.acceptAll ext elements
            (ensureContext (.relation id tags elements) s).2 with
        | (.failed failure, s2) => (.failed failure, s2)
        | (.returned, s2) =>
          match build ext context_ (.relation id tags elements)
              (context_.styleProvider.forElement (.relation id tags elements)
                context_.quadKey.levelOfDetail) s2 with
          | (.returned, s3) =>
            completeIfNecessary (ensureContext (.relation id tags elements) s).1 s3
          | (.failed failure, s3) => (.failed failure, s3)
      | .ok false =>
        match acceptAll ext context_ elements (ensureContext (.relation id tags elements) s).2 with
        | (.returned, s2) =>
          completeIfNecessary (ensureContext (.relation id tags elements) s).1 s2
        | (.failed failure, s2) => (.failed failure, s2) := by
  simp only [accept, List.isEmpty_iff, hne, if_false]

/-- The three ways through `visitRelation` for a relation with members: a
failed style test, the multipolygon branch, or its members forwarded to the
builder itself. -/
theorem accept_relation_cases (ext : Collaborators) (context_ : BuilderContext) (id : Nat)
    (tags : List Tag) (elements : List Element) (s : BuilderState) (hne : elements ≠ []) :
    (∃ failure, accept ext context_ (.relation id tags elements) s
      = (.failed failure, (ensureContext (.relation id tags elements) s).2)) ∨
    (accept ext context_ (.relation id tags elements) s
      = match MultiPolygonVisitor.acceptAll ext elements
            (ensureContext (.relation id tags elements) s).2 with
        | (.failed failure, s2) => (.failed failure, s2)
        | (.returned, s2) =>
          match build ext context_ (.relation id tags elements)
              (context_.styleProvider.forElement (.relation id tags elements)
                context_.quadKey.levelOfDetail) s2 with
          | (.returned, s3) =>
            completeIfNecessary (ensureContext (.relation id tags elements) s).1 s3
          | (.failed failure, s3) => (.failed failure, s3)) ∨
    (accept ext context_ (.relation id tags elements) s
      = match acceptAll ext context_ elements (ensureContext (.relation id tags elements) s).2 with
        | (.returned, s2) =>
          completeIfNecessary (ensureContext (.relation id tags elements) s).1 s2
        | (.failed failure, s2) => (.failed failure, s2)) := by
  rw [accept_relation ext context_ id tags elements s hne]
  cases (match isMultipolygon (context_.styleProvider.forElement (.relation id tags elements)
        context_.quadKey.levelOfDetail) with
      | .error failure => Except.error failure
      | .ok false => .ok false
      | .ok true => isBuilding (context_.styleProvider.forElement (.relation id tags elements)
          context_.quadKey.levelOfDetail)) with
  | error failure => exact Or.inl ⟨failure, rfl⟩
  | ok flag =>
    cases flag with
    | true => exact Or.inr (Or.inl rfl)
    | false => exact Or.inr (Or.inr rfl)

/-- What `visitArea` has done when it returns: nothing for an area that is
not a building; for a building, the polygon is dropped, the trace has gained
the three calls of `build` and, when there was no mesh before, the mesh
callback as its last call, after which there is no mesh again. -/
theorem visitArea_returned (ext : Collaborators) (context_ : BuilderContext) (id : Nat)
    (tags : List Tag) (coordinates : List GeoCoordinate) (s : BuilderState)
    (hret : (visitArea ext context_ id tags coordinates s).1 = .returned) :
    ((context_.styleProvider.forElement (.area id tags coordinates)
        context_.quadKey.levelOfDetail).getString "building" ≠ some "true" ∧
      visitArea ext context_ id tags coordinates s = (.returned, s)) ∨
    ((context_.styleProvider.forElement (.area id tags coordinates)
        context_.quadKey.levelOfDetail).getString "building" = some "true" ∧
      ∃ c rb rs fb fs mesh polygon,
        (visitArea ext context_ id tags coordinates s).2
          = { polygon_ := none
              mesh_ := if s.mesh_.isNone then none else some mesh
              trace := s.trace ++ [.getElevation c, .roofBuild rb rs polygon,
                .facadeBuild fb fs polygon]
                ++ if s.mesh_.isNone then [.meshCallback mesh] else [] }) := by
  cases hb : (context_.styleProvider.forElement (.area id tags coordinates)
      context_.quadKey.levelOfDetail).getString "building" with
  | none =>
    rw [visitArea_building_missing ext context_ id tags coordinates s hb] at hret
    simp at hret
  | some value =>
    by_cases hv : value = "true"
    · subst hv
      right
      refine ⟨rfl, ?_⟩
      have hstate := ensureContext_state (.area id tags coordinates) s
      have heq : visitArea ext context_ id tags coordinates s
          = (match build ext context_ (.area id tags coordinates)
              (context_.styleProvider.forElement (.area id tags coordinates)
                context_.quadKey.levelOfDetail)
              { polygon_ := some ((s.polygon_.getD (Polygon.create 1 0)).addContour
                  (toPoints coordinates))
                mesh_ := some (s.mesh_.getD
                  (Mesh.create (getMeshName MeshNamePrefix (.area id tags coordinates))))
                trace := s.trace } with
            | (.returned, s3) => completeIfNecessary s.mesh_.isNone s3
            | (.failed failure, s3) => (.failed failure, s3)) := by
        simp only [visitArea, isBuilding, derefEqualsTrue, hb, hstate.1, hstate.2]
        rfl
      rw [heq] at hret ⊢
      exact build_then_complete ext context_ _ _ _ _ hret
    · left
      exact ⟨by simpa using hv, visitArea_not_building ext context_ id tags coordinates s value hb hv⟩

theorem ensureContext_polygonIdle (element : Element) (s : BuilderState)
    (h : s.polygonIdle) : (ensureContext element s).2.polygonIdle := by
  rw [(ensureContext_state element s).1]
  rcases h with h | h <;> simp [BuilderState.polygonIdle, h]

theorem completeIfNecessary_returned (justCreated : Bool) (s : BuilderState)
    (hret : (completeIfNecessary justCreated s).1 = .returned) :
    (completeIfNecessary justCreated s).2.polygon_ = s.polygon_ ∧
    (justCreated = false → (completeIfNecessary justCreated s).2 = s) ∧
    (justCreated = true → ∃ mesh, s.mesh_ = some mesh ∧
      (completeIfNecessary justCreated s).2
        = { s with trace := s.trace ++ [.meshCallback mesh], mesh_ := none }) := by
  cases justCreated with
  | false => simp [completeIfNecessary]
  | true =>
    cases hm : s.mesh_ with
    | none => simp [completeIfNecessary, hm] at hret
    | some mesh => simp [completeIfNecessary, hm]

mutual
/-- An element visited by the builder, when the visit returns: a polygon that
was idle is idle again, and if there was a mesh (the element is a member of a
relation being visited) no mesh was handed to the callback and the mesh is
still there. -/
theorem accept_member (ext : Collaborators) (context_ : BuilderContext) :
    ∀ (element : Element) (s : BuilderState),
      (accept ext context_ element s).1 = .returned →
      (s.polygonIdle → (accept ext context_ element s).2.polygonIdle) ∧
      (s.mesh_.isSome = true →
        emittedMeshes (accept ext context_ element s).2.trace = emittedMeshes s.trace ∧
        (accept ext context_ element s).2.mesh_.isSome = true)
  | .node _ _ _, s, _ => by simp [accept, visitNode]
  | .way _ _ _, s, _ => by simp [accept, visitWay]
  | .area id tags coordinates, s, hret => by
    simp only [accept] at hret ⊢
    rcases visitArea_returned ext context_ id tags coordinates s hret with
      ⟨_, hsame⟩ | ⟨_, c, rb, rs, fb, fs, mesh, polygon, hstate⟩
    · rw [hsame]
      exact ⟨fun h => h, fun _ => ⟨rfl, by assumption⟩⟩
    · rw [hstate]
      refine ⟨fun _ => Or.inl rfl, fun hm => ?_⟩
      have hnone : s.mesh_.isNone = false := by
        cases hs : s.mesh_ <;> simp [hs] at hm ⊢
      simp [hnone, emittedMeshes_append, emittedMeshes]
  | .relation id tags elements, s, hret => by
    by_cases hne : elements = []
    · subst hne
      simp [accept]
    · have hctx := ensureContext_state (.relation id tags elements) s
      rcases accept_relation_cases ext context_ id tags elements s hne with
        ⟨failure, hfail⟩ | hmulti | hforward
      · rw [hfail] at hret
        simp at hret
      · rw [hmulti] at hret ⊢
        have hframe := MultiPolygonVisitor.acceptAll_frame ext elements
          (ensureContext (.relation id tags elements) s).2
        revert hret hframe
        cases MultiPolygonVisitor.acceptAll ext elements
            (ensureContext (.relation id tags elements) s).2 with
        | mk outcome s2 =>
          cases outcome with
          | failed failure => intro hret; simp at hret
          | returned =>
            intro hret hframe
            simp only [] at hret hframe ⊢
            obtain ⟨c, rb, rs, fb, fs, mesh, polygon, hstate⟩ :=
              build_then_complete ext context_ _ _ s2 _ hret
            rw [hstate]
            refine ⟨fun _ => Or.inl rfl, fun hm => ?_⟩
            have hnone : s.mesh_.isNone = false := by
              cases hs : s.mesh_ <;> simp [hs] at hm ⊢
            rw [hctx.2, hnone]
            simp [emittedMeshes_append, emittedMeshes, hframe.2, hctx.1]
      · rw [hforward] at hret ⊢
        have hmembers := acceptAll_member ext context_ elements
          (ensureContext (.relation id tags elements) s).2
        revert hret hmembers
        cases acceptAll ext context_ elements
            (ensureContext (.relation id tags elements) s).2 with
        | mk outcome s2 =>
          cases outcome with
          | failed failure => intro hret; simp at hret
          | returned =>
            intro hret hmembers
            simp only [] at hret hmembers ⊢
            obtain ⟨hidle, hmesh⟩ := hmembers trivial
            obtain ⟨hpoly, hfalse, _⟩ := completeIfNecessary_returned _ s2 hret
            refine ⟨fun h => ?_, fun hm => ?_⟩
            · have := hidle (ensureContext_polygonIdle _ s h)
              unfold BuilderState.polygonIdle at this ⊢
              rw [hpoly]
              exact this
            · have hnone : s.mesh_.isNone = false := by
                cases hs : s.mesh_ <;> simp [hs] at hm ⊢
              have hjc : (ensureContext (.relation id tags elements) s).1 = false := by
                rw [hctx.2, hnone]
              rw [hfalse hjc]
              have hsome : (ensureContext (.relation id tags elements) s).2.mesh_.isSome
                  = true := by
                rw [hctx.1]; rfl
              obtain ⟨hem, hms⟩ := hmesh hsome
              exact ⟨by rw [hem, hctx.1], hms⟩
/-- The members of a relation, visited in turn: as `accept_member`. -/
theorem acceptAll_member (ext : Collaborators) (context_ : BuilderContext) :
    ∀ (elements : List Element) (s : BuilderState),
      (acceptAll ext context_ elements s).1 = .returned →
      (s.polygonIdle → (acceptAll ext context_ elements s).2.polygonIdle) ∧
      (s.mesh_.isSome = true →
        emittedMeshes (acceptAll ext context_ elements s).2.trace = emittedMeshes s.trace ∧
        (acceptAll ext context_ elements s).2.mesh_.isSome = true)
  | [], s, _ => by simp [acceptAll]
  | element :: rest, s, hret => by
    simp only [acceptAll] at hret ⊢
    have hfirst := accept_member ext context_ element s
    revert hret hfirst
    cases accept ext context_ element s with
    | mk outcome s1 =>
      cases outcome with
      | failed failure => intro hret; simp at hret
      | returned =>
        intro hret hfirst
        simp only [] at hret hfirst ⊢
        obtain ⟨hidle1, hmesh1⟩ := hfirst trivial
        obtain ⟨hidle2, hmesh2⟩ := acceptAll_member ext context_ rest s1 hret
        refine ⟨fun h => hidle2 (hidle1 h), fun hm => ?_⟩
        obtain ⟨hem1, hms1⟩ := hmesh1 hm
        obtain ⟨hem2, hms2⟩ := hmesh2 hms1
        exact ⟨hem2.trans hem1, hms2⟩
end

/-- The trace of a `build` that runs to its end: the elevation asked at
`GeoCoordinate(points[1], points[0])`, then the roof and the facade builder
with their settings. -/
theorem build_trace (ext : Collaborators) (context_ : BuilderContext) (element : Element)
    (style : Style) (s : BuilderState) (mesh : Mesh) (polygon : Polygon) (p0 p1 : ℚ)
    (roofType facadeType : String) (roofBuilder : RoofBuilderClass)
    (facadeBuilder : FacadeBuilderClass)
    (hmesh : s.mesh_ = some mesh) (hpolygon : s.polygon_ = some polygon)
    (h0 : polygon.points[0]? = some p0) (h1 : polygon.points[1]? = some p1)
    (hroofType : style.getString RoofTypeKey = some roofType)
    (hroof : RoofBuilderFactoryMap.lookup roofType = some roofBuilder)
    (hfacadeType : style.getString FacadeTypeKey = some facadeType)
    (hfacade : FacadeBuilderFactoryMap.lookup facadeType = some facadeBuilder) :
    (build ext context_ element style s).1 = .returned ∧
    (build ext context_ element style s).2.trace = s.trace ++
      [.getElevation (GeoCoordinate.mk p1 p0),
       .roofBuild roofBuilder
        { height := style.getValue RoofHeightKey
          minHeight := (context_.eleProvider.getElevation (GeoCoordinate.mk p1 p0)
              + style.getValue MinHeightKey)
            + ((if style.getValue HeightKey = 0 then 10 else style.getValue HeightKey)
              - style.getValue MinHeightKey)
          gradient := ext.evaluateGradient style element.tags RoofColorKey
          colorNoise := 0 } polygon,
       .facadeBuild facadeBuilder
        { height := (if style.getValue HeightKey = 0 then 10 else style.getValue HeightKey)
            - style.getValue MinHeightKey
          minHeight := context_.eleProvider.getElevation (GeoCoordinate.mk p1 p0)
            + style.getValue MinHeightKey
          gradient := ext.evaluateGradient style element.tags FacadeColorKey
          colorNoise := 0 } polygon] := by
  simp [build, hmesh, hpolygon, h0, h1, hroofType, hroof, hfacadeType, hfacade]

/-- Whatever its outcome, a `build` that finds a mesh and two raw doubles asks
the elevation exactly once, at `GeoCoordinate(points[1], points[0])`. -/
theorem build_samples (ext : Collaborators) (context_ : BuilderContext) (element : Element)
    (style : Style) (s : BuilderState) (mesh : Mesh) (polygon : Polygon) (p0 p1 : ℚ)
    (hmesh : s.mesh_ = some mesh) (hpolygon : s.polygon_ = some polygon)
    (h0 : polygon.points[0]? = some p0) (h1 : polygon.points[1]? = some p1) :
    sampledPoints (build ext context_ element style s).2.trace
      = sampledPoints s.trace ++ [GeoCoordinate.mk p1 p0] := by
  cases hrt : style.getString RoofTypeKey with
  | none => simp [build, hmesh, hpolygon, h0, h1, hrt, sampledPoints_append, sampledPoints]
  | some roofType =>
    cases hrb : RoofBuilderFactoryMap.lookup roofType with
    | none =>
      simp [build, hmesh, hpolygon, h0, h1, hrt, hrb, sampledPoints_append, sampledPoints]
    | some roofBuilder =>
      cases hft : style.getString FacadeTypeKey with
      | none =>
        simp [build, hmesh, hpolygon, h0, h1, hrt, hrb, hft, sampledPoints_append,
          sampledPoints]
      | some facadeType =>
        cases hfb : FacadeBuilderFactoryMap.lookup facadeType <;>
          simp [build, hmesh, hpolygon, h0, h1, hrt, hrb, hft, hfb, sampledPoints_append,
            sampledPoints]

/-- The mesh callback is no elevation query. -/
theorem completeIfNecessary_samples (justCreated : Bool) (s : BuilderState) :
    sampledPoints (completeIfNecessary justCreated s).2.trace = sampledPoints s.trace := by
  cases justCreated with
  | false => rfl
  | true => cases hm : s.mesh_ <;> simp [completeIfNecessary, hm, sampledPoints_append, sampledPoints]

theorem find_last_of.scan_none (chars : List Char) (l : List Char) :
    ∀ index last : Nat, (∀ c ∈ l, chars.contains c = false) →
      find_last_of.scan chars l index last = last := by
  induction l with
  | nil => intro index last _; rfl
  | cons c rest ih =>
    intro index last h
    have hc := h c (List.mem_cons_self _ _)
    simp only [find_last_of.scan, hc, Bool.false_eq_true, if_false]
    exact ih _ _ (fun d hd => h d (List.mem_cons_of_mem _ hd))

theorem find_last_of.scan_split (chars : List Char) (before : List Char) (c : Char)
    (after : List Char) (hc : chars.contains c = true)
    (hafter : ∀ d ∈ after, chars.contains d = false) :
    ∀ index last : Nat,
      find_last_of.scan chars (before ++ c :: after) index last = index + before.length := by
  induction before with
  | nil =>
    intro index last
    simp only [List.nil_append, find_last_of.scan, hc, if_true, List.length_nil, Nat.add_zero]
    exact find_last_of.scan_none chars after _ _ hafter
  | cons b before ih =>
    intro index last
    rw [List.cons_append, find_last_of.scan, ih, List.length_cons]
    omega

theorem split_at_last (chars : List Char) (l : List Char) :
    (∀ c ∈ l, chars.contains c = false) ∨
    ∃ before c after, l = before ++ c :: after ∧ chars.contains c = true ∧
      ∀ d ∈ after, chars.contains d = false := by
  induction l with
  | nil => left; simp
  | cons a rest ih =>
    rcases ih with hnone | ⟨before, c, after, hl, hc, hafter⟩
    · by_cases ha : chars.contains a = true
      · right
        exact ⟨[], a, rest, rfl, ha, hnone⟩
      · left
        intro d hd
        rcases List.mem_cons.mp hd with rfl | hd
        · simpa using ha
        · exact hnone d hd
    · right
      exact ⟨a :: before, c, after, by rw [hl]; rfl, hc, hafter⟩

/-- The base directory `getStyleProvider` computes from a path. -/
theorem base_directory (filePath : String) (hsize : filePath.length < 2 ^ 64) :
    ∃ dir name : String,
      substr filePath 0 ((find_last_of filePath "\\/" + 1) % 2 ^ 64) = dir ∧
      filePath = dir ++ name ∧
      (∀ c ∈ name.data, c ∉ "\\/".data) ∧
      (dir = "" ∨ ∃ c ∈ "\\/".data, dir.data.getLast? = some c) ∧
      ((∀ c ∈ filePath.data, c ∉ "\\/".data) → dir = "") := by
  have hmem : ∀ c : Char, "\\/".data.contains c = false ↔ c ∉ "\\/".data := by
    intro c
    simp
  rcases split_at_last "\\/".data filePath.data with hnone | ⟨before, c, after, hl, hc, hafter⟩
  · refine ⟨"", filePath, ?_, by simp, ?_, Or.inl rfl, fun _ => rfl⟩
    · simp only [find_last_of, substr, find_last_of.scan_none _ _ _ _ hnone, npos]
      rfl
    · intro c hcmem
      exact (hmem c).mp (hnone c hcmem)
  · have hlen : before.length + 1 < 2 ^ 64 := by
      have : filePath.length = (before ++ c :: after).length := by rw [← hl]; rfl
      simp only [List.length_append, List.length_cons] at this
      omega
    refine ⟨String.mk (before ++ [c]), String.mk after, ?_, ?_, ?_, Or.inr ⟨c, ?_, ?_⟩, ?_⟩
    · simp only [find_last_of, substr, hl, find_last_of.scan_split _ before c after hc hafter,
        Nat.zero_add, Nat.mod_eq_of_lt hlen, List.drop_zero]
      congr 1
      rw [show before ++ c :: after = (before ++ [c]) ++ after by simp]
      rw [List.take_left' (by simp)]
    · ext1
      simp [hl]
    · intro d hd
      exact (hmem d).mp (hafter d hd)
    · simpa using hc
    · simp
    · intro hall
      have := hall c (by rw [hl]; simp)
      exact absurd (by simpa using hc) this

theorem std.equal_prefix (range1 : List Char) :
    ∀ range2 : List Char, range1.length ≤ range2.length →
      std.equal range1 range2 = .ok (decide (range1 <+: range2)) := by
  induction range1 with
  | nil => intro range2 _; simp [std.equal]
  | cons a range1 ih =>
    intro range2 hlen
    cases range2 with
    | nil => simp at hlen
    | cons b range2 =>
      simp only [List.length_cons, Nat.add_le_add_iff_right] at hlen
      by_cases hab : a = b
      · subst hab
        simp [std.equal, ih range2 hlen, List.cons_prefix_cons]
      · simp [std.equal, hab, List.cons_prefix_cons]

theorem endsWith_eq (value ending : String) :
    endsWith value ending = .ok (decide (ending.data <:+ value.data)) := by
  unfold endsWith
  split
  · rename_i hlen
    have : ¬ ending.data <:+ value.data := fun h => by
      have := h.length_le
      omega
    simp [this]
  · rename_i hlen
    rw [std.equal_prefix _ _ (by simpa using hlen)]
    simp [List.reverse_prefix]

theorem visitPolygon.openPart_reads (shape : SHPObject) (i : Nat) (st st1 : PolygonLoop)
    (hopen : visitPolygon.openPart shape i st = .ok st1) :
    ∃ extra, st1.reads = st.reads ++ .panPartStart st.partNum :: extra ∧
      ∀ r ∈ extra, (st.partNum : Int) < shape.nParts ∧
        (r = .panPartType st.partNum ∨
          (r = .panPartStart (st.partNum + 1) ∧ (st.partNum : Int) ≠ shape.nParts - 1)) := by
  unfold visitPolygon.openPart at hopen
  simp only [] at hopen
  by_cases hparts : (st.partNum : Int) < shape.nParts
  · rw [if_pos hparts] at hopen
    cases hs : shape.panPartStart[st.partNum]? with
    | none => simp [hs] at hopen
    | some start =>
      simp only [hs] at hopen
      by_cases hstart : start = (i : Int)
      · rw [if_pos hstart] at hopen
        cases ht : shape.panPartType[st.partNum]? with
        | none => simp [ht] at hopen
        | some partType =>
          simp only [ht] at hopen
          by_cases hlast : (st.partNum : Int) = shape.nParts - 1
          · rw [if_pos hlast] at hopen
            by_cases hneg : shape.nVertices - start < 0
            · rw [if_pos hneg] at hopen
              cases hopen
            · rw [if_neg hneg] at hopen
              cases hopen
              exact ⟨[.panPartType st.partNum], by simp, by simp [hparts]⟩
          · rw [if_neg hlast] at hopen
            cases hn : shape.panPartStart[st.partNum + 1]? with
            | none => simp [hn] at hopen
            | some endIndex =>
              simp only [hn] at hopen
              by_cases hneg : endIndex - start < 0
              · rw [if_pos hneg] at hopen
                cases hopen
              · rw [if_neg hneg] at hopen
                cases hopen
                exact ⟨[.panPartType st.partNum, .panPartStart (st.partNum + 1)], by simp,
                  by simp [hparts, hlast]⟩
      · rw [if_neg hstart] at hopen
        cases hopen
        exact ⟨[], by simp, by simp⟩
  · rw [if_neg hparts] at hopen
    cases hopen
    exact ⟨[], by simp, by simp⟩

theorem visitPolygon.step_reads (shape : SHPObject) (i : Nat) (st st1 : PolygonLoop)
    (hstep : visitPolygon.step shape i st = .ok st1) :
    ∃ extra, st1.reads = st.reads ++ .panPartStart st.partNum :: (extra ++ [.padfY i, .padfX i]) ∧
      ∀ r ∈ extra, (st.partNum : Int) < shape.nParts ∧
        (r = .panPartType st.partNum ∨
          (r = .panPartStart (st.partNum + 1) ∧ (st.partNum : Int) ≠ shape.nParts - 1)) := by
  unfold visitPolygon.step at hstep
  cases hopen : visitPolygon.openPart shape i st with
  | error failure => simp [hopen] at hstep
  | ok st0 =>
    obtain ⟨extra, hreads, hextra⟩ := visitPolygon.openPart_reads shape i st st0 hopen
    simp only [hopen] at hstep
    cases hc : st0.coordinates with
    | none => simp [hc] at hstep
    | some target =>
      simp only [hc] at hstep
      cases hv : readVertex shape i with
      | none => simp [hv] at hstep
      | some coordinate =>
        simp only [hv] at hstep
        cases hstep
        exact ⟨extra, by simp [hreads], hextra⟩

/-- On a polygon record every array read of the loop of `visitPolygon` is
within its array, except the reads of `panPartStart[nParts]`. -/
theorem visitPolygon.polygonLoop_reads (shape : SHPObject) (h : PolygonRecord shape)
    (remaining : Nat) :
    ∀ (i : Nat) (st st2 : PolygonLoop), PolygonLoop.Invariant shape i st →
      i + remaining = shape.nVertices.toNat →
      visitPolygon.loop shape remaining i st = .ok st2 →
      (∀ r ∈ st.reads, r.inBounds shape = true ∨ r = .panPartStart shape.nParts) →
      ∀ r ∈ st2.reads, r.inBounds shape = true ∨ r = .panPartStart shape.nParts := by
  induction remaining with
  | zero =>
    intro i st st2 _ _ hloop hreads
    simp only [visitPolygon.loop] at hloop
    cases hloop
    exact hreads
  | succ n ih =>
    intro i st st2 hinv hi hloop hreads
    obtain ⟨st1, hstep, hinv1⟩ := visitPolygon.step_ok shape h i st hinv (by omega)
    simp only [visitPolygon.loop, hstep] at hloop
    refine ih (i + 1) st1 st2 hinv1 (by omega) hloop ?_
    obtain ⟨extra, hr, hextra⟩ := visitPolygon.step_reads shape i st st1 hstep
    have hcount := hinv.count
    have hparts := h.parts
    intro r hmem
    rw [hr] at hmem
    simp only [List.mem_append, List.mem_cons, List.mem_singleton, List.not_mem_nil,
      or_false] at hmem
    rcases hmem with hmem | rfl | hmem | rfl | rfl
    · exact hreads r hmem
    · by_cases hlt : st.partNum < shape.nParts.toNat
      · left
        simp only [ArrayRead.inBounds, decide_eq_true_eq]
        omega
      · right
        congr 1
        omega
    · obtain ⟨hlt, rfl | ⟨rfl, hne⟩⟩ := hextra r hmem
      · left
        simp only [ArrayRead.inBounds, decide_eq_true_eq]
        omega
      · left
        simp only [ArrayRead.inBounds, decide_eq_true_eq]
        omega
    · left
      simp only [ArrayRead.inBounds, decide_eq_true_eq]
      omega
    · left
      simp only [ArrayRead.inBounds, decide_eq_true_eq]
      omega

/-- On a polygon record whose last part has more than one vertex the loop of
`visitPolygon` reads `panPartStart[nParts]`. -/
theorem visitPolygon.polygonLoop_past_end (shape : SHPObject) (h : PolygonRecord shape)
    (hlast : partStart shape (shape.nParts.toNat - 1) + 1 < shape.nVertices.toNat)
    (remaining : Nat) :
    ∀ (i : Nat) (st st2 : PolygonLoop), PolygonLoop.Invariant shape i st →
      i + (remaining + 1) = shape.nVertices.toNat →
      visitPolygon.loop shape (remaining + 1) i st = .ok st2 →
      ArrayRead.panPartStart shape.nParts ∈ st2.reads := by
  obtain ⟨hstart, hzero, hinc, hbound⟩ := PolygonRecord.starts shape h
  have hmono : ∀ d j, j + d < shape.nParts.toNat → partStart shape j ≤ partStart shape (j + d) := by
    intro d
    induction d with
    | zero => intro j _; exact Nat.le_refl _
    | succ d ihd =>
      intro j hj
      have h1 := ihd j (by omega)
      have h2 := hinc (j + d) (by omega)
      have : j + (d + 1) = j + d + 1 := by omega
      rw [this]
      omega
  have hkeep : ∀ (n i : Nat) (st st2 : PolygonLoop),
      visitPolygon.loop shape n i st = .ok st2 → ∀ r ∈ st.reads, r ∈ st2.reads := by
    intro n
    induction n with
    | zero =>
      intro i st st2 hloop r hr
      simp only [visitPolygon.loop] at hloop
      cases hloop
      exact hr
    | succ n ihn =>
      intro i st st2 hloop r hr
      simp only [visitPolygon.loop] at hloop
      cases hstep : visitPolygon.step shape i st with
      | error failure => simp [hstep] at hloop
      | ok st1 =>
        simp only [hstep] at hloop
        obtain ⟨extra, hreads, _⟩ := visitPolygon.step_reads shape i st st1 hstep
        exact ihn (i + 1) st1 st2 hloop r (by rw [hreads]; simp [hr])
  induction remaining with
  | zero =>
    intro i st st2 hinv hi hloop
    obtain ⟨st1, hstep, _⟩ := visitPolygon.step_ok shape h i st hinv (by omega)
    have heq : st1 = st2 := by simpa [visitPolygon.loop, hstep] using hloop
    obtain ⟨extra, hreads, _⟩ := visitPolygon.step_reads shape i st st1 hstep
    have hcount : st.partNum = shape.nParts.toNat := by
      by_contra hne
      have hlt : st.partNum < shape.nParts.toNat := by
        have := hinv.count
        omega
      have h1 := hinv.ahead hlt
      have h2 := hmono (shape.nParts.toNat - 1 - st.partNum) st.partNum (by omega)
      have h3 : st.partNum + (shape.nParts.toNat - 1 - st.partNum) = shape.nParts.toNat - 1 := by
        omega
      rw [h3] at h2
      omega
    have hparts := h.parts
    have hidx : ((st.partNum : Nat) : Int) = shape.nParts := by omega
    rw [← heq, hreads, hidx]
    simp
  | succ n ih =>
    intro i st st2 hinv hi hloop
    obtain ⟨st1, hstep, hinv1⟩ := visitPolygon.step_ok shape h i st hinv (by omega)
    rw [visitPolygon.loop] at hloop
    simp only [hstep] at hloop
    exact ih (i + 1) st1 st2 hinv1 (by omega) hloop

/-- On a polygon record the loop of `visitPolygon` runs to its end; all its
array reads are within their arrays except those of `panPartStart[nParts]`,
which it makes when the last part has more than one vertex. -/
theorem visitPolygon.reads_of_record (shape : SHPObject) (h : PolygonRecord shape) :
    ∃ st, visitPolygon.loop shape shape.nVertices.toNat 0 PolygonLoop.initial = .ok st ∧
      (∀ r ∈ st.reads, r.inBounds shape = true ∨ r = .panPartStart shape.nParts) ∧
      (partStart shape (shape.nParts.toNat - 1) + 1 < shape.nVertices.toNat →
        ArrayRead.panPartStart shape.nParts ∈ st.reads) := by
  obtain ⟨st, hloop, _⟩ := visitPolygon.polygonLoop_ok shape h shape.nVertices.toNat 0
    PolygonLoop.initial (PolygonLoop.Invariant.initial shape) (by omega)
  refine ⟨st, hloop, ?_, ?_⟩
  · exact visitPolygon.polygonLoop_reads shape h shape.nVertices.toNat 0 PolygonLoop.initial st
      (PolygonLoop.Invariant.initial shape) (by omega) hloop (by simp [PolygonLoop.initial])
  · intro hlast
    cases hn : shape.nVertices.toNat with
    | zero => omega
    | succ n =>
      rw [hn] at hloop
      exact visitPolygon.polygonLoop_past_end shape h hlast n 0 PolygonLoop.initial st
        (PolygonLoop.Invariant.initial shape) (by omega) hloop

/-- A polygon to which a shape with at least one coordinate was added holds
the two raw doubles `build` reads. -/
theorem Polygon.points_of_coordinate (polygon : Polygon) (first : GeoCoordinate)
    (rest : List GeoCoordinate) :
    (∃ p0 p1, (polygon.addContour (toPoints (first :: rest))).points[0]? = some p0 ∧
      (polygon.addContour (toPoints (first :: rest))).points[1]? = some p1) ∧
    (∃ p0 p1, (polygon.addHole (toPoints (first :: rest))).points[0]? = some p0 ∧
      (polygon.addHole (toPoints (first :: rest))).points[1]? = some p1) := by
  have key : ∀ l : List ℚ, 2 ≤ l.length → ∃ p0 p1, l[0]? = some p0 ∧ l[1]? = some p1 := by
    intro l hl
    match l, hl with
    | a :: b :: _, _ => exact ⟨a, b, by simp, by simp⟩
  constructor
  · apply key
    simp only [Polygon.addContour, toPoints, rawDoubles, List.length_append, List.length_cons]
    omega
  · apply key
    simp only [Polygon.addHole, toPoints, rawDoubles, List.length_append, List.length_cons]
    omega

/-! ## Theorems -/

/-- C1. When `build` runs on a state holding a mesh and a polygon with at
least one point, for a style whose roof and facade types are registered, it
returns, and the facade builder is given exactly one height: `10 - m` when the
style's `height` is 0 and `h - m` when it is a non-zero `h`, where `m` is the
style's `min-height`. -/
theorem build_facade_height (ext : Collaborators) (context_ : BuilderContext) (element : Element)
    (style : Style) (s : BuilderState) (mesh : Mesh) (polygon : Polygon)
    (roofType facadeType : String) (roofBuilder : RoofBuilderClass)
    (facadeBuilder : FacadeBuilderClass)
    (hmesh : s.mesh_ = some mesh) (hpolygon : s.polygon_ = some polygon)
    (hpoints : 2 ≤ polygon.points.length)
    (hroofType : style.getString RoofTypeKey = some roofType)
    (hroof : RoofBuilderFactoryMap.lookup roofType = some roofBuilder)
    (hfacadeType : style.getString FacadeTypeKey = some facadeType)
    (hfacade : FacadeBuilderFactoryMap.lookup facadeType = some facadeBuilder) :
    (build ext context_ element style s).1 = .returned ∧
    (style.getValue HeightKey = 0 →
      facadeHeights (build ext context_ element style s).2.trace
        = facadeHeights s.trace ++ [10 - style.getValue MinHeightKey]) ∧
    (style.getValue HeightKey ≠ 0 →
      facadeHeights (build ext context_ element style s).2.trace
        = facadeHeights s.trace ++ [style.getValue HeightKey - style.getValue MinHeightKey]) := by
  obtain ⟨p0, p1, h0, h1⟩ := getElem?_of_two_le polygon.points hpoints
  refine ⟨?_, ?_, ?_⟩
  · exact build_returns ext context_ element style s mesh polygon roofType facadeType roofBuilder
      facadeBuilder hmesh hpolygon hpoints hroofType hroof hfacadeType hfacade
  · intro hz
    simp [build, hmesh, hpolygon, h0, h1, hroofType, hroof, hfacadeType, hfacade, hz,
      facadeHeights_append, facadeHeights]
  · intro hnz
    simp [build, hmesh, hpolygon, h0, h1, hroofType, hroof, hfacadeType, hfacade, hnz,
      facadeHeights_append, facadeHeights]

/-- C1 at a concrete building: `height` 0 and `min-height` 2 give the facade
height 8. -/
theorem build_facade_height_witness :
    (build sampleCollaborators (sampleContext styleZeroHeight) (.area 7 [] squareCW)
        styleZeroHeight stateWithSquare).1 = .returned ∧
    facadeHeights (build sampleCollaborators (sampleContext styleZeroHeight) (.area 7 [] squareCW)
        styleZeroHeight stateWithSquare).2.trace = [10 - 2] := by
  have h := build_facade_height sampleCollaborators (sampleContext styleZeroHeight)
    (.area 7 [] squareCW) styleZeroHeight stateWithSquare (Mesh.create "building:7")
    ((Polygon.create 1 0).addContour (toPoints squareCW)) "flat" "flat"
    .FlatRoofBuilder .FlatFacadeBuilder rfl rfl (by decide) (by decide) (by decide)
    (by decide) (by decide)
  exact ⟨h.1, h.2.1 rfl⟩

/-- C2. For a relation styled `multipolygon=true` and `building=true` whose
members are all areas, `visitRelation` runs `build` on the polygon `P` that
extends the polygon of the builder (a fresh one when there was none) by the
clockwise members as contours and the other members as holes, both in member
order (and by the raw doubles of all members): when the visit returns, `P` is
the polygon handed to the roof and to the facade builder, and when `build`
fails `P` is the polygon left in the builder. A relation without members is
left alone. -/
theorem visitRelation_multipolygon_winding (ext : Collaborators) (context_ : BuilderContext)
    (id : Nat) (tags : List Tag) (elements : List Element) (s : BuilderState)
    (hmultipolygon : (context_.styleProvider.forElement (.relation id tags elements)
      context_.quadKey.levelOfDetail).getString "multipolygon" = some "true")
    (hbuilding : (context_.styleProvider.forElement (.relation id tags elements)
      context_.quadKey.levelOfDetail).getString "building" = some "true")
    (hareas : ∀ e ∈ elements, e.isArea = true) :
    (elements = [] → visitRelation ext context_ id tags elements s = (.returned, s)) ∧
    (elements ≠ [] → ∃ P : Polygon,
      P.contours = (s.polygon_.getD (Polygon.create 1 0)).contours
        ++ windingShapes ext true elements ∧
      P.holes = (s.polygon_.getD (Polygon.create 1 0)).holes
        ++ windingShapes ext false elements ∧
      P.points = (s.polygon_.getD (Polygon.create 1 0)).points ++ memberDoubles elements ∧
      ((visitRelation ext context_ id tags elements s).1 = .returned →
        strategyPolygons (visitRelation ext context_ id tags elements s).2.trace
          = strategyPolygons s.trace ++ [P, P]) ∧
      (∀ failure, (visitRelation ext context_ id tags elements s).1 = .failed failure →
        (visitRelation ext context_ id tags elements s).2.polygon_ = some P)) := by
  constructor
  · intro hempty
    subst hempty
    simp [visitRelation, accept]
  · intro hne
    obtain ⟨P, hrun, hc, hh, hp⟩ := MultiPolygonVisitor.acceptAll_areas ext elements
      (s.polygon_.getD (Polygon.create 1 0))
      (some (s.mesh_.getD (Mesh.create (getMeshName MeshNamePrefix (.relation id tags elements)))))
      s.trace hareas
    refine ⟨P, hc, hh, hp, ?_⟩
    rw [visitRelation_multipolygon ext context_ id tags elements s hne hmultipolygon hbuilding,
      (ensureContext_state (.relation id tags elements) s).1, hrun]
    simp only []
    cases hbuild : build ext context_ (.relation id tags elements)
        (context_.styleProvider.forElement (.relation id tags elements)
          context_.quadKey.levelOfDetail)
        { polygon_ := some P
          mesh_ := some (s.mesh_.getD
            (Mesh.create (getMeshName MeshNamePrefix (.relation id tags elements))))
          trace := s.trace } with
    | mk outcome s3 =>
      cases outcome with
      | returned =>
        obtain ⟨c, rb, rs, fb, fs, mesh, hs3⟩ := build_returned ext context_ _ _ _ P rfl
          (by rw [hbuild])
        rw [hbuild] at hs3
        simp only [] at hs3
        subst hs3
        constructor
        · intro _
          cases hjc : (ensureContext (.relation id tags elements) s).1 <;>
            simp [completeIfNecessary, strategyPolygons_append, strategyPolygons]
        · intro failure hfail
          cases hjc : (ensureContext (.relation id tags elements) s).1 <;>
            simp [completeIfNecessary, hjc] at hfail
      | failed failure =>
        have hkeep := (build_failed ext context_ _ _ _ failure (by rw [hbuild])).1
        rw [hbuild] at hkeep
        simp only [] at hkeep ⊢
        exact ⟨fun h => Outcome.noConfusion h, fun _ _ => hkeep⟩

theorem sample_isClockwise :
    sampleCollaborators.isClockwise squareCW = true ∧
    sampleCollaborators.isClockwise squareCCW = false ∧
    sampleCollaborators.isClockwise squareCW2 = true := by
  refine ⟨?_, ?_, ?_⟩ <;>
    norm_num [sampleCollaborators, squareCW, squareCCW, squareCW2, shoelace]

/-- C2 at two concrete relations visited by a fresh builder: a clockwise
square with a counter-clockwise one gives one contour and one hole; two
clockwise squares give two contours and no hole. -/
theorem visitRelation_multipolygon_winding_witness :
    strategyPolygons (visitRelation sampleCollaborators (sampleContext styleZeroHeight) 1 []
        outerInnerMembers BuilderState.initial).2.trace
      = [outerInnerPolygon, outerInnerPolygon] ∧
    outerInnerPolygon.contours.length = 1 ∧ outerInnerPolygon.holes.length = 1 ∧
    strategyPolygons (visitRelation sampleCollaborators (sampleContext styleZeroHeight) 1 []
        twoOuterMembers BuilderState.initial).2.trace
      = [twoOuterPolygon, twoOuterPolygon] ∧
    twoOuterPolygon.contours.length = 2 ∧ twoOuterPolygon.holes.length = 0 := by
  obtain ⟨h1, h2, h3⟩ := sample_isClockwise
  refine ⟨?_, rfl, rfl, ?_, rfl, rfl⟩
  · obtain ⟨P, hc, hh, hp, hret, _⟩ := (visitRelation_multipolygon_winding sampleCollaborators
      (sampleContext styleZeroHeight) 1 [] outerInnerMembers BuilderState.initial rfl rfl
      (by simp [outerInnerMembers, Element.isArea])).2 (by simp [outerInnerMembers])
    have hP : P = outerInnerPolygon := by
      obtain ⟨points, contours, holes⟩ := P
      simp only [] at hc hh hp
      subst hc hh hp
      simp [windingShapes, memberDoubles, outerInnerMembers, h1, h2, Polygon.create,
        BuilderState.initial, outerInnerPolygon]
    subst hP
    have := hret (visitRelation_multipolygon_returns sampleCollaborators
      (sampleContext styleZeroHeight) 1 [] outerInnerMembers BuilderState.initial
      "flat" "flat" .FlatRoofBuilder .FlatFacadeBuilder (by simp [outerInnerMembers]) rfl rfl
      (by simp [outerInnerMembers, Element.isArea]) (by decide) rfl rfl rfl rfl)
    simpa [BuilderState.initial, strategyPolygons] using this
  · obtain ⟨P, hc, hh, hp, hret, _⟩ := (visitRelation_multipolygon_winding sampleCollaborators
      (sampleContext styleZeroHeight) 1 [] twoOuterMembers BuilderState.initial rfl rfl
      (by simp [twoOuterMembers, Element.isArea])).2 (by simp [twoOuterMembers])
    have hP : P = twoOuterPolygon := by
      obtain ⟨points, contours, holes⟩ := P
      simp only [] at hc hh hp
      subst hc hh hp
      simp [windingShapes, memberDoubles, twoOuterMembers, h1, h3, Polygon.create,
        BuilderState.initial, twoOuterPolygon]
    subst hP
    have := hret (visitRelation_multipolygon_returns sampleCollaborators
      (sampleContext styleZeroHeight) 1 [] twoOuterMembers BuilderState.initial
      "flat" "flat" .FlatRoofBuilder .FlatFacadeBuilder (by simp [twoOuterMembers]) rfl rfl
      (by simp [twoOuterMembers, Element.isArea]) (by decide) rfl rfl rfl rfl)
    simpa [BuilderState.initial, strategyPolygons] using this

/-- C3. For a relation styled `multipolygon=true` and `building=true` with a
member that is a node, a way or a nested relation, `visitRelation` fails with
the exception of `MultiPolygonVisitor::fail` (the malformed-relation error,
`Unexpected element in multipolygon: <id>`) for the first such member, and
makes no call on the way: the mesh callback is not invoked. -/
theorem visitRelation_malformed (ext : Collaborators) (context_ : BuilderContext)
    (id : Nat) (tags : List Tag) (elements : List Element) (s : BuilderState)
    (hmultipolygon : (context_.styleProvider.forElement (.relation id tags elements)
      context_.quadKey.levelOfDetail).getString "multipolygon" = some "true")
    (hbuilding : (context_.styleProvider.forElement (.relation id tags elements)
      context_.quadKey.levelOfDetail).getString "building" = some "true")
    (hbad : ∃ e ∈ elements, e.isArea = false) :
    ∃ bad, bad ∈ elements ∧ bad.isArea = false ∧
      elements.find? (fun e => !e.isArea) = some bad ∧
      (visitRelation ext context_ id tags elements s).1
        = .failed (.exception ("Unexpected element in multipolygon: " ++ toString bad.id)) ∧
      (visitRelation ext context_ id tags elements s).2.trace = s.trace ∧
      emittedMeshes (visitRelation ext context_ id tags elements s).2.trace
        = emittedMeshes s.trace := by
  obtain ⟨bad, hfind, hmem, hnot⟩ := exists_first_nonArea elements hbad
  have hne : elements ≠ [] := by
    intro h
    subst h
    simp at hmem
  obtain ⟨P, hrun⟩ := MultiPolygonVisitor.acceptAll_malformed ext elements
    (s.polygon_.getD (Polygon.create 1 0))
    (some (s.mesh_.getD (Mesh.create (getMeshName MeshNamePrefix (.relation id tags elements)))))
    s.trace bad hfind
  refine ⟨bad, hmem, hnot, hfind, ?_⟩
  rw [visitRelation_multipolygon ext context_ id tags elements s hne hmultipolygon hbuilding,
    (ensureContext_state (.relation id tags elements) s).1, hrun]
  simp [MultiPolygonVisitor.fail]

/-- C3 at a concrete relation: a clockwise square followed by a way. -/
theorem visitRelation_malformed_witness :
    (visitRelation sampleCollaborators (sampleContext styleZeroHeight) 1 []
        [.area 2 [] squareCW, .way 5 [] squareCCW] BuilderState.initial).1
      = .failed (.exception "Unexpected element in multipolygon: 5") ∧
    emittedMeshes (visitRelation sampleCollaborators (sampleContext styleZeroHeight) 1 []
        [.area 2 [] squareCW, .way 5 [] squareCCW] BuilderState.initial).2.trace = [] := by
  obtain ⟨bad, _, _, hfind, hfail, _, hmesh⟩ := visitRelation_malformed sampleCollaborators
    (sampleContext styleZeroHeight) 1 [] [.area 2 [] squareCW, .way 5 [] squareCCW]
    BuilderState.initial rfl rfl ⟨.way 5 [] squareCCW, by simp, rfl⟩
  have hbad : bad = .way 5 [] squareCCW := by
    simpa [Element.isArea] using hfind.symm
  subst hbad
  exact ⟨by simpa [Element.id] using hfail, by simpa [BuilderState.initial, emittedMeshes] using hmesh⟩

/-- C4, the code at a failing input: a building area styled with
`roof-type=unknown`, visited by a fresh builder. The lookup in
`RoofBuilderFactoryMap` misses and its result is dereferenced unchecked: the
behaviour is undefined, no exception (no unknown-roof-type error) is thrown.
In the embedding no mesh has been emitted at that point. -/
theorem visitArea_unknown_roof_type :
    (visitArea sampleCollaborators (sampleContext styleUnknownRoof) 7 [] squareCW
        BuilderState.initial).1
      = .failed (.undefined "RoofBuilderFactoryMap.end() dereferenced") ∧
    emittedMeshes (visitArea sampleCollaborators (sampleContext styleUnknownRoof) 7 []
        squareCW BuilderState.initial).2.trace = [] := by
  constructor
  · rfl
  · rfl

/-- C5, the code at a failing input: an area whose style has no `building`
declaration. `isBuilding` dereferences the missing string unchecked: the
behaviour is undefined, the area is not ignored. -/
theorem visitArea_without_building :
    visitArea sampleCollaborators (sampleContext styleWithoutBuilding) 7 [] squareCW
        BuilderState.initial
      = (.failed (.undefined "null string dereferenced: building"), BuilderState.initial) := by
  rfl

/-- C6. The error boundary `safeExecute`: when the body throws an exception,
the error callback is called exactly once, with the text of the exception,
after what the body did, and the operation returns; when the body returns, the
result is that of the body and the error callback is not called. -/
theorem safeExecute_boundary (action : Application → Outcome × Application)
    (app : Application) :
    (∀ what app1, action app = (.failed (.exception what), app1) →
      safeExecute action app
          = (.returned, { app1 with trace := app1.trace ++ [.errorCallback what] }) ∧
      errorMessages (safeExecute action app).2.trace = errorMessages app1.trace ++ [what]) ∧
    (∀ app1, action app = (.returned, app1) →
      safeExecute action app = (.returned, app1) ∧
      errorMessages (safeExecute action app).2.trace = errorMessages app1.trace) := by
  constructor
  · intro what app1 h
    simp [safeExecute, h, errorMessages_append, errorMessages]
  · intro app1 h
    simp [safeExecute, h]

/-- C6 at concrete operations: `loadQuadKey` with a stylesheet that cannot be
read reports one error and returns; with a readable one it reports none. -/
theorem safeExecute_boundary_witness :
    (loadQuadKey sampleWorld "missing.mapcss" sampleQuadKey Application.initial).1 = .returned ∧
    errorMessages (loadQuadKey sampleWorld "missing.mapcss" sampleQuadKey
      Application.initial).2.trace = ["Cannot read mapcss file:missing.mapcss"] ∧
    (loadQuadKey worldWithMeshes "default.mapcss" sampleQuadKey Application.initial).1
      = .returned ∧
    errorMessages (loadQuadKey worldWithMeshes "default.mapcss" sampleQuadKey
      Application.initial).2.trace = [] := by
  have hthrow := (safeExecute_boundary
    (loadQuadKey.body sampleWorld "missing.mapcss" sampleQuadKey) Application.initial).1
    "Cannot read mapcss file:missing.mapcss"
    { styleProviders_ := [], allocated := 0, trace := [.fileOpened "missing.mapcss"] } rfl
  have hreturn := (safeExecute_boundary
    (loadQuadKey.body worldWithMeshes "default.mapcss" sampleQuadKey) Application.initial).2
    (loadQuadKey.body worldWithMeshes "default.mapcss" sampleQuadKey Application.initial).2 rfl
  refine ⟨?_, ?_, ?_, ?_⟩
  · exact congrArg Prod.fst hthrow.1
  · exact hthrow.2
  · exact congrArg Prod.fst hreturn.1
  · exact hreturn.2.trans rfl

/-- C7, counterexample: `registerStylesheet` given a path that cannot be read
lets the exception of `getStyleProvider` through to its caller, and no error
callback is called. -/
theorem registerStylesheet_propagates :
    (registerStylesheet sampleWorld "missing.mapcss" Application.initial).1
      = .failed (.exception "Cannot read mapcss file:missing.mapcss") ∧
    errorMessages (registerStylesheet sampleWorld "missing.mapcss"
      Application.initial).2.trace = [] := by
  constructor <;> rfl

/-- C7, amended. The operations that are given an error callback run their
body under `safeExecute` and never let an exception through to the caller;
`registerStylesheet` and `preloadElevation` have no error callback and end
the way `getStyleProvider`, respectively the preload of the chosen elevation
provider, ends. -/
theorem operations_error_boundary (world : World) (styleFile path : String) (quadKey : QuadKey)
    (bbox : BoundingBox) (range : LodRange) (element : Element) (app : Application)
    (what : String) :
    (addToPersistentStore.quadKey world styleFile path quadKey app).1
      ≠ .failed (.exception what) ∧
    (addToPersistentStore.lodRange world styleFile path range app).1
      ≠ .failed (.exception what) ∧
    (addToInMemoryStore.quadKey world styleFile path quadKey app).1
      ≠ .failed (.exception what) ∧
    (addToInMemoryStore.boundingBox world styleFile path bbox range app).1
      ≠ .failed (.exception what) ∧
    (addToInMemoryStore.lodRange world styleFile path range app).1
      ≠ .failed (.exception what) ∧
    (addInMemoryStore world styleFile element range app).1 ≠ .failed (.exception what) ∧
    (loadQuadKey world styleFile quadKey app).1 ≠ .failed (.exception what) ∧
    (registerStylesheet world path app).1
      = (match (getStyleProvider world path app).1 with
          | .ok _ => .returned
          | .error failure => .failed failure) ∧
    (preloadElevation world quadKey app).1
      = world.preload (getElevationProvider quadKey) (world.quadKeyToBoundingBox quadKey) := by
  refine ⟨by simp [addToPersistentStore.quadKey], safeExecute_not_exception _ _ _,
    safeExecute_not_exception _ _ _, safeExecute_not_exception _ _ _,
    safeExecute_not_exception _ _ _, safeExecute_not_exception _ _ _,
    safeExecute_not_exception _ _ _, ?_, rfl⟩
  unfold registerStylesheet
  cases getStyleProvider world path app with
  | mk found app1 => cases found <;> rfl

/-- C8. The mesh lambda of `loadQuadKey` calls the user mesh callback exactly
once, with the buffers of the mesh, when the vertices are not empty, and not
at all when they are empty; so the calls `loadQuadKey` adds are those for the
non-empty meshes of the pipeline run, in order, and none has an empty vertex
buffer. -/
theorem loadQuadKey_mesh_filter (world : World) (styleFile : String) (quadKey : QuadKey)
    (app : Application) (mesh : Mesh) :
    (mesh.vertices ≠ [] →
      loadQuadKey.meshLambda mesh app = { app with trace := app.trace ++
        [.meshCallback mesh.name
          mesh.vertices (static_cast_int mesh.vertices.length)
          mesh.triangles (static_cast_int mesh.triangles.length)
          mesh.colors (static_cast_int mesh.colors.length)] } ∧
      onMeshBuffers (loadQuadKey.meshLambda mesh app).trace
        = onMeshBuffers app.trace ++ [mesh.vertices]) ∧
    (mesh.vertices = [] → loadQuadKey.meshLambda mesh app = app) ∧
    onMeshBuffers (loadQuadKey world styleFile quadKey app).2.trace
      = onMeshBuffers app.trace ++
        (match (getStyleProvider world styleFile app).1 with
          | .ok styleProvider =>
            handedNonEmpty
              (world.quadKeyBuild quadKey styleProvider (getElevationProvider quadKey)).1
          | .error _ => []) ∧
    (∀ vertices ∈ (onMeshBuffers (loadQuadKey world styleFile quadKey app).2.trace).drop
        (onMeshBuffers app.trace).length, vertices ≠ []) := by
  refine ⟨?_, ?_, loadQuadKey_onMeshBuffers world styleFile quadKey app, ?_⟩
  · intro hv
    simp [loadQuadKey.meshLambda, hv, onMeshBuffers_append, onMeshBuffers]
  · intro hv
    simp [loadQuadKey.meshLambda, hv]
  · rw [loadQuadKey_onMeshBuffers, List.drop_left]
    cases (getStyleProvider world styleFile app).1 with
    | error failure => intro v hv; simp at hv
    | ok styleProvider => exact handedNonEmpty_ne_nil _

/-- C8 at a concrete run: of an empty mesh and a one-triangle mesh handed over
by the pipeline, only the second reaches the user mesh callback. -/
theorem loadQuadKey_mesh_filter_witness :
    onMeshBuffers (loadQuadKey.meshLambda triangleMesh Application.initial).trace
      = [triangleMesh.vertices] ∧
    loadQuadKey.meshLambda (Mesh.create "terrain") Application.initial = Application.initial ∧
    onMeshBuffers (loadQuadKey worldWithMeshes "default.mapcss" sampleQuadKey
      Application.initial).2.trace = [triangleMesh.vertices] := by
  have h := loadQuadKey_mesh_filter worldWithMeshes "default.mapcss" sampleQuadKey
    Application.initial triangleMesh
  have hempty := (loadQuadKey_mesh_filter worldWithMeshes "default.mapcss" sampleQuadKey
    Application.initial (Mesh.create "terrain")).2.1 rfl
  refine ⟨?_, hempty, ?_⟩
  · exact (h.1 (by simp [triangleMesh])).2
  · rw [h.2.2.1]
    rfl

/-- C9, counterexample: for the one-triangle mesh (three vertices, N = 3, one
triangle, T = 1) the counts handed over are 9, 3 and 3, not 3, 1 and 3. -/
theorem meshLambda_counts_counterexample :
    triangleMesh.vertices ≠ [] ∧
    triangleMesh.vertices.length = 3 * triangleMesh.colors.length ∧
    triangleMesh.colors.length = 3 ∧
    triangleMesh.triangles.length = 3 * 1 ∧
    onMeshCounts (loadQuadKey.meshLambda triangleMesh Application.initial).trace
      = [(9, 3, 3)] ∧
    onMeshCounts (loadQuadKey.meshLambda triangleMesh Application.initial).trace
      ≠ [(3, 1, 3)] := by
  refine ⟨by simp [triangleMesh], rfl, rfl, rfl, by decide, by decide⟩

/-- C9, amended. For a non-empty mesh with `|vertices| = 3 * |colors| = 3N`
and `|triangles| = 3T`, both below 2^31, the counts handed to the user mesh
callback are the buffer lengths: `3N` after the vertex buffer, `3T` after the
triangle buffer and `N` after the colour buffer. -/
theorem meshLambda_counts (mesh : Mesh) (app : Application) (N T : Nat)
    (hvertices : mesh.vertices ≠ [])
    (hinvariant : mesh.vertices.length = 3 * mesh.colors.length)
    (hN : mesh.colors.length = N)
    (hT : mesh.triangles.length = 3 * T)
    (hvsize : mesh.vertices.length < 2 ^ 31)
    (htsize : mesh.triangles.length < 2 ^ 31) :
    onMeshCounts (loadQuadKey.meshLambda mesh app).trace
      = onMeshCounts app.trace ++ [(3 * (N : Int), 3 * (T : Int), (N : Int))] := by
  have hcsize : mesh.colors.length < 2 ^ 31 := by omega
  have hv := static_cast_int_of_lt _ hvsize
  have ht := static_cast_int_of_lt _ htsize
  have hc := static_cast_int_of_lt _ hcsize
  rw [hinvariant, hN] at hv
  rw [hT] at ht
  rw [hN] at hc
  simp [loadQuadKey.meshLambda, hvertices, onMeshCounts_append, onMeshCounts, hinvariant, hN,
    hT, hv, ht, hc]

/-- C9 amended, at the one-triangle mesh. -/
theorem meshLambda_counts_witness :
    onMeshCounts (loadQuadKey.meshLambda triangleMesh Application.initial).trace
      = [(3 * 3, 3 * 1, 3)] := by
  have h := meshLambda_counts triangleMesh Application.initial 3 1 (by simp [triangleMesh])
    rfl rfl rfl (by decide) (by decide)
  simpa [Application.initial, onMeshCounts] using h

/-- C10. `getElevationProvider` returns the flat provider exactly when the
level of detail is at most `SrtmElevationLodStart` (42) and the SRTM provider
exactly when it is above; changing `tileX` and `tileY` does not change the
choice. -/
theorem getElevationProvider_threshold (quadKey : QuadKey) (tileX tileY : Int) :
    (getElevationProvider quadKey = .flatEleProvider_
      ↔ quadKey.levelOfDetail ≤ SrtmElevationLodStart) ∧
    (getElevationProvider quadKey = .srtmEleProvider_
      ↔ ¬ quadKey.levelOfDetail ≤ SrtmElevationLodStart) ∧
    SrtmElevationLodStart = 42 ∧
    getElevationProvider { quadKey with tileX := tileX, tileY := tileY }
      = getElevationProvider quadKey := by
  refine ⟨?_, ?_, rfl, rfl⟩
  · unfold getElevationProvider
    split <;> simp_all
  · unfold getElevationProvider
    split <;> simp_all

/-- C11, counterexample: a path can be parsed more than once. The parse of
`styles/broken.mapcss` throws, so `registerStylesheet` fails and caches
nothing; a second registration opens and parses the file again, which makes
two parses of the path. So does a lookup that succeeds after the failed one
(the file having been repaired): the path has then been parsed twice. -/
theorem getStyleProvider_parses_twice :
    (registerStylesheet worldUnparsable "styles/broken.mapcss" Application.initial).1
      = .failed (.exception "mapcss: unexpected end of input") ∧
    (registerStylesheet worldUnparsable "styles/broken.mapcss"
      Application.initial).2.styleProviders_ = [] ∧
    (parsedFiles (registerStylesheet worldUnparsable "styles/broken.mapcss"
      (registerStylesheet worldUnparsable "styles/broken.mapcss"
        Application.initial).2).2.trace).count "styles/broken.mapcss" = 2 ∧
    (getStyleProvider worldWithStyles "styles/broken.mapcss"
      (registerStylesheet worldUnparsable "styles/broken.mapcss" Application.initial).2).1
      = .ok { address := 0, stylesheet := { rules := ["canvas styles/broken.mapcss"] } } ∧
    (parsedFiles (getStyleProvider worldWithStyles "styles/broken.mapcss"
      (registerStylesheet worldUnparsable "styles/broken.mapcss"
        Application.initial).2).2.trace).count "styles/broken.mapcss" = 2 ∧
    ¬ (parsedFiles (getStyleProvider worldWithStyles "styles/broken.mapcss"
      (registerStylesheet worldUnparsable "styles/broken.mapcss"
        Application.initial).2).2.trace).count "styles/broken.mapcss" ≤ 1 := by
  refine ⟨rfl, rfl, ?_, rfl, ?_, ?_⟩ <;> decide

/-- C11, amended. Once a lookup of the stylesheet `filePath` has succeeded
with `provider`, then after any sequence of public operations (each in a world
of its own) a lookup of `filePath` returns the same provider and leaves the
application as it is: no file is opened, nothing is parsed, the cache is not
changed. So do `registerStylesheet` and the operations given
`styleFile = filePath`, which work with that provider. The file of
`filePath` is not opened or parsed by any of the operations in between, and
the successful lookup itself parsed it at most once. A lookup that fails, in
any world and state, leaves the cache as it was, so the path is opened and
parsed again by the next lookup. -/
theorem styleProvider_cached (world : World) (filePath : String) (app : Application)
    (provider : StyleProviderPtr) (calls : List (World × Call)) (later : World)
    (hok : (getStyleProvider world filePath app).1 = .ok provider) :
    getStyleProvider later filePath (runCalls calls (getStyleProvider world filePath app).2)
      = (.ok provider, runCalls calls (getStyleProvider world filePath app).2) ∧
    registerStylesheet later filePath (runCalls calls (getStyleProvider world filePath app).2)
      = (.returned, runCalls calls (getStyleProvider world filePath app).2) ∧
    (∀ storeKey request,
      (geoStoreAdd later storeKey filePath request
          (runCalls calls (getStyleProvider world filePath app).2)).2.trace
        = (runCalls calls (getStyleProvider world filePath app).2).trace
            ++ [.geoStoreAdd storeKey request provider]) ∧
    (∀ quadKey, ∃ added,
      (loadQuadKey later filePath quadKey
          (runCalls calls (getStyleProvider world filePath app).2)).2.trace
        = (runCalls calls (getStyleProvider world filePath app).2).trace
            ++ .quadKeyBuild quadKey provider (getElevationProvider quadKey) :: added) ∧
    (runCalls calls (getStyleProvider world filePath app).2).styleProviders_.lookup filePath
      = some provider ∧
    (openedFiles (runCalls calls (getStyleProvider world filePath app).2).trace).count filePath
      = (openedFiles (getStyleProvider world filePath app).2.trace).count filePath ∧
    (parsedFiles (runCalls calls (getStyleProvider world filePath app).2).trace).count filePath
      = (parsedFiles (getStyleProvider world filePath app).2.trace).count filePath ∧
    (parsedFiles (getStyleProvider world filePath app).2.trace).count filePath
      ≤ (parsedFiles app.trace).count filePath + 1 ∧
    (∀ (other : World) (state : Application) (failure : Failure),
      (getStyleProvider other filePath state).1 = .error failure →
      (getStyleProvider other filePath state).2.styleProviders_ = state.styleProviders_ ∧
      state.styleProviders_.lookup filePath = none) := by
  have hfirst : (getStyleProvider world filePath app).2.Serves filePath provider
      ((openedFiles (getStyleProvider world filePath app).2.trace).count filePath)
      ((parsedFiles (getStyleProvider world filePath app).2.trace).count filePath) :=
    ⟨getStyleProvider_caches world filePath app provider hok, rfl, rfl⟩
  have hreached := Application.Serves.runCalls calls filePath provider _ _ _ hfirst
  have hhit := getStyleProvider_hit later filePath _ provider hreached.1
  refine ⟨hhit, ?_, ?_, ?_, hreached.1, hreached.2.1, hreached.2.2, ?_, ?_⟩
  · simp only [registerStylesheet, hhit]
  · intro storeKey request
    simp only [geoStoreAdd, hhit]
  · intro quadKey
    obtain ⟨added, hadded⟩ := runSteps_trace
      (later.quadKeyBuild quadKey provider (getElevationProvider quadKey)).1
      { runCalls calls (getStyleProvider world filePath app).2 with
        trace := (runCalls calls (getStyleProvider world filePath app).2).trace
          ++ [.quadKeyBuild quadKey provider (getElevationProvider quadKey)] }
    simp only [List.append_assoc, List.singleton_append] at hadded
    replace hadded := hadded.symm
    unfold loadQuadKey safeExecute loadQuadKey.body
    simp only [hhit]
    split
    · rename_i heq
      simp only [Prod.mk.injEq] at heq
      rw [← heq.2, hadded]
      exact ⟨added, rfl⟩
    · rename_i _ what app1 heq
      simp only [Prod.mk.injEq] at heq
      rw [← heq.2, hadded]
      exact ⟨added ++ [.errorCallback what], by simp⟩
    · rename_i heq
      simp only [Prod.mk.injEq] at heq
      rw [← heq.2, hadded]
      exact ⟨added, rfl⟩
  · exact getStyleProvider_parses world filePath app
  · intro other state failure hfail
    unfold getStyleProvider at hfail ⊢
    cases hlookup : state.styleProviders_.lookup filePath with
    | some cached => simp [hlookup] at hfail
    | none =>
      simp only [hlookup] at hfail ⊢
      cases hfile : other.readFile filePath with
      | none => simp
      | some content =>
        simp only [hfile] at hfail ⊢
        generalize substr filePath 0 ((find_last_of filePath "\\/" + 1) % 2 ^ 64) = dir at hfail ⊢
        cases hparse : other.parse dir content with
        | error what => simp
        | ok stylesheet => simp [hparse] at hfail

/-- C11 amended, at a concrete run: a fresh application registers
`styles/default.mapcss`, then fails to register a missing sheet, loads a tile
with the first sheet and registers a third one; a further lookup of the first
sheet gives the provider of the first lookup, and that sheet was parsed once. -/
theorem styleProvider_cached_witness :
    (getStyleProvider sampleWorld "styles/default.mapcss"
      (runCalls laterCalls
        (getStyleProvider worldWithStyles "styles/default.mapcss" Application.initial).2)).1
      = .ok defaultProvider ∧
    (parsedFiles (runCalls laterCalls
        (getStyleProvider worldWithStyles "styles/default.mapcss" Application.initial).2).trace
      ).count "styles/default.mapcss" = 1 := by
  have h := styleProvider_cached worldWithStyles "styles/default.mapcss" Application.initial
    defaultProvider laterCalls sampleWorld rfl
  refine ⟨by rw [h.1], ?_⟩
  rw [h.2.2.2.2.2.2.1]
  rfl

/-- C12. For an arc record (`ARC`, `ARCZ` or `ARCM`) with at most one part, at
least one vertex and coordinate arrays of `nVertices` entries, `visitShape`
returns after exactly one visitor call: `visitWay` with all vertices in order,
each `GeoCoordinate(padfY[i], padfX[i])`, with the tags it was given, and with
`isClosed` true exactly when the first vertex equals the last. -/
theorem visitShape_arc (shape : SHPObject) (tags : List formats.Tag) (trace : List ShapeEvent)
    (htype : shape.nSHPType = SHPT_ARC ∨ shape.nSHPType = SHPT_ARCZ
      ∨ shape.nSHPType = SHPT_ARCM)
    (hparts : shape.nParts ≤ 1) (hvertices : 1 ≤ shape.nVertices)
    (hx : shape.padfX.length = shape.nVertices.toNat)
    (hy : shape.padfY.length = shape.nVertices.toNat) :
    visitShape shape tags trace
      = (.returned, trace ++ [.visitWay (vertices shape) tags
          (decide ((vertices shape).head? = (vertices shape).getLast?))]) ∧
    (vertices shape).length = shape.nVertices.toNat ∧
    (∀ (i : Nat) (y x : ℚ), shape.padfY[i]? = some y → shape.padfX[i]? = some x →
      (vertices shape)[i]? = some (GeoCoordinate.mk y x)) := by
  have hlen := vertices_length shape _ hx hy
  have hpoint : ¬ (shape.nSHPType = SHPT_POINT ∨ shape.nSHPType = SHPT_POINTM
      ∨ shape.nSHPType = SHPT_POINTZ) := by
    rcases htype with h | h | h <;> rw [h] <;> decide
  have hloop := visitArc.arcLoop_eq shape shape.nVertices.toNat 0 [] (by omega)
  have hall : List.take shape.nVertices.toNat (vertices shape) = vertices shape := by
    rw [← hlen]; exact List.take_length _
  simp only [List.drop_zero, List.nil_append, hall] at hloop
  have hpos : 0 < (vertices shape).length := by omega
  refine ⟨?_, hlen, fun i y x hyi hxi => ?_⟩
  · simp only [visitShape, hpoint, htype, if_true, if_false, visitArc, not_lt.mpr hparts, gt_iff_lt,
      hloop]
    cases hv : vertices shape with
    | nil => simp [hv] at hpos
    | cons first rest =>
      simp only [List.length_cons, Nat.add_sub_cancel, List.getElem?_cons_zero, List.head?_cons]
      rw [List.getLast?_eq_getElem?]
      simp only [List.length_cons, Nat.add_sub_cancel]
      cases hlast : (first :: rest)[rest.length]? with
      | none => simp at hlast
      | some last => simp
  · rw [← readVertex_eq]
    simp [readVertex, hyi, hxi]

/-- C12 at a concrete record: a one-part arc whose last vertex equals the
first is handed over as a closed way. -/
theorem visitShape_arc_witness :
    visitShape closedArc sampleTags []
      = (.returned, [.visitWay
          [{ latitude := 50, longitude := 10 }, { latitude := 51, longitude := 11 },
            { latitude := 50, longitude := 10 }] sampleTags true]) := by
  have h := (visitShape_arc closedArc sampleTags [] (Or.inl rfl) (by decide) (by decide)
    rfl rfl).1
  rw [h]
  simp [vertices, closedArc]

/-- C13. For a record that is an arc with more than one part, or of type
`MULTIPOINT`, `MULTIPOINTZ`, `MULTIPOINTM` or `MULTIPATCH`, or of a type that
is none of the thirteen known codes, `visitShape` returns (no exception) and
makes no visitor call; and the record loop of `parse` goes on with the next
record. -/
theorem visitShape_skipped (shape : SHPObject) (tags : List formats.Tag)
    (trace : List ShapeEvent)
    (hskipped :
      ((shape.nSHPType = SHPT_ARC ∨ shape.nSHPType = SHPT_ARCZ ∨ shape.nSHPType = SHPT_ARCM)
        ∧ shape.nParts > 1) ∨
      (shape.nSHPType = SHPT_MULTIPOINT ∨ shape.nSHPType = SHPT_MULTIPOINTZ
        ∨ shape.nSHPType = SHPT_MULTIPOINTM ∨ shape.nSHPType = SHPT_MULTIPATCH) ∨
      (shape.nSHPType ∉ [SHPT_POINT, SHPT_POINTM, SHPT_POINTZ, SHPT_ARC, SHPT_ARCZ, SHPT_ARCM,
        SHPT_POLYGON, SHPT_POLYGONZ, SHPT_POLYGONM, SHPT_MULTIPOINT, SHPT_MULTIPOINTZ,
        SHPT_MULTIPOINTM, SHPT_MULTIPATCH])) :
    (visitShape shape tags trace).1 = .returned ∧
    visitorCalls (visitShape shape tags trace).2 = visitorCalls trace ∧
    (∀ (lib : ShapeLib) (shpFile : SHPHandle) (dbfFile : DBFHandle) (remaining k : Nat)
        (before : List ShapeEvent),
      shpFile.readObject k = some shape →
      parse.loop lib shpFile dbfFile (remaining + 1) k before
        = parse.loop lib shpFile dbfFile remaining (k + 1)
            (visitShape shape (parseTags lib dbfFile k) (before ++ [.readObject k])).2 ∧
      visitorCalls (visitShape shape (parseTags lib dbfFile k) (before ++ [.readObject k])).2
        = visitorCalls before) := by
  have key : ∀ (tags : List formats.Tag) (trace : List ShapeEvent),
      (visitShape shape tags trace).1 = .returned ∧
      visitorCalls (visitShape shape tags trace).2 = visitorCalls trace := by
    intro tags trace
    rcases hskipped with ⟨htype, hparts⟩ | htype | htype
    · have hpoint : ¬ (shape.nSHPType = SHPT_POINT ∨ shape.nSHPType = SHPT_POINTM
          ∨ shape.nSHPType = SHPT_POINTZ) := by
        rcases htype with h | h | h <;> rw [h] <;> decide
      simp [visitShape, hpoint, htype, visitArc, hparts, visitorCalls_append, visitorCalls]
    · have h1 : ¬ (shape.nSHPType = SHPT_POINT ∨ shape.nSHPType = SHPT_POINTM
          ∨ shape.nSHPType = SHPT_POINTZ) := by
        rcases htype with h | h | h | h <;> rw [h] <;> decide
      have h2 : ¬ (shape.nSHPType = SHPT_ARC ∨ shape.nSHPType = SHPT_ARCZ
          ∨ shape.nSHPType = SHPT_ARCM) := by
        rcases htype with h | h | h | h <;> rw [h] <;> decide
      have h3 : ¬ (shape.nSHPType = SHPT_POLYGON ∨ shape.nSHPType = SHPT_POLYGONZ
          ∨ shape.nSHPType = SHPT_POLYGONM) := by
        rcases htype with h | h | h | h <;> rw [h] <;> decide
      simp [visitShape, h1, h2, h3, htype, visitorCalls_append, visitorCalls]
    · simp only [List.mem_cons, List.mem_singleton, not_or, List.not_mem_nil, or_false] at htype
      obtain ⟨a1, a2, a3, a4, a5, a6, a7, a8, a9, a10, a11, a12, a13⟩ := htype
      simp [visitShape, a1, a2, a3, a4, a5, a6, a7, a8, a9, a10, a11, a12, a13,
        visitorCalls_append, visitorCalls]
  refine ⟨(key tags trace).1, (key tags trace).2, ?_⟩
  intro lib shpFile dbfFile remaining k before hread
  have hk := key (parseTags lib dbfFile k) (before ++ [.readObject k])
  refine ⟨?_, by simpa [visitorCalls_append, visitorCalls] using hk.2⟩
  simp only [parse.loop, hread]
  revert hk
  cases visitShape shape (parseTags lib dbfFile k) (before ++ [.readObject k]) with
  | mk outcome trace2 =>
    intro hk
    simp only [] at hk
    rw [hk.1]

/-- C13 at concrete records: a two-part arc and a multipoint are skipped, and
a file of a multipoint followed by a closed arc yields the way of the arc. -/
theorem visitShape_skipped_witness :
    visitShape twoPartArc sampleTags [] = (.returned, [.cerr "Arc type has more than one part."]) ∧
    visitorCalls (visitShape multipointRecord sampleTags []).2 = [] ∧
    parse.loop sampleLib sampleShp sampleDbf 2 0 []
      = parse.loop sampleLib sampleShp sampleDbf 1 1
          (visitShape multipointRecord (parseTags sampleLib sampleDbf 0) [.readObject 0]).2 := by
  have harc := visitShape_skipped twoPartArc sampleTags [] (Or.inl ⟨Or.inr (Or.inl rfl), by decide⟩)
  have hmulti := visitShape_skipped multipointRecord sampleTags [] (Or.inr (Or.inl (Or.inl rfl)))
  refine ⟨rfl, hmulti.2.1, ?_⟩
  exact (hmulti.2.2 sampleLib sampleShp sampleDbf 1 0 [] rfl).1

/-- C14. For a polygon record (`POLYGON`, `POLYGONZ` or `POLYGONM`) with
arrays of the announced sizes, at least one part, `panPartStart[0] = 0` and
part starts strictly increasing and below `nVertices`, `visitShape` returns
after exactly one visitor call, `visitRelation` with the tags it was given
and `nParts` members: member `j` has `isRing = (panPartType[j] == SHPP_RING)`
and the vertices with indices from `panPartStart[j]` up to, not including,
`panPartStart[j + 1]` (`nVertices` for the last part); the coordinates of the
members, concatenated, are all the vertices in order. -/
theorem visitShape_polygon (shape : SHPObject) (tags : List formats.Tag)
    (trace : List ShapeEvent)
    (htype : shape.nSHPType = SHPT_POLYGON ∨ shape.nSHPType = SHPT_POLYGONZ
      ∨ shape.nSHPType = SHPT_POLYGONM)
    (hparts : 1 ≤ shape.nParts)
    (hstartLength : shape.panPartStart.length = shape.nParts.toNat)
    (htypeLength : shape.panPartType.length = shape.nParts.toNat)
    (hx : shape.padfX.length = shape.nVertices.toNat)
    (hy : shape.padfY.length = shape.nVertices.toNat)
    (hfirst : shape.panPartStart[0]? = some 0)
    (hincreasing : ∀ (j : Nat) (a b : Int), shape.panPartStart[j]? = some a →
      shape.panPartStart[j + 1]? = some b → a < b)
    (hbounded : ∀ a ∈ shape.panPartStart, a < shape.nVertices) :
    visitShape shape tags trace
      = (.returned, trace ++ [.visitRelation (expectedMembers shape) tags]) ∧
    (expectedMembers shape).length = shape.nParts.toNat ∧
    (∀ (j : Nat) (start partType : Int),
      shape.panPartStart[j]? = some start → shape.panPartType[j]? = some partType →
      (expectedMembers shape)[j]? = some
        { isRing := partType == SHPP_RING
          coordinates := ((vertices shape).drop start.toNat).take
            (((shape.panPartStart[j + 1]?).getD shape.nVertices).toNat - start.toNat) }) ∧
    ((expectedMembers shape).map (fun m => m.coordinates)).flatten = vertices shape := by
  have h : PolygonRecord shape :=
    ⟨hparts, hstartLength, htypeLength, hx, hy, hfirst, hincreasing, hbounded⟩
  have hpoint : ¬ (shape.nSHPType = SHPT_POINT ∨ shape.nSHPType = SHPT_POINTM
      ∨ shape.nSHPType = SHPT_POINTZ) := by
    rcases htype with h | h | h <;> rw [h] <;> decide
  have harc : ¬ (shape.nSHPType = SHPT_ARC ∨ shape.nSHPType = SHPT_ARCZ
      ∨ shape.nSHPType = SHPT_ARCM) := by
    rcases htype with h | h | h <;> rw [h] <;> decide
  obtain ⟨hvisit, hflat⟩ := visitPolygon_eq shape h tags trace
  refine ⟨?_, by simp [expectedMembers], ?_, hflat⟩
  · simp only [visitShape, hpoint, harc, htype, if_true, if_false, hvisit]
  · intro j start partType hs ht
    have hj : j < shape.nParts.toNat := by
      have := (List.getElem?_eq_some.mp hs).1
      omega
    simp only [expectedMembers, List.getElem?_map, List.getElem?_range hj, Option.map_some',
      expectedMember, partStart, partStop, hs, ht, Option.getD_some]

/-- C14 at a concrete record: two parts, of four and of three vertices, the
first flagged as a ring. -/
theorem visitShape_polygon_witness :
    visitShape twoPartPolygon sampleTags []
      = (.returned, [.visitRelation
          [{ isRing := true
             coordinates := [⟨50, 10⟩, ⟨50, 14⟩, ⟨54, 14⟩, ⟨54, 10⟩] },
           { isRing := false
             coordinates := [⟨51, 11⟩, ⟨51, 12⟩, ⟨52, 11⟩] }] sampleTags]) := by
  have h := (visitShape_polygon twoPartPolygon sampleTags [] (Or.inl rfl) (by decide) rfl rfl
    rfl rfl rfl (by
      intro j a b ha hb
      match j, ha, hb with
      | 0, ha, hb =>
        simp [twoPartPolygon] at ha hb
        omega
      | 1, ha, hb => simp [twoPartPolygon] at hb
      | j + 2, ha, hb => simp [twoPartPolygon] at ha) (by
      intro a ha
      simp [twoPartPolygon] at ha
      rcases ha with ha | ha <;> rw [ha] <;> decide)).1
  rw [h]
  rfl

/-- C16, counterexample: for a record with a text field, a logical field and
an integer field, none NULL, `parseTags` gives three tags, the one of the
logical field with an empty value; not the two tags of the text and the
integer field only. -/
theorem parseTags_logical_field :
    parseTags sampleLib sampleDbf 0
      = [{ key := "NAME", value := "river" }, { key := "ONEWAY", value := "" },
          { key := "LANES", value := "2" }] ∧
    parseTags sampleLib sampleDbf 0
      ≠ [{ key := "NAME", value := "river" }, { key := "LANES", value := "2" }] := by
  constructor <;> decide

/-- C16, amended. `parseTags` returns, in field order, exactly one tag for
each field whose attribute is not NULL, with the title of the field as key;
the value is the text of the attribute for a field of type String, Integer
or Double and the empty text for a field of any other type. A NULL attribute
gives no tag. -/
theorem parseTags_fields (lib : ShapeLib) (dbfFile : DBFHandle) (k : Nat) :
    parseTags lib dbfFile k
      = (List.range dbfFile.fieldCount.toNat).filterMap (tagOfField lib dbfFile k) ∧
    (∀ i, dbfFile.isAttributeNULL k i = true → tagOfField lib dbfFile k i = none) ∧
    (∀ i, dbfFile.isAttributeNULL k i = false →
      ∃ value, tagOfField lib dbfFile k i = some { key := (dbfFile.getFieldInfo i).2, value := value } ∧
        ((dbfFile.getFieldInfo i).1 = .FTString → value = dbfFile.readStringAttribute k i) ∧
        ((dbfFile.getFieldInfo i).1 = .FTInteger →
          value = toString (dbfFile.readIntegerAttribute k i)) ∧
        ((dbfFile.getFieldInfo i).1 = .FTDouble →
          value = lib.doubleToString (dbfFile.readDoubleAttribute k i)) ∧
        ((dbfFile.getFieldInfo i).1 ≠ .FTString → (dbfFile.getFieldInfo i).1 ≠ .FTInteger →
          (dbfFile.getFieldInfo i).1 ≠ .FTDouble → value = "")) := by
  refine ⟨?_, ?_, ?_⟩
  · unfold parseTags
    rw [parseTags.tagLoop_eq, List.range_eq_range']
    simp
  · intro i h
    simp [tagOfField, h]
  · intro i h
    refine ⟨_, by simp only [tagOfField, h]; rfl, ?_, ?_, ?_, ?_⟩
    · intro ht; simp [ht]
    · intro ht; simp [ht]
    · intro ht; simp [ht]
    · intro h1 h2 h3
      cases ht : (dbfFile.getFieldInfo i).1 <;> simp_all

/-- C16 amended, at the sample record. -/
theorem parseTags_fields_witness :
    tagOfField sampleLib sampleDbf 0 1 = some { key := "ONEWAY", value := "" } ∧
    tagOfField sampleLib sampleDbf 0 2 = some { key := "LANES", value := "2" } := by
  obtain ⟨v1, h1, _, _, _, hother⟩ := (parseTags_fields sampleLib sampleDbf 0).2.2 1 rfl
  obtain ⟨v2, h2, _, hint, _, _⟩ := (parseTags_fields sampleLib sampleDbf 0).2.2 2 rfl
  have e1 := hother (by decide) (by decide) (by decide)
  have e2 := hint rfl
  subst e1 e2
  exact ⟨h1, h2⟩

/-- C17. From a state without a mesh (the empty state), a visit of a building area or of a relation
with members that returns has called the mesh callback exactly once, as its
last call: all that the element and its nested members did comes before it
and holds no mesh callback. An element visited while a mesh is present, as
every member of a relation is, never calls the mesh callback. -/
theorem accept_flushes_once (ext : Collaborators) (context_ : BuilderContext)
    (element : Element) (s : BuilderState)
    (hmesh : s.mesh_ = none)
    (hkind : (∃ id tags coordinates, element = .area id tags coordinates ∧
        (context_.styleProvider.forElement (.area id tags coordinates)
          context_.quadKey.levelOfDetail).getString "building" = some "true") ∨
      (∃ id tags elements, element = .relation id tags elements ∧ elements ≠ []))
    (hret : (accept ext context_ element s).1 = .returned) :
    (∃ before mesh,
      (accept ext context_ element s).2.trace = before ++ [.meshCallback mesh] ∧
      emittedMeshes before = emittedMeshes s.trace ∧
      emittedMeshes (accept ext context_ element s).2.trace = emittedMeshes s.trace ++ [mesh]) ∧
    (∀ (member : Element) (inside : BuilderState), inside.mesh_.isSome = true →
      (accept ext context_ member inside).1 = .returned →
      emittedMeshes (accept ext context_ member inside).2.trace = emittedMeshes inside.trace ∧
      (accept ext context_ member inside).2.mesh_.isSome = true) := by
  have hnone : s.mesh_.isNone = true := by rw [hmesh]; rfl
  refine ⟨?_, fun member inside hm hr => (accept_member ext context_ member inside hr).2 hm⟩
  have hlast : ∀ (before : List BuilderEvent) (mesh : Mesh) (trace : List BuilderEvent),
      trace = before ++ [.meshCallback mesh] → emittedMeshes before = emittedMeshes s.trace →
      ∃ before mesh, trace = before ++ [.meshCallback mesh] ∧
        emittedMeshes before = emittedMeshes s.trace ∧
        emittedMeshes trace = emittedMeshes s.trace ++ [mesh] := by
    intro before mesh trace ht hb
    exact ⟨before, mesh, ht, hb, by rw [ht, emittedMeshes_append, hb]; rfl⟩
  rcases hkind with ⟨id, tags, coordinates, he, hbuilding⟩ | ⟨id, tags, elements, he, hne⟩
  · subst he
    simp only [accept] at hret ⊢
    rcases visitArea_returned ext context_ id tags coordinates s hret with
      ⟨hnot, _⟩ | ⟨_, c, rb, rs, fb, fs, mesh, polygon, hstate⟩
    · exact absurd hbuilding hnot
    · rw [hstate]
      simp only [hnone, if_true]
      exact hlast _ mesh _ rfl (by simp [emittedMeshes_append, emittedMeshes])
  · subst he
    have hctx := ensureContext_state (.relation id tags elements) s
    rcases accept_relation_cases ext context_ id tags elements s hne with
      ⟨failure, hfail⟩ | hmulti | hforward
    · rw [hfail] at hret
      simp at hret
    · rw [hmulti] at hret ⊢
      have hframe := MultiPolygonVisitor.acceptAll_frame ext elements
        (ensureContext (.relation id tags elements) s).2
      revert hret hframe
      cases MultiPolygonVisitor.acceptAll ext elements
          (ensureContext (.relation id tags elements) s).2 with
      | mk outcome s2 =>
        cases outcome with
        | failed failure => intro hret; simp at hret
        | returned =>
          intro hret hframe
          simp only [] at hret hframe ⊢
          obtain ⟨c, rb, rs, fb, fs, mesh, polygon, hstate⟩ :=
            build_then_complete ext context_ _ _ s2 _ hret
          rw [hstate, hctx.2, hnone]
          simp only [if_true]
          exact hlast _ mesh _ rfl
            (by simp [emittedMeshes_append, emittedMeshes, hframe.2, hctx.1])
    · rw [hforward] at hret ⊢
      have hmembers := acceptAll_member ext context_ elements
        (ensureContext (.relation id tags elements) s).2
      revert hret hmembers
      cases acceptAll ext context_ elements
          (ensureContext (.relation id tags elements) s).2 with
      | mk outcome s2 =>
        cases outcome with
        | failed failure => intro hret; simp at hret
        | returned =>
          intro hret hmembers
          simp only [] at hret hmembers ⊢
          obtain ⟨_, hmeshes⟩ := hmembers trivial
          obtain ⟨_, _, htrue⟩ := completeIfNecessary_returned _ s2 hret
          obtain ⟨mesh, _, hstate⟩ := htrue (by rw [hctx.2, hnone])
          rw [hstate]
          have hsome : (ensureContext (.relation id tags elements) s).2.mesh_.isSome = true := by
            rw [hctx.1]; rfl
          exact hlast _ mesh _ rfl (by rw [(hmeshes hsome).1, hctx.1])

/-- C17 at a concrete relation visited by a fresh builder: a building square
and a nested relation with a second building square and a node give one mesh
callback. -/
theorem accept_flushes_once_witness :
    (emittedMeshes (accept sampleCollaborators (sampleContext stylePlainRelation)
      (.relation 1 [] nestedMembers) BuilderState.initial).2.trace).length = 1 := by
  obtain ⟨⟨before, mesh, _, _, hemitted⟩, _⟩ := accept_flushes_once sampleCollaborators
    (sampleContext stylePlainRelation) (.relation 1 [] nestedMembers) BuilderState.initial rfl
    (Or.inr ⟨1, [], nestedMembers, rfl, by simp [nestedMembers]⟩) rfl
  rw [hemitted]
  rfl

/-- C18, counterexample: a relation whose only member is a node, styled as no
multipolygon and visited by a fresh builder. The visit returns; the mesh is
dropped but the polygon `ensureContext` made is still there. -/
theorem visitRelation_leaves_polygon :
    visitRelation sampleCollaborators (sampleContext stylePlainRelation) 1 []
        [.node 2 [] ⟨0, 0⟩] BuilderState.initial
      = (.returned,
          { polygon_ := some (Polygon.create 1 0)
            mesh_ := none
            trace := [.meshCallback (Mesh.create "building:1")] }) ∧
    (visitRelation sampleCollaborators (sampleContext stylePlainRelation) 1 []
        [.node 2 [] ⟨0, 0⟩] BuilderState.initial).2.polygon_ ≠ none := by
  constructor
  · rfl
  · intro h
    cases h

/-- C18, amended. Between top-level elements the builder has no mesh, and its
polygon is absent or the empty polygon made by `ensureContext`: if a visit
from such a state returns, the state is such a state again. After a node, a
way or an area visited from the empty state the polygon is absent; only a
relation can leave the empty polygon behind. -/
theorem accept_restores_idle (ext : Collaborators) (context_ : BuilderContext)
    (element : Element) (s : BuilderState)
    (hidle : s.polygonIdle) (hmesh : s.mesh_ = none)
    (hret : (accept ext context_ element s).1 = .returned) :
    (accept ext context_ element s).2.mesh_ = none ∧
    (accept ext context_ element s).2.polygonIdle ∧
    (s.polygon_ = none → (∀ id tags elements, element ≠ .relation id tags elements) →
      (accept ext context_ element s).2.polygon_ = none) := by
  have hnone : s.mesh_.isNone = true := by rw [hmesh]; rfl
  refine ⟨?_, (accept_member ext context_ element s hret).1 hidle, ?_⟩
  · cases element with
    | node id tags coordinate => simpa [accept, visitNode] using hmesh
    | way id tags coordinates => simpa [accept, visitWay] using hmesh
    | area id tags coordinates =>
      simp only [accept] at hret ⊢
      rcases visitArea_returned ext context_ id tags coordinates s hret with
        ⟨_, hsame⟩ | ⟨_, c, rb, rs, fb, fs, mesh, polygon, hstate⟩
      · rw [hsame]; exact hmesh
      · rw [hstate]; simp [hnone]
    | relation id tags elements =>
      by_cases hne : elements = []
      · subst hne
        simpa [accept] using hmesh
      · have hctx := ensureContext_state (.relation id tags elements) s
        rcases accept_relation_cases ext context_ id tags elements s hne with
          ⟨failure, hfail⟩ | hmulti | hforward
        · rw [hfail] at hret
          simp at hret
        · rw [hmulti] at hret ⊢
          revert hret
          cases MultiPolygonVisitor.acceptAll ext elements
              (ensureContext (.relation id tags elements) s).2 with
          | mk outcome s2 =>
            cases outcome with
            | failed failure => intro hret; simp at hret
            | returned =>
              intro hret
              simp only [] at hret ⊢
              obtain ⟨c, rb, rs, fb, fs, mesh, polygon, hstate⟩ :=
                build_then_complete ext context_ _ _ s2 _ hret
              rw [hstate, hctx.2, hnone]
              rfl
        · rw [hforward] at hret ⊢
          revert hret
          cases acceptAll ext context_ elements
              (ensureContext (.relation id tags elements) s).2 with
          | mk outcome s2 =>
            cases outcome with
            | failed failure => intro hret; simp at hret
            | returned =>
              intro hret
              simp only [] at hret ⊢
              obtain ⟨_, _, htrue⟩ := completeIfNecessary_returned _ s2 hret
              obtain ⟨mesh, _, hstate⟩ := htrue (by rw [hctx.2, hnone])
              rw [hstate]
  · intro hpolygon hkind
    cases element with
    | node id tags coordinate => simpa [accept, visitNode] using hpolygon
    | way id tags coordinates => simpa [accept, visitWay] using hpolygon
    | area id tags coordinates =>
      simp only [accept] at hret ⊢
      rcases visitArea_returned ext context_ id tags coordinates s hret with
        ⟨_, hsame⟩ | ⟨_, c, rb, rs, fb, fs, mesh, polygon, hstate⟩
      · rw [hsame]; exact hpolygon
      · rw [hstate]
    | relation id tags elements => exact absurd rfl (hkind id tags elements)

/-- C18 amended, at the relation of a building square and a nested relation. -/
theorem accept_restores_idle_witness :
    (accept sampleCollaborators (sampleContext stylePlainRelation)
      (.relation 1 [] nestedMembers) BuilderState.initial).2.mesh_ = none ∧
    (accept sampleCollaborators (sampleContext stylePlainRelation)
      (.relation 1 [] nestedMembers) BuilderState.initial).2.polygonIdle := by
  have h := accept_restores_idle sampleCollaborators (sampleContext stylePlainRelation)
    (.relation 1 [] nestedMembers) BuilderState.initial (Or.inl rfl) rfl rfl
  exact ⟨h.1, h.2.1⟩

/-- C19. When `build` runs to its end, with `e` the elevation at the
representative point, `m` the style's `min-height` and `h` the style's
`height` after the zero fallback: the facade builder gets `minHeight = e + m`
and `height = h - m`, the roof builder gets `minHeight = (e + m) + (h - m)`,
which is the facade's base plus the facade's height and equals `e + h`. -/
theorem build_heights (ext : Collaborators) (context_ : BuilderContext) (element : Element)
    (style : Style) (s : BuilderState) (mesh : Mesh) (polygon : Polygon) (p0 p1 : ℚ)
    (roofType facadeType : String) (roofBuilder : RoofBuilderClass)
    (facadeBuilder : FacadeBuilderClass)
    (hmesh : s.mesh_ = some mesh) (hpolygon : s.polygon_ = some polygon)
    (h0 : polygon.points[0]? = some p0) (h1 : polygon.points[1]? = some p1)
    (hroofType : style.getString RoofTypeKey = some roofType)
    (hroof : RoofBuilderFactoryMap.lookup roofType = some roofBuilder)
    (hfacadeType : style.getString FacadeTypeKey = some facadeType)
    (hfacade : FacadeBuilderFactoryMap.lookup facadeType = some facadeBuilder) :
    ∃ roof facade : StrategySettings,
      (build ext context_ element style s).1 = .returned ∧
      sampledPoints (build ext context_ element style s).2.trace
        = sampledPoints s.trace ++ [GeoCoordinate.mk p1 p0] ∧
      roofSettings (build ext context_ element style s).2.trace = roofSettings s.trace ++ [roof] ∧
      facadeSettings (build ext context_ element style s).2.trace
        = facadeSettings s.trace ++ [facade] ∧
      facade.minHeight = context_.eleProvider.getElevation (GeoCoordinate.mk p1 p0)
        + style.getValue MinHeightKey ∧
      facade.height = (if style.getValue HeightKey = 0 then 10 else style.getValue HeightKey)
        - style.getValue MinHeightKey ∧
      roof.minHeight = (context_.eleProvider.getElevation (GeoCoordinate.mk p1 p0)
          + style.getValue MinHeightKey)
        + ((if style.getValue HeightKey = 0 then 10 else style.getValue HeightKey)
          - style.getValue MinHeightKey) ∧
      roof.minHeight = facade.minHeight + facade.height ∧
      roof.minHeight = context_.eleProvider.getElevation (GeoCoordinate.mk p1 p0)
        + (if style.getValue HeightKey = 0 then 10 else style.getValue HeightKey) := by
  obtain ⟨hret, htrace⟩ := build_trace ext context_ element style s mesh polygon p0 p1 roofType
    facadeType roofBuilder facadeBuilder hmesh hpolygon h0 h1 hroofType hroof hfacadeType hfacade
  refine ⟨StrategySettings.mk (style.getValue RoofHeightKey)
      ((context_.eleProvider.getElevation (GeoCoordinate.mk p1 p0) + style.getValue MinHeightKey)
        + ((if style.getValue HeightKey = 0 then 10 else style.getValue HeightKey)
          - style.getValue MinHeightKey))
      (ext.evaluateGradient style element.tags RoofColorKey) 0,
    StrategySettings.mk
      ((if style.getValue HeightKey = 0 then 10 else style.getValue HeightKey)
        - style.getValue MinHeightKey)
      (context_.eleProvider.getElevation (GeoCoordinate.mk p1 p0) + style.getValue MinHeightKey)
      (ext.evaluateGradient style element.tags FacadeColorKey) 0,
    hret, ?_, ?_, ?_, rfl, rfl, rfl, rfl, ?_⟩
  · rw [htrace]; simp [sampledPoints_append, sampledPoints]
  · rw [htrace]; simp only [roofSettings_append, roofSettings]
  · rw [htrace]; simp only [facadeSettings_append, facadeSettings]
  · simp only []
    ring

/-- C19 at a concrete building: elevation 100, `height` absent (so 10) and
`min-height` 2 give the facade base 102 and height 8 and the roof base 110. -/
theorem build_heights_witness :
    ∃ roof facade : StrategySettings,
      roofSettings (build sampleCollaborators (sampleContext styleZeroHeight)
        (.area 7 [] squareCW) styleZeroHeight stateWithSquare).2.trace = [roof] ∧
      facadeSettings (build sampleCollaborators (sampleContext styleZeroHeight)
        (.area 7 [] squareCW) styleZeroHeight stateWithSquare).2.trace = [facade] ∧
      facade.minHeight = 102 ∧ facade.height = 8 ∧ roof.minHeight = 110 := by
  obtain ⟨roof, facade, _, _, hr, hf, hfm, hfh, _, _, hrm⟩ := build_heights sampleCollaborators
    (sampleContext styleZeroHeight) (.area 7 [] squareCW) styleZeroHeight stateWithSquare
    (Mesh.create "building:7") ((Polygon.create 1 0).addContour (toPoints squareCW)) 0 0
    "flat" "flat" .FlatRoofBuilder .FlatFacadeBuilder rfl rfl rfl rfl rfl rfl rfl rfl
  have hheight : styleZeroHeight.getValue HeightKey = 0 := rfl
  have hmin : styleZeroHeight.getValue MinHeightKey = 2 := rfl
  have hele : (sampleContext styleZeroHeight).eleProvider.getElevation
      { latitude := 0, longitude := 0 } = 100 := rfl
  rw [hele, hmin] at hfm
  rw [hheight, hmin] at hfh
  rw [hele, hheight] at hrm
  refine ⟨roof, facade, hr, hf, ?_, ?_, ?_⟩
  · rw [hfm]; norm_num
  · rw [hfh]; norm_num
  · rw [hrm]; norm_num

/-- C20. For a building area with at least one coordinate, visited from the
empty state, `build` asks the elevation provider exactly once, at the first
coordinate of the area: `toPoints` stores it as `(x = longitude, y = latitude)`,
the fresh polygon holds `x` then `y` as its first raw doubles, and
`GeoCoordinate(points[1], points[0])` is the coordinate again. -/
theorem visitArea_samples_first (ext : Collaborators) (context_ : BuilderContext) (id : Nat)
    (tags : List Tag) (first : GeoCoordinate) (rest : List GeoCoordinate) (s : BuilderState)
    (hpolygon : s.polygon_ = none) (hmesh : s.mesh_ = none)
    (hbuilding : (context_.styleProvider.forElement (.area id tags (first :: rest))
      context_.quadKey.levelOfDetail).getString "building" = some "true") :
    sampledPoints (visitArea ext context_ id tags (first :: rest) s).2.trace
      = sampledPoints s.trace ++ [first] ∧
    toPoints (first :: rest) = Vector2.mk first.longitude first.latitude :: toPoints rest ∧
    ((Polygon.create 1 0).addContour (toPoints (first :: rest))).points
      = first.longitude :: first.latitude :: rawDoubles (toPoints rest) ∧
    GeoCoordinate.mk first.latitude first.longitude = first := by
  refine ⟨?_, rfl, rfl, rfl⟩
  have hstate := ensureContext_state (.area id tags (first :: rest)) s
  have heq : visitArea ext context_ id tags (first :: rest) s
      = (match build ext context_ (.area id tags (first :: rest))
          (context_.styleProvider.forElement (.area id tags (first :: rest))
            context_.quadKey.levelOfDetail)
          { polygon_ := some ((Polygon.create 1 0).addContour (toPoints (first :: rest)))
            mesh_ := some (Mesh.create (getMeshName MeshNamePrefix
              (.area id tags (first :: rest))))
            trace := s.trace } with
        | (.returned, s3) => completeIfNecessary true s3
        | (.failed failure, s3) => (.failed failure, s3)) := by
    simp only [visitArea, isBuilding, derefEqualsTrue, hbuilding, hstate.1, hstate.2, hpolygon,
      hmesh]
    rfl
  rw [heq]
  have hsample := build_samples ext context_ (.area id tags (first :: rest))
    (context_.styleProvider.forElement (.area id tags (first :: rest))
      context_.quadKey.levelOfDetail)
    { polygon_ := some ((Polygon.create 1 0).addContour (toPoints (first :: rest)))
      mesh_ := some (Mesh.create (getMeshName MeshNamePrefix (.area id tags (first :: rest))))
      trace := s.trace } _ _ first.longitude first.latitude rfl rfl
    (by simp [Polygon.create, Polygon.addContour, toPoints, rawDoubles])
    (by simp [Polygon.create, Polygon.addContour, toPoints, rawDoubles])
  revert hsample
  cases build ext context_ (.area id tags (first :: rest))
      (context_.styleProvider.forElement (.area id tags (first :: rest))
        context_.quadKey.levelOfDetail)
      { polygon_ := some ((Polygon.create 1 0).addContour (toPoints (first :: rest)))
        mesh_ := some (Mesh.create (getMeshName MeshNamePrefix (.area id tags (first :: rest))))
        trace := s.trace } with
  | mk outcome s3 =>
    intro hsample
    simp only [] at hsample
    cases outcome with
    | failed failure => exact hsample
    | returned =>
      simp only []
      rw [completeIfNecessary_samples, hsample]

/-- C20 at a concrete building, whose first coordinate is latitude 48,
longitude 11, visited by a fresh builder. -/
theorem visitArea_samples_first_witness :
    sampledPoints (visitArea sampleCollaborators (sampleContext styleZeroHeight) 7 []
      ({ latitude := 48, longitude := 11 } :: squareCW) BuilderState.initial).2.trace
      = [{ latitude := 48, longitude := 11 }] := by
  have h := (visitArea_samples_first sampleCollaborators (sampleContext styleZeroHeight) 7 []
    { latitude := 48, longitude := 11 } squareCW BuilderState.initial rfl rfl rfl).1
  rw [h]
  rfl

/-- C21. When `getStyleProvider` parses a stylesheet (the path is not cached
and its file can be read), the base directory `dir` it hands to the parser is
the prefix of the path up to and including its last `/` or backslash, and the
empty string when the path has neither: the path is `dir` followed by a file
name without separator, and `dir` is empty or ends with a separator. -/
theorem getStyleProvider_base_directory (world : World) (filePath content : String)
    (app : Application) (hsize : filePath.length < 2 ^ 64)
    (hmiss : app.styleProviders_.lookup filePath = none)
    (hread : world.readFile filePath = some content) :
    ∃ dir name : String,
      (getStyleProvider world filePath app).2.trace
        = app.trace ++ [.fileOpened filePath, .parse dir filePath] ∧
      (∀ what, world.parse dir content = .error what →
        (getStyleProvider world filePath app).1 = .error (.exception what)) ∧
      (∀ stylesheet, world.parse dir content = .ok stylesheet →
        (getStyleProvider world filePath app).1
          = .ok { address := app.allocated, stylesheet := stylesheet }) ∧
      filePath = dir ++ name ∧
      (∀ c ∈ name.data, c ∉ "\\/".data) ∧
      (dir = "" ∨ ∃ c ∈ "\\/".data, dir.data.getLast? = some c) ∧
      ((∀ c ∈ filePath.data, c ∉ "\\/".data) → dir = "") := by
  obtain ⟨dir, name, hdir, hpath, hname, hlast, hnone⟩ := base_directory filePath hsize
  refine ⟨dir, name, ?_, ?_, ?_, hpath, hname, hlast, hnone⟩
  · simp only [getStyleProvider, hmiss, hread, hdir]
    cases world.parse dir content <;> simp
  · intro what hparse
    simp only [getStyleProvider, hmiss, hread, hdir, hparse]
  · intro stylesheet hparse
    simp only [getStyleProvider, hmiss, hread, hdir, hparse]

/-- C21 at a concrete path: for `styles/default.mapcss` the parser is handed
`styles/`, and for `default.mapcss` the empty string. -/
theorem getStyleProvider_base_directory_witness :
    (∃ dir name : String,
      (getStyleProvider worldWithStyles "styles/default.mapcss" Application.initial).2.trace
        = [.fileOpened "styles/default.mapcss", .parse dir "styles/default.mapcss"] ∧
      "styles/default.mapcss" = dir ++ name ∧ (∀ c ∈ name.data, c ∉ "\\/".data)) ∧
    (getStyleProvider worldWithStyles "styles/default.mapcss" Application.initial).2.trace
      = [.fileOpened "styles/default.mapcss", .parse "styles/" "styles/default.mapcss"] ∧
    (getStyleProvider worldWithStyles "default.mapcss" Application.initial).2.trace
      = [.fileOpened "default.mapcss", .parse "" "default.mapcss"] := by
  refine ⟨?_, rfl, rfl⟩
  obtain ⟨dir, name, htrace, _, _, hpath, hname, _, _⟩ := getStyleProvider_base_directory
    worldWithStyles "styles/default.mapcss" "canvas styles/default.mapcss" Application.initial
    (by decide) rfl rfl
  exact ⟨dir, name, htrace, hpath, hname⟩

/-- C22 at a polygon record of one ring with four vertices: `visitPolygon`
hands the ring to the visitor, but from the second vertex on each iteration
reads `panPartStart[1]`, one past the single entry of the array; its reads of
`panPartType`, `padfX` and `padfY` are within their arrays. -/
theorem visitPolygon_reads_past_end :
    ∃ st, visitPolygon.loop closedRing closedRing.nVertices.toNat 0 PolygonLoop.initial = .ok st ∧
      st.reads = [.panPartStart 0, .panPartType 0, .padfY 0, .padfX 0,
        .panPartStart 1, .padfY 1, .padfX 1, .panPartStart 1, .padfY 2, .padfX 2,
        .panPartStart 1, .padfY 3, .padfX 3] ∧
      st.reads.filter (fun r => !r.inBounds closedRing)
        = [.panPartStart 1, .panPartStart 1, .panPartStart 1] ∧
      closedRing.nParts = 1 ∧ closedRing.panPartStart.length = 1 ∧
      visitShape closedRing sampleTags []
        = (.returned, [.visitRelation
            [{ isRing := true
               coordinates := [⟨50, 10⟩, ⟨50, 14⟩, ⟨54, 14⟩, ⟨50, 10⟩] }] sampleTags]) :=
  ⟨_, rfl, rfl, by decide, rfl, rfl, rfl⟩

/-- C23 at a building area without coordinates, visited by a fresh builder:
the polygon holds no point when `build` runs, and the read of
`polygon_->points[1]` is out of range. The same holds for a multipolygon
building relation whose two members are areas without coordinates. -/
theorem visitArea_without_coordinates :
    visitArea sampleCollaborators (sampleContext styleZeroHeight) 7 [] [] BuilderState.initial
      = (.failed (.undefined "polygon_->points read out of range"),
          { polygon_ := some ((Polygon.create 1 0).addContour (toPoints []))
            mesh_ := some (Mesh.create "building:7")
            trace := [] }) ∧
    ((Polygon.create 1 0).addContour (toPoints [])).points = [] ∧
    visitRelation sampleCollaborators (sampleContext styleZeroHeight) 1 []
        [.area 8 [] [], .area 9 [] []] BuilderState.initial
      = (.failed (.undefined "polygon_->points read out of range"),
          { polygon_ := some (((Polygon.create 1 0).addHole (toPoints [])).addHole (toPoints []))
            mesh_ := some (Mesh.create "building:1")
            trace := [] }) ∧
    (((Polygon.create 1 0).addHole (toPoints [])).addHole (toPoints [])).points = [] :=
  ⟨rfl, rfl, rfl, rfl⟩

/-- C24. `endsWith(value, ending)` returns, and returns true exactly when
`ending` is a suffix of `value`, that is `value = p ++ ending` for some `p`;
it is true for the empty ending and for `ending = value`, and false when
`ending` is longer than `value`. -/
theorem endsWith_suffix (value ending : String) :
    (endsWith value ending = .ok true ∨ endsWith value ending = .ok false) ∧
    (endsWith value ending = .ok true ↔ ∃ p : String, value = p ++ ending) ∧
    endsWith value "" = .ok true ∧
    endsWith value value = .ok true ∧
    (ending.length > value.length → endsWith value ending = .ok false) := by
  have hiff : ∀ v e : String, (∃ p : String, v = p ++ e) ↔ e.data <:+ v.data := by
    intro v e
    constructor
    · rintro ⟨p, rfl⟩
      exact ⟨p.data, by simp⟩
    · rintro ⟨l, hl⟩
      exact ⟨String.mk l, by ext1; simp [hl]⟩
  refine ⟨?_, ?_, ?_, ?_, ?_⟩
  · rw [endsWith_eq]
    by_cases h : ending.data <:+ value.data <;> simp [h]
  · rw [endsWith_eq, hiff]
    simp
  · rw [endsWith_eq]
    simp
  · rw [endsWith_eq]
    simp
  · intro hlen
    rw [endsWith_eq]
    have : ¬ ending.data <:+ value.data := fun h => by
      have := h.length_le
      simp only [String.length] at hlen
      omega
    simp [this]

/-- C24 at concrete strings: `"default.mapcss"` ends with `".mapcss"`, not
with `".shp"`, and `"shp"` does not end with the longer `".shp"`. -/
theorem endsWith_suffix_witness :
    endsWith "default.mapcss" ".mapcss" = .ok true ∧
    endsWith "default.mapcss" ".shp" = .ok false ∧
    endsWith "shp" ".shp" = .ok false := by
  refine ⟨?_, ?_, ?_⟩
  · exact (endsWith_suffix "default.mapcss" ".mapcss").2.1.mpr ⟨"default", by decide⟩
  · rfl
  · exact (endsWith_suffix "shp" ".shp").2.2.2.2 (by decide)

end utymap
